import Mathlib

/-!
# Sales reporting and inventory update of the e-commerce admin API

A shallow embedding of `src/src/controllers/salesController.js`
(`analyzeRevenue`, `compareRevenue`) with the properties of its revenue
aggregation and comparison, and of `updateInventory` of
`src/src/controllers/inventoryController.js`.

Modelling conventions.
* A JavaScript `Date` is its time value, an `Int` of milliseconds since the
  epoch; `new Date(string)` is a parameter of the model (`JsRuntime.parseDate`),
  `none` standing for `Invalid Date`.
* A Prisma `Decimal` is a rational.  The revenue aggregation is embedded twice.
  `aggregateDouble` computes with JavaScript numbers as the code does: each conversion
  and each addition is rounded to the nearest IEEE-754 binary64 value (`toDouble`);
  `NaN`, the infinities and the sign of zero are outside the model.  `aggregate` and the
  comparison take a JavaScript number as an exact rational; the two aggregations have
  the same keys and quantities, and the same revenues when no operation rounds, as with
  whole prices summing to less than `2 ^ 53` (`aggregateDouble_eq_aggregate`).
* For the sales handlers the Prisma client is an interface of three queries
  which may throw; each of these handlers returns its HTTP response together
  with the list of queries it issued, in order.  For the inventory update the
  two tables it touches are explicit state.
-/

namespace Ecommerce

/-! ## JavaScript strings -/

/-- The UTF-16 code units of one character. -/
def utf16Units (c : Char) : List Nat :=
  if c.toNat < 0x10000 then [c.toNat]
  else [0xD800 + (c.toNat - 0x10000) / 0x400, 0xDC00 + (c.toNat - 0x10000) % 0x400]

/-- The UTF-16 code units of a list of characters. -/
def unitsOfChars : List Char → List Nat
  | [] => []
  | c :: cs => utf16Units c ++ unitsOfChars cs

/-- The UTF-16 code units of a string, which is what JavaScript compares. -/
def codeUnits (s : String) : List Nat := unitsOfChars s.toList

/-- Lexicographic "less than" on sequences of code units. -/
def unitsLt : List Nat → List Nat → Bool
  | _, [] => false
  | [], _ :: _ => true
  | a :: as, b :: bs => decide (a < b) || (decide (a = b) && unitsLt as bs)

/-- The `<` of JavaScript on strings. -/
def jsStringLt (a b : String) : Bool := unitsLt (codeUnits a) (codeUnits b)

/-- The order `Array.prototype.sort()` sorts by when it is given no comparator:
`a` may stand before `b` unless `b < a` as strings. -/
def jsStringLe (a b : String) : Prop := jsStringLt b a = false

instance jsStringLe_decidable : DecidableRel jsStringLe :=
  fun a b => inferInstanceAs (Decidable (jsStringLt b a = false))

/-- The method `sort()` of an array of strings (a stable sort). -/
def jsSort (keys : List String) : List String := List.insertionSort jsStringLe keys

/-- The method `padStart(n, '0')` on a string of digits. -/
def padStart0 (n : Nat) (s : String) : String :=
  String.mk (List.replicate (n - s.length) '0') ++ s

/-! ## JavaScript dates -/

/-- Milliseconds per day, `1000 * 60 * 60 * 24`. -/
def msPerDay : Int := 1000 * 60 * 60 * 24

/-- The calendar fields of a date. -/
structure Civil where
  year : Int
  month : Int
  day : Int
deriving DecidableEq, Repr

/-- The 400-year era of a day number (days since 1970-01-01), eras starting on a
first of March. -/
def eraOf (days : Int) : Int := (days + 719468) / 146097

/-- The day within its era, from 0 to 146096. -/
def dayOfEra (days : Int) : Int := (days + 719468) % 146097

/-- The year within the era, from 0 to 399, of a day of the era. -/
def yearOfEra (doe : Int) : Int := (doe - doe / 1460 + doe / 36524 - doe / 146096) / 365

/-- The day within its year (a year starting on the first of March), from 0 to 365. -/
def dayOfYear (doe : Int) : Int :=
  doe - (365 * yearOfEra doe + yearOfEra doe / 4 - yearOfEra doe / 100)

/-- The month counted from March (0) to February (11) of a day of the year. -/
def monthIndex (doy : Int) : Int := (5 * doy + 2) / 153

/-- The day of the month, from 1, of a day of the year. -/
def dayOfMonth (doy : Int) : Int := doy - (153 * monthIndex doy + 2) / 5 + 1

/-- The proleptic Gregorian date of a day number (days since 1970-01-01): what
`YearFromTime`, `MonthFromTime` (here 1-indexed) and `DateFromTime` of
ECMAScript give. -/
def civilFromDays (days : Int) : Civil :=
  let doe := dayOfEra days
  let mp := monthIndex (dayOfYear doe)
  let m := if mp < 10 then mp + 3 else mp - 9
  { year := yearOfEra doe + eraOf days * 400 + (if m ≤ 2 then 1 else 0),
    month := m,
    day := dayOfMonth (dayOfYear doe) }

/-- The calendar fields of a time value taken as UTC. -/
def civilOfTime (t : Int) : Civil := civilFromDays (t / msPerDay)

/-- The parts of the JavaScript runtime the handlers call and the repository does
not define: the constructor `new Date(string)` (`none` for `Invalid Date`) and the
offset of the server's local time zone, in milliseconds, at a time value. -/
structure JsRuntime where
  parseDate : String → Option Int
  localOffset : Int → Int

/-- The method `getFullYear()`: the year in local time. -/
def getFullYear (rt : JsRuntime) (t : Int) : Int :=
  (civilOfTime (t + rt.localOffset t)).year

/-- The method `getMonth()`: the 0-indexed month in local time. -/
def getMonth (rt : JsRuntime) (t : Int) : Int :=
  (civilOfTime (t + rt.localOffset t)).month - 1

/-- The year of `toISOString()`: four digits from 0 to 9999, else a sign and six digits. -/
def isoYear (y : Int) : String :=
  if 0 ≤ y ∧ y ≤ 9999 then padStart0 4 (toString y.toNat)
  else (if y < 0 then "-" else "+") ++ padStart0 6 (toString y.natAbs)

/-- The value of `toISOString().split('T')[0]`: the UTC date as `YYYY-MM-DD`. -/
def isoDate (t : Int) : String :=
  let c := civilOfTime t
  isoYear c.year ++ "-" ++ padStart0 2 (toString c.month.toNat) ++ "-"
    ++ padStart0 2 (toString c.day.toNat)

/-! ## The period key (the `switch` of `analyzeRevenue`) -/

/-- The four values of the query parameter `period`. -/
inductive Period where
  | day
  | week
  | month
  | year
deriving DecidableEq, Repr

/-- The query parameter `period` when it is one of `day`, `week`, `month`, `year`. -/
def Period.ofString (s : String) : Option Period :=
  if s = "day" then some Period.day
  else if s = "week" then some Period.week
  else if s = "month" then some Period.month
  else if s = "year" then some Period.year
  else none

/-- The value of `diffTime`: `Math.abs(saleDate.getTime() - startDateTime.getTime())`. -/
def diffTime (start saleDate : Int) : Int := |saleDate - start|

/-- The value of `diffDays`: `Math.ceil(diffTime / (1000 * 60 * 60 * 24))`. -/
def diffDays (start saleDate : Int) : Int :=
  ⌈((diffTime start saleDate : Int) : ℚ) / ((msPerDay : Int) : ℚ)⌉

/-- The value of `weekNumber`: `Math.floor(diffDays / 7) + 1`. -/
def weekNumber (start saleDate : Int) : Int :=
  ⌊((diffDays start saleDate : Int) : ℚ) / 7⌋ + 1

/-- The period key of one sale.  `start` is `new Date(startDate)`, `none` when the
string does not parse (the arithmetic then gives `NaN`). -/
def periodKey (rt : JsRuntime) (period : Period) (start : Option Int) (saleDate : Int) : String :=
  match period with
  | Period.day => isoDate saleDate
  | Period.week =>
    match start with
    | some s => "Week " ++ toString (weekNumber s saleDate)
    | none => "Week NaN"
  | Period.month =>
    toString (getFullYear rt saleDate) ++ "-"
      ++ padStart0 2 (toString (getMonth rt saleDate + 1))
  | Period.year => toString (getFullYear rt saleDate)

/-! ## The aggregation (lines 110-153) -/

/-- A row of `prisma.sale.findMany` with the selected fields. -/
structure SaleRecord where
  saleDate : Int
  totalPrice : ℚ
  quantity : Int
deriving DecidableEq

/-- The accumulator stored under one period key. -/
structure Bucket where
  total_revenue : ℚ
  total_quantity_sold : Int
deriving DecidableEq

/-- The object `aggregatedData`: its own properties in insertion order. -/
abbrev AggregatedData := List (String × Bucket)

/-- One pass of the `forEach` body after the key is known: the bucket is created
as `{0, 0}` when the key is new, then the sale is added to it.  The revenue is added
in exact arithmetic; `addSaleDouble` below rounds it as the code does. -/
def addSale : AggregatedData → String → SaleRecord → AggregatedData
  | [], key, sale =>
    [(key, { total_revenue := 0 + sale.totalPrice, total_quantity_sold := 0 + sale.quantity })]
  | (k, b) :: rest, key, sale =>
    if k = key then
      (k, { total_revenue := b.total_revenue + sale.totalPrice,
            total_quantity_sold := b.total_quantity_sold + sale.quantity }) :: rest
    else (k, b) :: addSale rest key sale

/-- The object `aggregatedData` after the `forEach` over the sales. -/
def aggregatedData (rt : JsRuntime) (period : Period) (start : Option Int)
    (sales : List SaleRecord) : AggregatedData :=
  sales.foldl (fun data sale => addSale data (periodKey rt period start sale.saleDate) sale) []

/-- The number written by `x.toFixed(2)`, which `parseFloat` reads back: the multiple
of 0.01 nearest to the exact value of `x`, a tie going away from zero; a number of
magnitude 1e21 or more is left as it is. -/
def toFixed2 (x : ℚ) : ℚ :=
  if |x| ≥ 10 ^ 21 then x
  else if x < 0 then -(((⌊(-x) * 100 + 1 / 2⌋ : Int) : ℚ) / 100)
  else ((⌊x * 100 + 1 / 2⌋ : Int) : ℚ) / 100

/-- One element of the response of `analyzeRevenue`. -/
structure PeriodSummary where
  period_key : String
  total_revenue : ℚ
  total_quantity_sold : Int
deriving DecidableEq

/-- The bucket read back as `aggregatedData[periodKey]`.  The response reads only keys
of the object, for which the lookup succeeds; the empty bucket stands for the
`undefined` of any other key. -/
def bucketAt (data : AggregatedData) (key : String) : Bucket :=
  match data.lookup key with
  | some b => b
  | none => { total_revenue := 0, total_quantity_sold := 0 }

/-- The value of `result`: the keys of the object, sorted, each with its
revenue rounded to two decimals and its quantity.  (`Object.keys` lists
integer-like keys first; the `sort()` that follows makes that order irrelevant.) -/
def summarize (data : AggregatedData) : List PeriodSummary :=
  (jsSort (data.map Prod.fst)).map fun key =>
    { period_key := key,
      total_revenue := toFixed2 (bucketAt data key).total_revenue,
      total_quantity_sold := (bucketAt data key).total_quantity_sold }

/-- The aggregation of `analyzeRevenue`: from the fetched sales to the response body. -/
def aggregate (rt : JsRuntime) (period : Period) (start : Option Int)
    (sales : List SaleRecord) : List PeriodSummary :=
  summarize (aggregatedData rt period start sales)

/-! ## The aggregation in double precision

The numbers of JavaScript are IEEE-754 binary64 values.  The definitions above add
the revenue as exact rationals; the ones below follow line 143 to the bit: the price
is converted to the nearest double by `parseFloat`, the `+=` rounds the sum to the
nearest double, `toFixed(2)` rounds the exact value of the double to two decimals and
`parseFloat` converts the decimal string written to the nearest double.  The keys and
the quantities are the same in both. -/

/-- The position of the leading bit of a natural number, by halving (`fuel` bounds the
number of halvings). -/
def log2Fuel : Nat → Nat → Nat
  | 0, _ => 0
  | fuel + 1, n => if n < 2 then 0 else log2Fuel fuel (n / 2) + 1

/-- The position of the leading bit of a positive natural number: `⌊log₂ n⌋`. -/
def natLog2 (n : Nat) : Nat := log2Fuel n n

/-- The power `2 ^ k` of an integer exponent. -/
def pow2 (k : Int) : ℚ := if 0 ≤ k then 2 ^ k.toNat else 1 / 2 ^ (-k).toNat

/-- The binary exponent of a non-zero rational: the `e` with `2 ^ e ≤ |a| < 2 ^ (e + 1)`. -/
def floorLog2 (a : ℚ) : Int :=
  let e : Int := (natLog2 a.num.natAbs : Int) - (natLog2 a.den : Int)
  if pow2 e ≤ |a| then e else e - 1

/-- The nearest integer, a tie going to the even one. -/
def roundHalfEven (y : ℚ) : Int :=
  if y - (⌊y⌋ : Int) < 1 / 2 then ⌊y⌋
  else if 1 / 2 < y - (⌊y⌋ : Int) then ⌊y⌋ + 1
  else if ⌊y⌋ % 2 = 0 then ⌊y⌋ else ⌊y⌋ + 1

/-- The spacing of the doubles around a non-zero rational: 53 significant bits, and
`2 ^ (-1074)` in the subnormal range. -/
def ulpOf (x : ℚ) : ℚ := pow2 (max (floorLog2 x) (-1022) - 52)

/-- The double nearest to a rational, a tie going to the even significand (the
rounding of every binary64 operation and of `parseFloat`).  A magnitude beyond the
largest double, which rounds to an infinity, is outside the model, as are `NaN` and
the sign of zero. -/
def toDouble (x : ℚ) : ℚ :=
  if x = 0 then 0 else ((roundHalfEven (x / ulpOf x) : Int) : ℚ) * ulpOf x

/-- One pass of the `forEach` body in double precision (line 143):
`total_revenue += parseFloat(sale.totalPrice.toString())`. -/
def addSaleDouble : AggregatedData → String → SaleRecord → AggregatedData
  | [], key, sale =>
    [(key, { total_revenue := toDouble (0 + toDouble sale.totalPrice),
             total_quantity_sold := 0 + sale.quantity })]
  | (k, b) :: rest, key, sale =>
    if k = key then
      (k, { total_revenue := toDouble (b.total_revenue + toDouble sale.totalPrice),
            total_quantity_sold := b.total_quantity_sold + sale.quantity }) :: rest
    else (k, b) :: addSaleDouble rest key sale

/-- The object `aggregatedData` after the `forEach` over the sales, in double precision. -/
def aggregatedDataDouble (rt : JsRuntime) (period : Period) (start : Option Int)
    (sales : List SaleRecord) : AggregatedData :=
  sales.foldl
    (fun data sale => addSaleDouble data (periodKey rt period start sale.saleDate) sale) []

/-- The value of `result` in double precision: `toFixed(2)` writes the exact value of
the double rounded to two decimals and `parseFloat` reads the double nearest to it. -/
def summarizeDouble (data : AggregatedData) : List PeriodSummary :=
  (jsSort (data.map Prod.fst)).map fun key =>
    { period_key := key,
      total_revenue := toDouble (toFixed2 (bucketAt data key).total_revenue),
      total_quantity_sold := (bucketAt data key).total_quantity_sold }

/-- The aggregation of `analyzeRevenue` in double precision. -/
def aggregateDouble (rt : JsRuntime) (period : Period) (start : Option Int)
    (sales : List SaleRecord) : List PeriodSummary :=
  summarizeDouble (aggregatedDataDouble rt period start sales)

/-! ## The Prisma client -/

/-- The filter `saleDate: { gte, lte }`; a bound is a `Date`, `none` being `Invalid Date`. -/
structure DateFilter where
  gte : Option Int
  lte : Option Int
deriving DecidableEq

/-- The `where` argument of a query on the sales: each filter is optional.
`categoryId` stands for `product: { categoryId }`. -/
structure SaleWhere where
  saleDate : Option DateFilter
  productId : Option String
  categoryId : Option String
deriving DecidableEq

/-- A row of the category table. -/
structure Category where
  id : String
  name : String
deriving DecidableEq

/-- The queries the sales controller issues.  A query either throws (the message of
the error) or returns: `saleFindMany` the selected rows ordered by `saleDate`,
`saleAggregateSum` the field `_sum.totalPrice` (`none` for `null`),
`categoryFindUnique` the row or `null`. -/
structure Prisma where
  saleFindMany : SaleWhere → Except String (List SaleRecord)
  saleAggregateSum : SaleWhere → Except String (Option ℚ)
  categoryFindUnique : String → Except String (Option Category)

/-- A query issued to the store. -/
inductive StoreCall where
  | saleFindMany (w : SaleWhere)
  | saleAggregate (w : SaleWhere)
  | categoryFindUnique (id : String)
deriving DecidableEq

/-- Whether a store call is a revenue sum query (`prisma.sale.aggregate`). -/
def StoreCall.isRevenueSum : StoreCall → Bool
  | StoreCall.saleAggregate _ => true
  | _ => false

/-! ## Requests and responses -/

/-- A query-string parameter as the handler reads it: `none` for `undefined`. -/
abbrev Param := Option String

/-- JavaScript truthiness of a parameter: `undefined` and the empty string are falsy. -/
def truthy : Param → Bool
  | none => false
  | some s => !(s = "")

/-- The string of a parameter that passed its truthiness check. -/
def Param.value (p : Param) : String := p.getD ""

/-- The query of `GET /sales/revenue`. -/
structure RevenueQuery where
  period : Param
  startDate : Param
  endDate : Param
  categoryId : Param
  productId : Param

/-- The query of `GET /sales/revenue/compare`. -/
structure CompareQuery where
  type : Param
  period1Start : Param
  period1End : Param
  period2Start : Param
  period2End : Param
  category1Id : Param
  category2Id : Param

/-- A value of the field `percentage_change`: a number or a string. -/
inductive JsValue where
  | num (x : ℚ)
  | str (s : String)
deriving DecidableEq

/-- The object `period1` / `period2` of a period comparison. -/
structure PeriodSubject where
  startDate : String
  endDate : String
  revenue : ℚ
deriving DecidableEq

/-- The object `category1` / `category2` of a category comparison. -/
structure CategorySubject where
  id : String
  name : String
  revenue : ℚ
deriving DecidableEq

/-- The object `comparisonData` in its two shapes. -/
inductive ComparisonData where
  | period (period1 period2 : PeriodSubject) (difference : ℚ) (percentage_change : JsValue)
  | category (category1 category2 : CategorySubject) (difference : ℚ)
      (percentage_change : JsValue)
deriving DecidableEq

/-- The field `difference` of a comparison. -/
def ComparisonData.difference : ComparisonData → ℚ
  | ComparisonData.period _ _ d _ => d
  | ComparisonData.category _ _ d _ => d

/-- The field `percentage_change` of a comparison. -/
def ComparisonData.percentage_change : ComparisonData → JsValue
  | ComparisonData.period _ _ _ p => p
  | ComparisonData.category _ _ _ p => p

/-- The field `revenue` of the first subject. -/
def ComparisonData.revenue1 : ComparisonData → ℚ
  | ComparisonData.period p1 _ _ _ => p1.revenue
  | ComparisonData.category c1 _ _ _ => c1.revenue

/-- The field `revenue` of the second subject. -/
def ComparisonData.revenue2 : ComparisonData → ℚ
  | ComparisonData.period _ p2 _ _ => p2.revenue
  | ComparisonData.category _ c2 _ _ => c2.revenue

/-- The JSON body of a response. -/
inductive Body where
  | message (text : String)
  | serverError (error : String)
  | summaries (result : List PeriodSummary)
  | comparison (data : ComparisonData)
  | emptyObject
deriving DecidableEq

/-- The call `res.status(code).json(body)`. -/
structure Response where
  status : Nat
  body : Body
deriving DecidableEq

/-! ## The comparison (lines 172-273) -/

/-- The value of `parseFloat(result._sum.totalPrice || 0)`: a `Decimal` is an object,
hence truthy whatever its value, and `null` gives `parseFloat(0)`. -/
def parseFloatSum (sum : Option ℚ) : ℚ :=
  match sum with
  | some d => d
  | none => 0

/-- The expression of `percentage_change`, evaluated: its value and the divisor of
each division it performed.  `subject` is `period1` or `category1`. -/
def percentageChangeEval (subject : String) (revenue1 revenue2 : ℚ) : JsValue × List ℚ :=
  if revenue1 = 0 then
    (if revenue2 = 0 then (JsValue.num 0, [])
     else (JsValue.str ("N/A (" ++ subject ++ " revenue is zero)"), []))
  else (JsValue.num ((revenue2 - revenue1) / revenue1 * 100), [revenue1])

/-- The value of the field `percentage_change`. -/
def percentageChange (subject : String) (revenue1 revenue2 : ℚ) : JsValue :=
  (percentageChangeEval subject revenue1 revenue2).1

/-- The object `comparisonData` built by the branch `type === 'period'` (lines 205-218). -/
def periodComparison (period1Start period1End period2Start period2End : String)
    (revenue1 revenue2 : ℚ) : ComparisonData :=
  ComparisonData.period
    { startDate := period1Start, endDate := period1End, revenue := revenue1 }
    { startDate := period2Start, endDate := period2End, revenue := revenue2 }
    (revenue2 - revenue1)
    (percentageChange "period1" revenue1 revenue2)

/-- The object `comparisonData` built by the branch `type === 'category'` (lines 252-265). -/
def categoryComparison (category1Id category1Name category2Id category2Name : String)
    (revenue1 revenue2 : ℚ) : ComparisonData :=
  ComparisonData.category
    { id := category1Id, name := category1Name, revenue := revenue1 }
    { id := category2Id, name := category2Name, revenue := revenue2 }
    (revenue2 - revenue1)
    (percentageChange "category1" revenue1 revenue2)

/-- The `where` of `queryPeriodRevenue(start, end)`. -/
def periodWhere (rt : JsRuntime) (start finish : String) : SaleWhere :=
  { saleDate := some { gte := rt.parseDate start, lte := rt.parseDate finish },
    productId := none, categoryId := none }

/-- The `where` of `queryCategoryRevenue(catId)`. -/
def categoryWhere (catId : String) : SaleWhere :=
  { saleDate := none, productId := none, categoryId := some catId }

/-- The response of the `catch` blocks: status 500 with the message of the error. -/
def serverError (error : String) : Response :=
  { status := 500, body := Body.serverError error }

/-- The branch `type === 'period'` of `compareRevenue`. -/
def compareByPeriod (rt : JsRuntime) (db : Prisma) (q : CompareQuery) :
    Response × List StoreCall :=
  if !truthy q.period1Start || !truthy q.period1End || !truthy q.period2Start
      || !truthy q.period2End then
    ({ status := 400, body := Body.message
        "For period comparison, period1Start, period1End, period2Start, and period2End are required." },
     [])
  else
    let where1 := periodWhere rt q.period1Start.value q.period1End.value
    let where2 := periodWhere rt q.period2Start.value q.period2End.value
    match db.saleAggregateSum where1 with
    | Except.error e => (serverError e, [StoreCall.saleAggregate where1])
    | Except.ok sum1 =>
      match db.saleAggregateSum where2 with
      | Except.error e =>
        (serverError e, [StoreCall.saleAggregate where1, StoreCall.saleAggregate where2])
      | Except.ok sum2 =>
        ({ status := 200, body := Body.comparison
            (periodComparison q.period1Start.value q.period1End.value q.period2Start.value
              q.period2End.value (parseFloatSum sum1) (parseFloatSum sum2)) },
         [StoreCall.saleAggregate where1, StoreCall.saleAggregate where2])

/-- The branch `type === 'category'` of `compareRevenue`. -/
def compareByCategory (db : Prisma) (q : CompareQuery) : Response × List StoreCall :=
  if !truthy q.category1Id || !truthy q.category2Id then
    ({ status := 400, body := Body.message
        "For category comparison, category1Id and category2Id are required." }, [])
  else
    let id1 := q.category1Id.value
    let id2 := q.category2Id.value
    match db.categoryFindUnique id1 with
    | Except.error e => (serverError e, [StoreCall.categoryFindUnique id1])
    | Except.ok category1NameResult =>
      match db.categoryFindUnique id2 with
      | Except.error e =>
        (serverError e, [StoreCall.categoryFindUnique id1, StoreCall.categoryFindUnique id2])
      | Except.ok category2NameResult =>
        match category1NameResult, category2NameResult with
        | some category1, some category2 =>
          match db.saleAggregateSum (categoryWhere id1) with
          | Except.error e =>
            (serverError e,
             [StoreCall.categoryFindUnique id1, StoreCall.categoryFindUnique id2,
              StoreCall.saleAggregate (categoryWhere id1)])
          | Except.ok sum1 =>
            match db.saleAggregateSum (categoryWhere id2) with
            | Except.error e =>
              (serverError e,
               [StoreCall.categoryFindUnique id1, StoreCall.categoryFindUnique id2,
                StoreCall.saleAggregate (categoryWhere id1),
                StoreCall.saleAggregate (categoryWhere id2)])
            | Except.ok sum2 =>
              ({ status := 200, body := Body.comparison
                  (categoryComparison id1 category1.name id2 category2.name
                    (parseFloatSum sum1) (parseFloatSum sum2)) },
               [StoreCall.categoryFindUnique id1, StoreCall.categoryFindUnique id2,
                StoreCall.saleAggregate (categoryWhere id1),
                StoreCall.saleAggregate (categoryWhere id2)])
        | _, _ =>
          ({ status := 404, body := Body.message "One or both categories not found." },
           [StoreCall.categoryFindUnique id1, StoreCall.categoryFindUnique id2])

/-- The handler `compareRevenue`: the response and the store queries issued. -/
def compareRevenue (rt : JsRuntime) (db : Prisma) (q : CompareQuery) :
    Response × List StoreCall :=
  if !truthy q.type || !(["period", "category"].contains q.type.value) then
    ({ status := 400, body := Body.message
        "Invalid or missing \"type\" parameter. Must be \"period\" or \"category\"." }, [])
  else if q.type.value = "period" then compareByPeriod rt db q
  else if q.type.value = "category" then compareByCategory db q
  else ({ status := 200, body := Body.emptyObject }, [])

/-! ## The revenue analysis endpoint (lines 80-160) -/

/-- The `whereClause` of `analyzeRevenue` (lines 90-95). -/
def revenueWhere (rt : JsRuntime) (q : RevenueQuery) : SaleWhere :=
  { saleDate := some { gte := rt.parseDate q.startDate.value,
                       lte := rt.parseDate q.endDate.value },
    productId := none, categoryId := none }

/-- The check of line 83 on `period`: the granularity when the parameter is truthy
and one of `day`, `week`, `month`, `year`, and `none` when the request is refused. -/
def validPeriod (period : Param) : Option Period :=
  if truthy period then Period.ofString period.value else none

/-- The handler `analyzeRevenue`: the response and the store queries issued. -/
def analyzeRevenue (rt : JsRuntime) (db : Prisma) (q : RevenueQuery) :
    Response × List StoreCall :=
  match validPeriod q.period with
  | none =>
    ({ status := 400, body := Body.message
        "Invalid or missing \"period\" parameter. Must be one of: day, week, month, year." }, [])
  | some period =>
    if !truthy q.startDate || !truthy q.endDate then
      ({ status := 400, body := Body.message
          "startDate and endDate are required for revenue analysis." }, [])
    else
      match db.saleFindMany (revenueWhere rt q) with
      | Except.error e => (serverError e, [StoreCall.saleFindMany (revenueWhere rt q)])
      | Except.ok sales =>
        ({ status := 200, body := Body.summaries
            (aggregate rt period (rt.parseDate q.startDate.value) sales) },
         [StoreCall.saleFindMany (revenueWhere rt q)])

/-! ## An in-memory store, for concrete instances -/

/-- A row of the sale table with the product it belongs to and that product's category. -/
structure SaleRow where
  productId : String
  categoryId : String
  saleDate : Int
  totalPrice : ℚ
  quantity : Int
deriving DecidableEq

/-- The contents of a database: the sale rows and the categories. -/
structure Database where
  sales : List SaleRow
  categories : List Category

/-- Whether a `where` holds an `Invalid Date`, which Prisma refuses. -/
def SaleWhere.invalid (w : SaleWhere) : Bool :=
  match w.saleDate with
  | some f => f.gte.isNone || f.lte.isNone
  | none => false

/-- Whether a sale row satisfies a `where`. -/
def SaleWhere.admits (w : SaleWhere) (r : SaleRow) : Bool :=
  (match w.saleDate with
   | some f =>
     (match f.gte with
      | some t => decide (t ≤ r.saleDate)
      | none => false)
     && (match f.lte with
      | some t => decide (r.saleDate ≤ t)
      | none => false)
   | none => true)
  && (match w.productId with
   | some p => decide (r.productId = p)
   | none => true)
  && (match w.categoryId with
   | some c => decide (r.categoryId = c)
   | none => true)

/-- The selected fields of a sale row. -/
def SaleRow.record (r : SaleRow) : SaleRecord :=
  { saleDate := r.saleDate, totalPrice := r.totalPrice, quantity := r.quantity }

/-- The Prisma client of an in-memory database: `findMany` filters the rows and
orders them by `saleDate`, `aggregate` sums `totalPrice` over the filtered rows
(`null` when there is none), `findUnique` looks the id up. -/
def Database.client (d : Database) : Prisma :=
  { saleFindMany := fun w =>
      if w.invalid then Except.error "Invalid value provided. Expected DateTime."
      else Except.ok
        (List.insertionSort (fun a b : SaleRecord => a.saleDate ≤ b.saleDate)
          ((d.sales.filter w.admits).map SaleRow.record)),
    saleAggregateSum := fun w =>
      if w.invalid then Except.error "Invalid value provided. Expected DateTime."
      else match d.sales.filter w.admits with
        | [] => Except.ok none
        | r :: rs => Except.ok (some ((r :: rs).map SaleRow.totalPrice).sum),
    categoryFindUnique := fun id => Except.ok (d.categories.find? fun c => decide (c.id = id)) }

/-- The day number (days since 1970-01-01) of a proleptic Gregorian date, the inverse
of `civilFromDays`: `MakeDay` of ECMAScript. -/
def daysFromCivil (year month day : Int) : Int :=
  let y := if month ≤ 2 then year - 1 else year
  let mp := if 2 < month then month - 3 else month + 9
  y / 400 * 146097
    + (y % 400 * 365 + y % 400 / 4 - y % 400 / 100 + ((153 * mp + 2) / 5 + day - 1))
    - 719468

/-- The number written by a list of decimal digits. -/
def digitsValue (cs : List Char) : Int :=
  ((cs.foldl (fun n c => 10 * n + (c.toNat - 48)) 0 : Nat) : Int)

/-- The constructor `new Date(s)` on the date-only form `YYYY-MM-DD` of the ECMAScript
date-time string format: midnight UTC of that calendar date, whatever the local zone.
The instances of this development pass dates of this form only; any other string,
and a string of this form that names no calendar date, is read as `Invalid Date`
here, whereas an engine reads more forms. -/
def parseDateOnly (s : String) : Option Int :=
  match s.toList with
  | [y1, y2, y3, y4, '-', m1, m2, '-', d1, d2] =>
    if [y1, y2, y3, y4, m1, m2, d1, d2].all Char.isDigit then
      let year := digitsValue [y1, y2, y3, y4]
      let month := digitsValue [m1, m2]
      let day := digitsValue [d1, d2]
      if civilFromDays (daysFromCivil year month day)
          = { year := year, month := month, day := day } then
        some (daysFromCivil year month day * msPerDay)
      else none
    else none
  | _ => none

/-- A runtime in UTC, with `new Date(s)` reading the dates `YYYY-MM-DD`. -/
def utcRuntime : JsRuntime :=
  { parseDate := parseDateOnly, localOffset := fun _ => 0 }

/-- A parameter counts as missing when it is absent or empty: the two values the
handlers refuse with `!param`. -/
def Param.missing (p : Param) : Prop := p = none ∨ p = some ""

/-- A database for concrete instances: three sales of 1000, 1500 and 500 at
2024-01-05T10:00Z, 2024-02-10T14:00Z and 2024-03-15T09:00Z, one in each of the first
three categories; the fourth category has no sale. -/
def exampleDb : Database :=
  { sales := [{ productId := "p1", categoryId := "c1", saleDate := 1704448800000,
                totalPrice := 1000, quantity := 1 },
              { productId := "p2", categoryId := "c2", saleDate := 1707573600000,
                totalPrice := 1500, quantity := 1 },
              { productId := "p3", categoryId := "c3", saleDate := 1710493200000,
                totalPrice := 500, quantity := 2 }],
    categories := [{ id := "c1", name := "Electronics" }, { id := "c2", name := "Books" },
                   { id := "c3", name := "Home Goods" }, { id := "c4", name := "Toys" }] }

/-- A period comparison request with the four bounds given. -/
def periodQuery (s1 e1 s2 e2 : String) : CompareQuery :=
  { type := some "period", period1Start := some s1, period1End := some e1,
    period2Start := some s2, period2End := some e2, category1Id := none, category2Id := none }

/-- A category comparison request with the two ids given. -/
def categoryQuery (id1 id2 : String) : CompareQuery :=
  { type := some "category", period1Start := none, period1End := none,
    period2Start := none, period2End := none, category1Id := some id1,
    category2Id := some id2 }

/-! ## Notions used to state the properties of the aggregation -/

/-- The period key of a sale record. -/
def keyOf (rt : JsRuntime) (period : Period) (start : Option Int) (sale : SaleRecord) : String :=
  periodKey rt period start sale.saleDate

/-- The records of a list whose sale date maps to a given period key, in their order. -/
def recordsOf (rt : JsRuntime) (period : Period) (start : Option Int)
    (sales : List SaleRecord) (key : String) : List SaleRecord :=
  sales.filter fun sale => decide (keyOf rt period start sale = key)

/-- The sum of the `totalPrice` of a list of records. -/
def sumTotalPrice (sales : List SaleRecord) : ℚ := (sales.map SaleRecord.totalPrice).sum

/-- The sum of the `quantity` of a list of records. -/
def sumQuantity (sales : List SaleRecord) : Int := (sales.map SaleRecord.quantity).sum

/-- The accumulation of `aggregatedData` started from any object instead of `{}`. -/
def accumulateFrom (rt : JsRuntime) (period : Period) (start : Option Int)
    (data : AggregatedData) (sales : List SaleRecord) : AggregatedData :=
  sales.foldl (fun data sale => addSale data (periodKey rt period start sale.saleDate) sale) data

/-- The accumulation of `aggregatedData` in double precision, started from any object. -/
def accumulateFromDouble (rt : JsRuntime) (period : Period) (start : Option Int)
    (data : AggregatedData) (sales : List SaleRecord) : AggregatedData :=
  sales.foldl
    (fun data sale => addSaleDouble data (periodKey rt period start sale.saleDate) sale) data

/-- The sum of the `totalPrice` of a list of records as line 143 computes it from the
balance `init`: in the order of the list, each price converted to the nearest double
and each addition rounded to the nearest double. -/
def sumTotalPriceDoubleFrom (init : ℚ) (sales : List SaleRecord) : ℚ :=
  sales.foldl (fun acc sale => toDouble (acc + toDouble sale.totalPrice)) init

/-- The double-precision sum of the `totalPrice` of a list of records, from 0. -/
def sumTotalPriceDouble (sales : List SaleRecord) : ℚ := sumTotalPriceDoubleFrom 0 sales

/-- Modelled from the specification: a decimal "rounded half-up to 2 fractional
digits". -/
def roundHalfUp2 (x : ℚ) : ℚ := ((⌊x * 100 + 1 / 2⌋ : Int) : ℚ) / 100

/-- The sum of the magnitudes of the `totalPrice` of a list of records. -/
def sumAbsTotalPrice (sales : List SaleRecord) : ℚ :=
  (sales.map fun sale => |sale.totalPrice|).sum

/-- The key and the quantity of a summary. -/
def PeriodSummary.keyAndQuantity (σ : PeriodSummary) : String × Int :=
  (σ.period_key, σ.total_quantity_sold)

/-- The chronological order of calendar dates: by year, then month, then day. -/
def civilLe (a b : Civil) : Prop :=
  a.year < b.year
    ∨ (a.year = b.year ∧ (a.month < b.month ∨ (a.month = b.month ∧ a.day ≤ b.day)))

/-- The code units of a number below 10000 written with four decimal digits. -/
def digits4 (n : Nat) : List Nat :=
  [48 + n / 1000, 48 + n / 100 % 10, 48 + n / 10 % 10, 48 + n % 10]

/-- The code units of a number below 100 written with two decimal digits. -/
def digits2 (n : Nat) : List Nat := [48 + n / 10, 48 + n % 10]

/-- The server's local time never runs backwards: a later instant has a later or equal
local time value (so it is for every zone of fixed offset). -/
def localTimeMonotone (rt : JsRuntime) : Prop :=
  ∀ a b : Int, a ≤ b → a + rt.localOffset a ≤ b + rt.localOffset b

/-- The sale dates whose key has the fixed width of its granularity: a UTC year from 0
to 9999 for a day key, a local year from 1000 to 9999 for a month or year key. -/
def fixedWidthYear (rt : JsRuntime) (period : Period) (t : Int) : Prop :=
  match period with
  | Period.day => 0 ≤ (civilOfTime t).year ∧ (civilOfTime t).year ≤ 9999
  | Period.week => True
  | Period.month => 1000 ≤ getFullYear rt t ∧ getFullYear rt t ≤ 9999
  | Period.year => 1000 ≤ getFullYear rt t ∧ getFullYear rt t ≤ 9999

/-- The number of code units of the keys of a granularity: `YYYY-MM-DD`, `YYYY-MM`, `YYYY`. -/
def keyWidth (period : Period) : Nat :=
  match period with
  | Period.day => 10
  | Period.week => 0
  | Period.month => 7
  | Period.year => 4

instance fixedWidthYear_decidable (rt : JsRuntime) (period : Period) (t : Int) :
    Decidable (fixedWidthYear rt period t) := by
  unfold fixedWidthYear
  cases period <;> infer_instance

/-- The three sales of the example of the specification: 2024-01-05, 2024-02-10 and
2024-03-15 (the times of day are those of the seed script). -/
def exampleSales : List SaleRecord :=
  [{ saleDate := 1704448800000, totalPrice := 1200, quantity := 1 },
   { saleDate := 1707573600000, totalPrice := 1200, quantity := 1 },
   { saleDate := 1710493200000, totalPrice := 3600, quantity := 3 }]

/-- A runtime whose local zone is five hours ahead of UTC. -/
def plusFiveRuntime : JsRuntime :=
  { parseDate := utcRuntime.parseDate, localOffset := fun _ => 5 * 3600000 }

/-! ## The inventory update (`inventoryController.js`, lines 61-118)

The schema of the database is not part of the sources.  The model keeps the two
tables the update touches and takes as a parameter, `accepts`, which values the
integer columns of the schema take: Prisma refuses any other value and the query
throws. -/

/-- A row of the inventory table; there is one per product. -/
structure Inventory where
  productId : String
  quantity : Int
  lowStockThreshold : Int
deriving DecidableEq

/-- A row of the inventory history table. -/
structure InventoryHistory where
  productId : String
  changeQuantity : Int
  newQuantity : Int
deriving DecidableEq

/-- The inventory table and the inventory history table, the latter in the order of
creation of its rows. -/
structure InventoryDb where
  inventory : List Inventory
  inventoryHistory : List InventoryHistory
deriving DecidableEq

/-- The field `change_quantity` of the request body, for the bodies the model covers:
the field is absent, or `isNaN` holds of it (a string that is no number, an object),
or it is a number with an integral value.  Numeric strings, fractions, `null` and
booleans, which `isNaN` and `parseInt` coerce, are outside the model. -/
inductive ChangeQuantity where
  | absent
  | notNumeric
  | integer (c : Int)
deriving DecidableEq

/-- The first decimal digit of a natural number. -/
def leadingDigit (n : Nat) : Int :=
  match Nat.toDigits 10 n with
  | d :: _ => (d.toNat : Int) - 48
  | [] => 0

/-- The value of `parseInt(c)` for a number `c` with an integral value: `parseInt`
reads the string of the number, which is its decimal writing below 1e21 and the
exponent notation `d.ddde+NN` from 1e21 on, where the reading stops after the first
digit. -/
def parseIntOfNumber (c : Int) : Int :=
  if c.natAbs < 10 ^ 21 then c
  else if c < 0 then -leadingDigit c.natAbs
  else leadingDigit c.natAbs

/-- The 32-bit signed integers, the values of an `Int` column of Prisma. -/
def int32 (v : Int) : Bool := decide (-2147483648 ≤ v ∧ v ≤ 2147483647)

/-- The message of the error Prisma throws for a value its column does not take. -/
def valueOutOfRange : String := "Value out of range for the type"

/-- The query `prisma.inventory.findUnique({ where: { productId } })`. -/
def InventoryDb.findUnique (db : InventoryDb) (productId : String) : Option Inventory :=
  db.inventory.find? fun row => decide (row.productId = productId)

/-- The rows after `prisma.inventory.update({ where: { productId }, data: { quantity } })`. -/
def InventoryDb.update (db : InventoryDb) (productId : String) (quantity : Int) : InventoryDb :=
  { db with
    inventory := db.inventory.map fun row =>
      if row.productId = productId then { row with quantity := quantity } else row }

/-- The rows after `prisma.inventoryHistory.create({ data })`. -/
def InventoryDb.createHistory (db : InventoryDb) (data : InventoryHistory) : InventoryDb :=
  { db with inventoryHistory := db.inventoryHistory ++ [data] }

/-- The callback of `prisma.$transaction` (lines 70-102): the inventory it returns and
the database it leaves, or the message of the error thrown. -/
def updateInventoryTransaction (accepts : Int → Bool) (db : InventoryDb) (productId : String)
    (change_quantity : Int) : Except String (Inventory × InventoryDb) :=
  match db.findUnique productId with
  | none => Except.error "Inventory for product not found."
  | some currentInventory =>
    let oldQuantity := currentInventory.quantity
    let newQuantity := oldQuantity + parseIntOfNumber change_quantity
    if newQuantity < 0 then Except.error "Cannot set inventory quantity below zero."
    else if !accepts newQuantity then Except.error valueOutOfRange
    else if !accepts (parseIntOfNumber change_quantity) then Except.error valueOutOfRange
    else
      Except.ok
        ({ currentInventory with quantity := newQuantity },
         (db.update productId newQuantity).createHistory
           { productId := productId, changeQuantity := parseIntOfNumber change_quantity,
             newQuantity := newQuantity })

/-- The JSON body of a response of `updateInventory`. -/
inductive InventoryBody where
  | message (text : String)
  | updated (text : String) (inventory : Inventory)
  | serverError (error : String)
deriving DecidableEq

/-- The response of `updateInventory`. -/
structure InventoryResponse where
  status : Nat
  body : InventoryBody
deriving DecidableEq

/-- The handler `updateInventory`: the response and the database it leaves.  A
transaction whose callback throws is rolled back and leaves the database as it was. -/
def updateInventory (accepts : Int → Bool) (db : InventoryDb) (productId : String)
    (change_quantity : ChangeQuantity) : InventoryResponse × InventoryDb :=
  match change_quantity with
  | ChangeQuantity.absent =>
    ({ status := 400, body := InventoryBody.message "Invalid or missing \"change_quantity\"." },
     db)
  | ChangeQuantity.notNumeric =>
    ({ status := 400, body := InventoryBody.message "Invalid or missing \"change_quantity\"." },
     db)
  | ChangeQuantity.integer c =>
    match updateInventoryTransaction accepts db productId c with
    | Except.ok (updatedInventory, db') =>
      ({ status := 200,
         body := InventoryBody.updated "Inventory updated successfully" updatedInventory },
       db')
    | Except.error message =>
      if message = "Inventory for product not found." then
        ({ status := 404, body := InventoryBody.message message }, db)
      else if message = "Cannot set inventory quantity below zero." then
        ({ status := 400, body := InventoryBody.message message }, db)
      else ({ status := 500, body := InventoryBody.serverError message }, db)

/-- A database with one inventory, of quantity 5, and no history. -/
def exampleInventoryDb : InventoryDb :=
  { inventory := [{ productId := "p1", quantity := 5, lowStockThreshold := 10 }],
    inventoryHistory := [] }

/-! # Properties

## Helper facts -/

/-- A parameter whose string is a given non-empty string is that string. -/
theorem value_eq_iff (p : Param) (s : String) (hs : s ≠ "") : p.value = s ↔ p = some s := by
  cases p with
  | none => simp [Param.value]; exact fun h => hs h.symm
  | some x => simp [Param.value]

/-- Every successful comparison is built by one of the two branches from the sums
the store returned. -/
theorem compareRevenue_ok (rt : JsRuntime) (db : Prisma) (q : CompareQuery)
    (c : ComparisonData) (t : List StoreCall)
    (h : compareRevenue rt db q = ({ status := 200, body := Body.comparison c }, t)) :
    (q.type = some "period" ∧
      ∃ sum1 sum2,
        db.saleAggregateSum (periodWhere rt q.period1Start.value q.period1End.value)
          = Except.ok sum1 ∧
        db.saleAggregateSum (periodWhere rt q.period2Start.value q.period2End.value)
          = Except.ok sum2 ∧
        c = periodComparison q.period1Start.value q.period1End.value q.period2Start.value
              q.period2End.value (parseFloatSum sum1) (parseFloatSum sum2) ∧
        t = [StoreCall.saleAggregate (periodWhere rt q.period1Start.value q.period1End.value),
             StoreCall.saleAggregate (periodWhere rt q.period2Start.value q.period2End.value)])
    ∨ (q.type = some "category" ∧
      ∃ category1 category2 sum1 sum2,
        db.categoryFindUnique q.category1Id.value = Except.ok (some category1) ∧
        db.categoryFindUnique q.category2Id.value = Except.ok (some category2) ∧
        db.saleAggregateSum (categoryWhere q.category1Id.value) = Except.ok sum1 ∧
        db.saleAggregateSum (categoryWhere q.category2Id.value) = Except.ok sum2 ∧
        c = categoryComparison q.category1Id.value category1.name q.category2Id.value
              category2.name (parseFloatSum sum1) (parseFloatSum sum2) ∧
        t = [StoreCall.categoryFindUnique q.category1Id.value,
             StoreCall.categoryFindUnique q.category2Id.value,
             StoreCall.saleAggregate (categoryWhere q.category1Id.value),
             StoreCall.saleAggregate (categoryWhere q.category2Id.value)]) := by
  unfold compareRevenue at h
  split_ifs at h with h0 hp hc
  · simp at h
  · left
    refine ⟨(value_eq_iff _ _ (by decide)).1 hp, ?_⟩
    unfold compareByPeriod at h
    split_ifs at h with hb
    · simp at h
    · cases h1 : db.saleAggregateSum (periodWhere rt q.period1Start.value q.period1End.value) with
      | error e => simp [h1, serverError] at h
      | ok sum1 =>
        cases h2 : db.saleAggregateSum
            (periodWhere rt q.period2Start.value q.period2End.value) with
        | error e => simp [h1, h2, serverError] at h
        | ok sum2 =>
          simp only [h1, h2, Prod.mk.injEq, Response.mk.injEq, Body.comparison.injEq,
            true_and] at h
          exact ⟨sum1, sum2, rfl, rfl, h.1.symm, h.2.symm⟩
  · right
    refine ⟨(value_eq_iff _ _ (by decide)).1 hc, ?_⟩
    unfold compareByCategory at h
    split_ifs at h with hb
    · simp at h
    · cases h1 : db.categoryFindUnique q.category1Id.value with
      | error e => simp [h1, serverError] at h
      | ok r1 =>
        cases h2 : db.categoryFindUnique q.category2Id.value with
        | error e => simp [h1, h2, serverError] at h
        | ok r2 =>
          cases r1 with
          | none => simp [h1, h2] at h
          | some c1 =>
            cases r2 with
            | none => simp [h1, h2] at h
            | some c2 =>
              cases hs1 : db.saleAggregateSum (categoryWhere q.category1Id.value) with
              | error e => simp [h1, h2, hs1, serverError] at h
              | ok sum1 =>
                cases hs2 : db.saleAggregateSum (categoryWhere q.category2Id.value) with
                | error e => simp [h1, h2, hs1, hs2, serverError] at h
                | ok sum2 =>
                  simp only [h1, h2, hs1, hs2, Prod.mk.injEq, Response.mk.injEq,
                    Body.comparison.injEq, true_and] at h
                  exact ⟨c1, c2, sum1, sum2, rfl, rfl, rfl, rfl, h.1.symm, h.2.symm⟩
  · simp at h


/-! ## The comparison -/

/-- C12: whenever `compareRevenue` answers with a comparison, in period mode or in
category mode, its `difference` is the revenue of the second subject minus the
revenue of the first; both builders give `r2 - r1` for every pair of revenues. -/
theorem compareRevenue_difference (rt : JsRuntime) (db : Prisma) (q : CompareQuery)
    (c : ComparisonData) (t : List StoreCall)
    (h : compareRevenue rt db q = ({ status := 200, body := Body.comparison c }, t)) :
    c.difference = c.revenue2 - c.revenue1
    ∧ (∀ (a b a' b' : String) (r1 r2 : ℚ),
        (periodComparison a b a' b' r1 r2).difference = r2 - r1
        ∧ (categoryComparison a b a' b' r1 r2).difference = r2 - r1) := by
  refine ⟨?_, fun _ _ _ _ _ _ => ⟨rfl, rfl⟩⟩
  rcases compareRevenue_ok rt db q c t h with
    ⟨_, s1, s2, _, _, hc, _⟩ | ⟨_, c1, c2, s1, s2, _, _, _, _, hc, _⟩ <;>
  · subst hc; rfl

/-- C12 at a concrete request: January and February 2024 of the example database have
revenues 1000 and 1500, and the difference is 500. -/
theorem compareRevenue_difference_witness :
    (periodComparison "2024-01-01" "2024-01-31" "2024-02-01" "2024-02-29"
        1000 1500).difference
      = (periodComparison "2024-01-01" "2024-01-31" "2024-02-01" "2024-02-29"
          1000 1500).revenue2
        - (periodComparison "2024-01-01" "2024-01-31" "2024-02-01" "2024-02-29"
            1000 1500).revenue1 :=
  (compareRevenue_difference utcRuntime exampleDb.client
    (periodQuery "2024-01-01" "2024-01-31" "2024-02-01" "2024-02-29")
    (periodComparison "2024-01-01" "2024-01-31" "2024-02-01" "2024-02-29" 1000 1500)
    [StoreCall.saleAggregate (periodWhere utcRuntime "2024-01-01" "2024-01-31"),
     StoreCall.saleAggregate (periodWhere utcRuntime "2024-02-01" "2024-02-29")]
    (by decide!)).1

/-- C13: whenever `compareRevenue` answers with a comparison whose first revenue is not
zero, `percentage_change` is the number `((r2 - r1) / r1) * 100`; with revenues 1000 and
1500 the difference is 500 and the percentage change 50. -/
theorem compareRevenue_percentage_change (rt : JsRuntime) (db : Prisma) (q : CompareQuery)
    (c : ComparisonData) (t : List StoreCall)
    (h : compareRevenue rt db q = ({ status := 200, body := Body.comparison c }, t))
    (h1 : c.revenue1 ≠ 0) :
    c.percentage_change = JsValue.num ((c.revenue2 - c.revenue1) / c.revenue1 * 100)
    ∧ (c.revenue1 = 1000 → c.revenue2 = 1500 →
        c.difference = 500 ∧ c.percentage_change = JsValue.num 50) := by
  have key : c.difference = c.revenue2 - c.revenue1
      ∧ c.percentage_change = JsValue.num ((c.revenue2 - c.revenue1) / c.revenue1 * 100) := by
    rcases compareRevenue_ok rt db q c t h with
      ⟨_, s1, s2, _, _, hc, _⟩ | ⟨_, c1, c2, s1, s2, _, _, _, _, hc, _⟩
    · subst hc
      simp only [periodComparison, ComparisonData.revenue1] at h1
      simp [periodComparison, ComparisonData.difference, ComparisonData.revenue1,
        ComparisonData.revenue2, ComparisonData.percentage_change, percentageChange,
        percentageChangeEval, h1]
    · subst hc
      simp only [categoryComparison, ComparisonData.revenue1] at h1
      simp [categoryComparison, ComparisonData.difference, ComparisonData.revenue1,
        ComparisonData.revenue2, ComparisonData.percentage_change, percentageChange,
        percentageChangeEval, h1]
  refine ⟨key.2, fun e1 e2 => ?_⟩
  rw [key.1, key.2, e1, e2]
  norm_num

/-- C13 at a concrete request: the categories `c1` and `c2` of the example database have
revenues 1000 and 1500; the difference is 500 and the percentage change 50. -/
theorem compareRevenue_percentage_change_witness :
    (categoryComparison "c1" "Electronics" "c2" "Books" 1000 1500).difference = 500
    ∧ (categoryComparison "c1" "Electronics" "c2" "Books" 1000 1500).percentage_change
        = JsValue.num 50 :=
  (compareRevenue_percentage_change utcRuntime exampleDb.client (categoryQuery "c1" "c2")
    (categoryComparison "c1" "Electronics" "c2" "Books" 1000 1500)
    [StoreCall.categoryFindUnique "c1", StoreCall.categoryFindUnique "c2",
     StoreCall.saleAggregate (categoryWhere "c1"), StoreCall.saleAggregate (categoryWhere "c2")]
    (by decide!) (by decide!)).2 (by decide!) (by decide!)

/-- C14, as the claim states it, fails: with a first period without sales (the year
2023) and a second period of revenue 500 (March 2024), `percentage_change` is a string,
'N/A (period1 revenue is zero)'. -/
theorem zero_baseline_percentage_change_is_a_string :
    compareRevenue utcRuntime exampleDb.client
        (periodQuery "2023-01-01" "2023-12-31" "2024-03-01" "2024-03-31")
      = ({ status := 200,
           body := Body.comparison
            (ComparisonData.period
              { startDate := "2023-01-01", endDate := "2023-12-31", revenue := 0 }
              { startDate := "2024-03-01", endDate := "2024-03-31", revenue := 500 }
              500 (JsValue.str "N/A (period1 revenue is zero)")) },
         [StoreCall.saleAggregate (periodWhere utcRuntime "2023-01-01" "2023-12-31"),
          StoreCall.saleAggregate (periodWhere utcRuntime "2024-03-01" "2024-03-31")])
    ∧ ¬ (∀ s : String,
          (periodComparison "2023-01-01" "2023-12-31" "2024-03-01" "2024-03-31"
              0 500).percentage_change
            ≠ JsValue.str s) := by
  refine ⟨by decide!, fun hall => hall "N/A (period1 revenue is zero)" (by decide!)⟩

/-- C14, amended: whenever `compareRevenue` answers with a comparison whose first revenue
is zero and whose second is not, `difference` is the second revenue and `percentage_change`
is no number: it is the string 'N/A (period1 revenue is zero)' in period mode and
'N/A (category1 revenue is zero)' in category mode. -/
theorem compareRevenue_zero_baseline (rt : JsRuntime) (db : Prisma) (q : CompareQuery)
    (c : ComparisonData) (t : List StoreCall)
    (h : compareRevenue rt db q = ({ status := 200, body := Body.comparison c }, t))
    (h1 : c.revenue1 = 0) (h2 : c.revenue2 ≠ 0) :
    c.difference = c.revenue2
    ∧ (∀ x : ℚ, c.percentage_change ≠ JsValue.num x)
    ∧ (q.type = some "period" →
        c.percentage_change = JsValue.str "N/A (period1 revenue is zero)")
    ∧ (q.type = some "category" →
        c.percentage_change = JsValue.str "N/A (category1 revenue is zero)") := by
  rcases compareRevenue_ok rt db q c t h with
    ⟨hq, s1, s2, _, _, hc, _⟩ | ⟨hq, c1, c2, s1, s2, _, _, _, _, hc, _⟩
  · subst hc
    simp only [periodComparison, ComparisonData.revenue1, ComparisonData.revenue2] at h1 h2
    simp [periodComparison, ComparisonData.difference, ComparisonData.revenue2,
      ComparisonData.percentage_change, percentageChange, percentageChangeEval, h1, h2, hq]
  · subst hc
    simp only [categoryComparison, ComparisonData.revenue1, ComparisonData.revenue2] at h1 h2
    simp [categoryComparison, ComparisonData.difference, ComparisonData.revenue2,
      ComparisonData.percentage_change, percentageChange, percentageChangeEval, h1, h2, hq]

/-- C14 amended, at a concrete request: category `c4` has no sale and category `c3` has
revenue 500; the difference is 500 and the percentage change is the string. -/
theorem compareRevenue_zero_baseline_witness :
    (categoryComparison "c4" "Toys" "c3" "Home Goods" 0 500).difference = 500
    ∧ (categoryComparison "c4" "Toys" "c3" "Home Goods" 0 500).percentage_change
        = JsValue.str "N/A (category1 revenue is zero)" :=
  have w := compareRevenue_zero_baseline utcRuntime exampleDb.client (categoryQuery "c4" "c3")
    (categoryComparison "c4" "Toys" "c3" "Home Goods" 0 500)
    [StoreCall.categoryFindUnique "c4", StoreCall.categoryFindUnique "c3",
     StoreCall.saleAggregate (categoryWhere "c4"), StoreCall.saleAggregate (categoryWhere "c3")]
    (by decide!) (by decide!) (by decide!)
  ⟨w.1, w.2.2.2 rfl⟩

/-- C15: whenever `compareRevenue` answers with a comparison whose two revenues are zero,
in either mode, `percentage_change` is the number 0 and `difference` is 0; and for all
revenues the evaluation of `percentage_change` divides by no zero. -/
theorem compareRevenue_both_zero (rt : JsRuntime) (db : Prisma) (q : CompareQuery)
    (c : ComparisonData) (t : List StoreCall)
    (h : compareRevenue rt db q = ({ status := 200, body := Body.comparison c }, t))
    (h1 : c.revenue1 = 0) (h2 : c.revenue2 = 0) :
    c.percentage_change = JsValue.num 0 ∧ c.difference = 0
    ∧ (∀ (subject : String) (r1 r2 divisor : ℚ),
        divisor ∈ (percentageChangeEval subject r1 r2).2 → divisor ≠ 0) := by
  refine ⟨?_, ?_, ?_⟩
  · rcases compareRevenue_ok rt db q c t h with
      ⟨_, s1, s2, _, _, hc, _⟩ | ⟨_, c1, c2, s1, s2, _, _, _, _, hc, _⟩
    · subst hc
      simp only [periodComparison, ComparisonData.revenue1, ComparisonData.revenue2] at h1 h2
      simp [periodComparison, ComparisonData.percentage_change, percentageChange,
        percentageChangeEval, h1, h2]
    · subst hc
      simp only [categoryComparison, ComparisonData.revenue1, ComparisonData.revenue2] at h1 h2
      simp [categoryComparison, ComparisonData.percentage_change, percentageChange,
        percentageChangeEval, h1, h2]
  · rcases compareRevenue_ok rt db q c t h with
      ⟨_, s1, s2, _, _, hc, _⟩ | ⟨_, c1, c2, s1, s2, _, _, _, _, hc, _⟩
    · subst hc
      simp only [periodComparison, ComparisonData.revenue1, ComparisonData.revenue2] at h1 h2
      simp [periodComparison, ComparisonData.difference, h1, h2]
    · subst hc
      simp only [categoryComparison, ComparisonData.revenue1, ComparisonData.revenue2] at h1 h2
      simp [categoryComparison, ComparisonData.difference, h1, h2]
  · intro subject r1 r2 divisor hd
    unfold percentageChangeEval at hd
    split_ifs at hd with e1 e2
    · simp at hd
    · simp at hd
    · simp only [List.mem_singleton] at hd
      rw [hd]; exact e1

/-- C15 at a concrete request: two periods without sales in the example database, the
years 2023 and 2025. -/
theorem compareRevenue_both_zero_witness :
    (periodComparison "2023-01-01" "2023-12-31" "2025-01-01" "2025-12-31"
        0 0).percentage_change = JsValue.num 0
    ∧ (periodComparison "2023-01-01" "2023-12-31" "2025-01-01" "2025-12-31"
        0 0).difference = 0 :=
  have w := compareRevenue_both_zero utcRuntime exampleDb.client
    (periodQuery "2023-01-01" "2023-12-31" "2025-01-01" "2025-12-31")
    (periodComparison "2023-01-01" "2023-12-31" "2025-01-01" "2025-12-31" 0 0)
    [StoreCall.saleAggregate (periodWhere utcRuntime "2023-01-01" "2023-12-31"),
     StoreCall.saleAggregate (periodWhere utcRuntime "2025-01-01" "2025-12-31")]
    (by decide!) (by decide!) (by decide!)
  ⟨w.1, w.2.1⟩

/-- C16, as the claim states it, fails in the zero-baseline case: with revenues 0 and 500
(the year 2023 against March 2024, category `c4` against `c3`) the period branch and
the category branch of the example database give the same difference but two different
values of `percentage_change`. -/
theorem zero_baseline_differs_between_modes :
    compareRevenue utcRuntime exampleDb.client
        (periodQuery "2023-01-01" "2023-12-31" "2024-03-01" "2024-03-31")
      = ({ status := 200,
           body := Body.comparison
            (periodComparison "2023-01-01" "2023-12-31" "2024-03-01" "2024-03-31" 0 500) },
         [StoreCall.saleAggregate (periodWhere utcRuntime "2023-01-01" "2023-12-31"),
          StoreCall.saleAggregate (periodWhere utcRuntime "2024-03-01" "2024-03-31")])
    ∧ compareRevenue utcRuntime exampleDb.client (categoryQuery "c4" "c3")
      = ({ status := 200,
           body := Body.comparison (categoryComparison "c4" "Toys" "c3" "Home Goods" 0 500) },
         [StoreCall.categoryFindUnique "c4", StoreCall.categoryFindUnique "c3",
          StoreCall.saleAggregate (categoryWhere "c4"),
          StoreCall.saleAggregate (categoryWhere "c3")])
    ∧ (periodComparison "2023-01-01" "2023-12-31" "2024-03-01" "2024-03-31"
          0 500).percentage_change
        ≠ (categoryComparison "c4" "Toys" "c3" "Home Goods" 0 500).percentage_change := by
  refine ⟨by decide!, by decide!, by decide!⟩

/-- C16, amended: when a period comparison and a category comparison are answered with
the same pair of revenues, their `difference` is the same; their `percentage_change` is
the same whenever the first revenue is not zero or the second is zero; in the
zero-baseline case each is a string and not a number, naming `period1` in one mode and
`category1` in the other. -/
theorem compareRevenue_modes_agree (rt : JsRuntime) (db : Prisma) (qp qc : CompareQuery)
    (cp cc : ComparisonData) (tp tc : List StoreCall)
    (hp : compareRevenue rt db qp = ({ status := 200, body := Body.comparison cp }, tp))
    (hc : compareRevenue rt db qc = ({ status := 200, body := Body.comparison cc }, tc))
    (hqp : qp.type = some "period") (hqc : qc.type = some "category")
    (e1 : cp.revenue1 = cc.revenue1) (e2 : cp.revenue2 = cc.revenue2) :
    cp.difference = cc.difference
    ∧ (cp.revenue1 ≠ 0 ∨ cp.revenue2 = 0 → cp.percentage_change = cc.percentage_change)
    ∧ (cp.revenue1 = 0 → cp.revenue2 ≠ 0 →
        cp.percentage_change = JsValue.str "N/A (period1 revenue is zero)"
        ∧ cc.percentage_change = JsValue.str "N/A (category1 revenue is zero)") := by
  rcases compareRevenue_ok rt db qp cp tp hp with
    ⟨_, s1, s2, _, _, hcp, _⟩ | ⟨hq, _⟩
  swap
  · rw [hqp] at hq; exact absurd hq (by decide)
  rcases compareRevenue_ok rt db qc cc tc hc with
    ⟨hq, _⟩ | ⟨_, c1, c2, s1', s2', _, _, _, _, hcc, _⟩
  · rw [hqc] at hq; exact absurd hq (by decide)
  subst hcp hcc
  simp only [periodComparison, categoryComparison, ComparisonData.revenue1,
    ComparisonData.revenue2] at e1 e2
  simp only [periodComparison, categoryComparison, ComparisonData.revenue1,
    ComparisonData.revenue2, ComparisonData.difference, ComparisonData.percentage_change,
    percentageChange, percentageChangeEval, ← e1, ← e2]
  refine ⟨trivial, ?_, ?_⟩
  · rintro (h | h)
    · simp [h]
    · by_cases h0 : parseFloatSum s1 = 0 <;> simp [h, h0]
  · intro h0 h1
    simp [h0, h1]

/-- C16 amended, at concrete requests: January and February 2024 and the categories
`c1` and `c2` of the example database both have revenues 1000 and 1500. -/
theorem compareRevenue_modes_agree_witness :
    (periodComparison "2024-01-01" "2024-01-31" "2024-02-01" "2024-02-29"
        1000 1500).difference
      = (categoryComparison "c1" "Electronics" "c2" "Books" 1000 1500).difference
    ∧ (periodComparison "2024-01-01" "2024-01-31" "2024-02-01" "2024-02-29"
        1000 1500).percentage_change
      = (categoryComparison "c1" "Electronics" "c2" "Books" 1000 1500).percentage_change :=
  have w := compareRevenue_modes_agree utcRuntime exampleDb.client
    (periodQuery "2024-01-01" "2024-01-31" "2024-02-01" "2024-02-29") (categoryQuery "c1" "c2")
    (periodComparison "2024-01-01" "2024-01-31" "2024-02-01" "2024-02-29" 1000 1500)
    (categoryComparison "c1" "Electronics" "c2" "Books" 1000 1500)
    [StoreCall.saleAggregate (periodWhere utcRuntime "2024-01-01" "2024-01-31"),
     StoreCall.saleAggregate (periodWhere utcRuntime "2024-02-01" "2024-02-29")]
    [StoreCall.categoryFindUnique "c1", StoreCall.categoryFindUnique "c2",
     StoreCall.saleAggregate (categoryWhere "c1"), StoreCall.saleAggregate (categoryWhere "c2")]
    (by decide!) (by decide!) rfl rfl (by decide!) (by decide!)
  ⟨w.1, w.2.1 (Or.inl (by decide!))⟩

/-- C17: whenever `compareRevenue` answers with a comparison, the store was asked two
sums, one per subject, and each subject's revenue is 0 when its sum came back `null`
and the value of the sum when it came back present. -/
theorem subject_revenue_of_sum (rt : JsRuntime) (db : Prisma) (q : CompareQuery)
    (c : ComparisonData) (t : List StoreCall)
    (h : compareRevenue rt db q = ({ status := 200, body := Body.comparison c }, t)) :
    ∃ (where1 where2 : SaleWhere) (sum1 sum2 : Option ℚ),
      t.filter StoreCall.isRevenueSum
        = [StoreCall.saleAggregate where1, StoreCall.saleAggregate where2]
      ∧ db.saleAggregateSum where1 = Except.ok sum1
      ∧ db.saleAggregateSum where2 = Except.ok sum2
      ∧ (sum1 = none → c.revenue1 = 0) ∧ (∀ d, sum1 = some d → c.revenue1 = d)
      ∧ (sum2 = none → c.revenue2 = 0) ∧ (∀ d, sum2 = some d → c.revenue2 = d) := by
  rcases compareRevenue_ok rt db q c t h with
    ⟨_, s1, s2, h1, h2, hc, ht⟩ | ⟨_, c1, c2, s1, s2, _, _, h1, h2, hc, ht⟩
  · refine ⟨_, _, s1, s2, ?_, h1, h2, ?_, ?_, ?_, ?_⟩
    · subst ht; rfl
    all_goals subst hc
    · intro e; subst e; rfl
    · intro d e; subst e; rfl
    · intro e; subst e; rfl
    · intro d e; subst e; rfl
  · refine ⟨_, _, s1, s2, ?_, h1, h2, ?_, ?_, ?_, ?_⟩
    · subst ht; rfl
    all_goals subst hc
    · intro e; subst e; rfl
    · intro d e; subst e; rfl
    · intro e; subst e; rfl
    · intro d e; subst e; rfl

/-- C17 at a concrete request: category `c4` of the example database has no sale (the
sum is `null`) and category `c3` has the sum 500; the revenues are 0 and 500. -/
theorem subject_revenue_of_sum_witness :
    (exampleDb.client.saleAggregateSum (categoryWhere "c4")).toOption = some none
    ∧ (exampleDb.client.saleAggregateSum (categoryWhere "c3")).toOption = some (some 500)
    ∧ ∃ (where1 where2 : SaleWhere) (sum1 sum2 : Option ℚ),
      [StoreCall.categoryFindUnique "c4", StoreCall.categoryFindUnique "c3",
        StoreCall.saleAggregate (categoryWhere "c4"),
        StoreCall.saleAggregate (categoryWhere "c3")].filter StoreCall.isRevenueSum
        = [StoreCall.saleAggregate where1, StoreCall.saleAggregate where2]
      ∧ exampleDb.client.saleAggregateSum where1 = Except.ok sum1
      ∧ exampleDb.client.saleAggregateSum where2 = Except.ok sum2
      ∧ (sum1 = none →
          (categoryComparison "c4" "Toys" "c3" "Home Goods" 0 500).revenue1 = 0)
      ∧ (∀ d, sum1 = some d →
          (categoryComparison "c4" "Toys" "c3" "Home Goods" 0 500).revenue1 = d)
      ∧ (sum2 = none →
          (categoryComparison "c4" "Toys" "c3" "Home Goods" 0 500).revenue2 = 0)
      ∧ (∀ d, sum2 = some d →
          (categoryComparison "c4" "Toys" "c3" "Home Goods" 0 500).revenue2 = d) :=
  ⟨by decide!, by decide!,
   subject_revenue_of_sum utcRuntime exampleDb.client (categoryQuery "c4" "c3")
    (categoryComparison "c4" "Toys" "c3" "Home Goods" 0 500)
    [StoreCall.categoryFindUnique "c4", StoreCall.categoryFindUnique "c3",
     StoreCall.saleAggregate (categoryWhere "c4"), StoreCall.saleAggregate (categoryWhere "c3")]
    (by decide!)⟩

/-! ## Errors and store queries -/

/-- A parameter is falsy exactly when it is missing. -/
theorem truthy_eq_false_iff (p : Param) : truthy p = false ↔ p.missing := by
  cases p with
  | none => simp [truthy, Param.missing]
  | some s => simp [truthy, Param.missing]

/-- The check on `period` fails exactly when the parameter is missing or is none of the
four names. -/
theorem validPeriod_eq_none_iff (p : Param) :
    validPeriod p = none ↔ p.missing ∨ p.value ∉ ["day", "week", "month", "year"] := by
  unfold validPeriod
  by_cases ht : truthy p = true
  · have hm : ¬ p.missing := fun hm => by
      rw [(truthy_eq_false_iff p).2 hm] at ht; exact absurd ht (by decide)
    simp only [ht, if_true, hm, false_or]
    unfold Period.ofString
    split_ifs with h1 h2 h3 h4 <;> simp [*]
  · have hf : truthy p = false := by simpa using ht
    simp [hf, (truthy_eq_false_iff p).1 hf]

/-- C18: in category mode with both ids given and both lookups answered, if either id
resolves to no category the response is 404, only the two lookups were issued and no
revenue sum was asked; and a comparison is answered only when both lookups found a
category. -/
theorem compareRevenue_category_not_found (rt : JsRuntime) (db : Prisma) (q : CompareQuery)
    (hq : q.type = some "category")
    (h1 : truthy q.category1Id = true) (h2 : truthy q.category2Id = true)
    (r1 r2 : Option Category)
    (l1 : db.categoryFindUnique q.category1Id.value = Except.ok r1)
    (l2 : db.categoryFindUnique q.category2Id.value = Except.ok r2) :
    (r1 = none ∨ r2 = none →
      (compareRevenue rt db q).1
        = { status := 404, body := Body.message "One or both categories not found." }
      ∧ (compareRevenue rt db q).2
        = [StoreCall.categoryFindUnique q.category1Id.value,
           StoreCall.categoryFindUnique q.category2Id.value]
      ∧ ∀ call ∈ (compareRevenue rt db q).2, call.isRevenueSum = false)
    ∧ (∀ c, (compareRevenue rt db q).1.body = Body.comparison c →
        r1 ≠ none ∧ r2 ≠ none) := by
  have hv : q.type.value = "category" := by rw [hq]; rfl
  have hcr : compareRevenue rt db q = compareByCategory db q := by
    unfold compareRevenue
    rw [hv]
    simp [hq, truthy]
  have hnf : r1 = none ∨ r2 = none →
      compareByCategory db q
        = ({ status := 404, body := Body.message "One or both categories not found." },
           [StoreCall.categoryFindUnique q.category1Id.value,
            StoreCall.categoryFindUnique q.category2Id.value]) := by
    intro hr
    unfold compareByCategory
    simp only [h1, h2, l1, l2]
    rcases hr with hr | hr
    · subst hr; simp
    · subst hr; cases r1 <;> simp
  rw [hcr]
  refine ⟨fun hr => ?_, fun c hc => ?_⟩
  · rw [hnf hr]
    refine ⟨rfl, rfl, ?_⟩
    intro call hcall
    simp only [List.mem_cons, List.mem_singleton, List.not_mem_nil, or_false] at hcall
    rcases hcall with e | e <;> subst e <;> rfl
  · constructor
    · intro hr
      rw [hnf (Or.inl hr)] at hc
      simp at hc
    · intro hr
      rw [hnf (Or.inr hr)] at hc
      simp at hc

/-- C18 at a concrete request: `c1` is a category of the example database and `c9` is
not; the response is 404 after the two lookups, without any revenue sum. -/
theorem compareRevenue_category_not_found_witness :
    (compareRevenue utcRuntime exampleDb.client (categoryQuery "c1" "c9")).1
      = { status := 404, body := Body.message "One or both categories not found." }
    ∧ (compareRevenue utcRuntime exampleDb.client (categoryQuery "c1" "c9")).2
      = [StoreCall.categoryFindUnique "c1", StoreCall.categoryFindUnique "c9"]
    ∧ ∀ call ∈ (compareRevenue utcRuntime exampleDb.client (categoryQuery "c1" "c9")).2,
        call.isRevenueSum = false :=
  (compareRevenue_category_not_found utcRuntime exampleDb.client (categoryQuery "c1" "c9")
    rfl (by decide) (by decide) (some { id := "c1", name := "Electronics" }) none
    (by rfl) (by rfl)).1 (Or.inr rfl)

/-- The status of `compareByPeriod` is 400 exactly when a bound is missing, and then no
query was issued. -/
theorem compareByPeriod_status_400 (rt : JsRuntime) (db : Prisma) (q : CompareQuery) :
    ((compareByPeriod rt db q).1.status = 400 ↔
      q.period1Start.missing ∨ q.period1End.missing ∨ q.period2Start.missing
        ∨ q.period2End.missing)
    ∧ ((compareByPeriod rt db q).1.status = 400 → (compareByPeriod rt db q).2 = []) := by
  simp only [← truthy_eq_false_iff]
  unfold compareByPeriod
  split_ifs with hb
  · simp only [Bool.or_eq_true, Bool.not_eq_true', or_assoc] at hb
    simp [hb]
  · simp only [Bool.or_eq_true, Bool.not_eq_true', or_assoc] at hb
    simp only [hb, iff_false]
    cases db.saleAggregateSum (periodWhere rt q.period1Start.value q.period1End.value) with
    | error e => simp [serverError]
    | ok sum1 =>
      cases db.saleAggregateSum (periodWhere rt q.period2Start.value q.period2End.value) with
      | error e => simp [serverError]
      | ok sum2 => simp

/-- The status of `compareByCategory` is 400 exactly when an id is missing, and then no
query was issued. -/
theorem compareByCategory_status_400 (db : Prisma) (q : CompareQuery) :
    ((compareByCategory db q).1.status = 400 ↔
      q.category1Id.missing ∨ q.category2Id.missing)
    ∧ ((compareByCategory db q).1.status = 400 → (compareByCategory db q).2 = []) := by
  simp only [← truthy_eq_false_iff]
  unfold compareByCategory
  split_ifs with hb
  · simp only [Bool.or_eq_true, Bool.not_eq_true'] at hb
    simp [hb]
  · simp only [Bool.or_eq_true, Bool.not_eq_true'] at hb
    simp only [hb, iff_false]
    cases db.categoryFindUnique q.category1Id.value with
    | error e => simp [serverError]
    | ok r1 =>
      cases db.categoryFindUnique q.category2Id.value with
      | error e => simp [serverError]
      | ok r2 =>
        cases r1 with
        | none => simp
        | some c1 =>
          cases r2 with
          | none => simp
          | some c2 =>
            cases db.saleAggregateSum (categoryWhere q.category1Id.value) with
            | error e => simp [serverError]
            | ok sum1 =>
              cases db.saleAggregateSum (categoryWhere q.category2Id.value) with
              | error e => simp [serverError]
              | ok sum2 => simp

/-- The four ways `analyzeRevenue` ends: refused for its period, refused for its dates,
failed in the store, or answered with the aggregation of the fetched sales. -/
theorem analyzeRevenue_cases (rt : JsRuntime) (db : Prisma) (q : RevenueQuery) :
    (validPeriod q.period = none ∧ (analyzeRevenue rt db q).1.status = 400
      ∧ (analyzeRevenue rt db q).2 = [])
    ∨ (∃ period, validPeriod q.period = some period
        ∧ (q.startDate.missing ∨ q.endDate.missing)
        ∧ (analyzeRevenue rt db q).1.status = 400 ∧ (analyzeRevenue rt db q).2 = [])
    ∨ (∃ period e, validPeriod q.period = some period
        ∧ ¬ (q.startDate.missing ∨ q.endDate.missing)
        ∧ db.saleFindMany (revenueWhere rt q) = Except.error e
        ∧ analyzeRevenue rt db q
          = (serverError e, [StoreCall.saleFindMany (revenueWhere rt q)]))
    ∨ (∃ period sales, validPeriod q.period = some period
        ∧ ¬ (q.startDate.missing ∨ q.endDate.missing)
        ∧ db.saleFindMany (revenueWhere rt q) = Except.ok sales
        ∧ analyzeRevenue rt db q
          = ({ status := 200, body := Body.summaries
                (aggregate rt period (rt.parseDate q.startDate.value) sales) },
             [StoreCall.saleFindMany (revenueWhere rt q)])) := by
  cases hp : validPeriod q.period with
  | none =>
    left
    refine ⟨rfl, ?_, ?_⟩ <;> (unfold analyzeRevenue; rw [hp])
  | some period =>
    right
    by_cases hb : (!truthy q.startDate || !truthy q.endDate) = true
    · have hd : q.startDate.missing ∨ q.endDate.missing := by
        simpa only [Bool.or_eq_true, Bool.not_eq_true', truthy_eq_false_iff] using hb
      left
      refine ⟨period, rfl, hd, ?_, ?_⟩ <;>
        (unfold analyzeRevenue; rw [hp]; dsimp only; rw [if_pos hb])
    · have hd : ¬ (q.startDate.missing ∨ q.endDate.missing) := by
        simpa only [Bool.or_eq_true, Bool.not_eq_true', truthy_eq_false_iff] using hb
      right
      cases hdb : db.saleFindMany (revenueWhere rt q) with
      | error e =>
        left
        refine ⟨period, e, rfl, hd, rfl, ?_⟩
        unfold analyzeRevenue; rw [hp]; dsimp only; rw [if_neg hb, hdb]
      | ok sales =>
        right
        refine ⟨period, sales, rfl, hd, rfl, ?_⟩
        unfold analyzeRevenue; rw [hp]; dsimp only; rw [if_neg hb, hdb]

/-- C19: `analyzeRevenue` answers 400 exactly when `period` is missing or none of day,
week, month, year, or `startDate` or `endDate` is missing; `compareRevenue` answers 400
exactly when `type` is missing or none of period, category, or `type` is period and one
of the four bounds is missing, or `type` is category and one of the two ids is missing;
and a request answered 400 has issued no store query.  (Missing: absent or empty.) -/
theorem invalid_argument_iff (rt : JsRuntime) (db : Prisma) :
    (∀ q : RevenueQuery,
      ((analyzeRevenue rt db q).1.status = 400 ↔
        (q.period.missing ∨ q.period.value ∉ ["day", "week", "month", "year"])
          ∨ q.startDate.missing ∨ q.endDate.missing)
      ∧ ((analyzeRevenue rt db q).1.status = 400 → (analyzeRevenue rt db q).2 = []))
    ∧ (∀ q : CompareQuery,
      ((compareRevenue rt db q).1.status = 400 ↔
        (q.type.missing ∨ q.type.value ∉ ["period", "category"])
          ∨ (q.type = some "period" ∧
              (q.period1Start.missing ∨ q.period1End.missing ∨ q.period2Start.missing
                ∨ q.period2End.missing))
          ∨ (q.type = some "category" ∧ (q.category1Id.missing ∨ q.category2Id.missing)))
      ∧ ((compareRevenue rt db q).1.status = 400 → (compareRevenue rt db q).2 = [])) := by
  constructor
  · intro q
    have hP := validPeriod_eq_none_iff q.period
    rcases analyzeRevenue_cases rt db q with
      ⟨hp, hs, ht⟩ | ⟨p, hp, hd, hs, ht⟩ | ⟨p, e, hp, hd, _, he⟩ | ⟨p, sales, hp, hd, _, he⟩
    · exact ⟨⟨fun _ => Or.inl (hP.1 hp), fun _ => hs⟩, fun _ => ht⟩
    · exact ⟨⟨fun _ => Or.inr hd, fun _ => hs⟩, fun _ => ht⟩
    · have hn : ¬ (q.period.missing ∨ q.period.value ∉ ["day", "week", "month", "year"]) :=
        fun hm => by rw [hP.2 hm] at hp; exact absurd hp (by simp)
      rw [he]
      exact ⟨⟨fun h => absurd h (by simp [serverError]), fun h => absurd h (fun h => h.elim hn hd)⟩,
        fun h => absurd h (by simp [serverError])⟩
    · have hn : ¬ (q.period.missing ∨ q.period.value ∉ ["day", "week", "month", "year"]) :=
        fun hm => by rw [hP.2 hm] at hp; exact absurd hp (by simp)
      rw [he]
      exact ⟨⟨fun h => absurd h (by simp), fun h => absurd h (fun h => h.elim hn hd)⟩,
        fun h => absurd h (by simp)⟩
  · intro q
    unfold compareRevenue
    by_cases h0 : (!truthy q.type || !(["period", "category"].contains q.type.value)) = true
    · have hT : q.type.missing ∨ q.type.value ∉ ["period", "category"] := by
        simp only [Bool.or_eq_true, Bool.not_eq_true', truthy_eq_false_iff] at h0
        rcases h0 with h0 | h0
        · exact Or.inl h0
        · right
          intro hmem
          have : ["period", "category"].contains q.type.value = true :=
            List.elem_eq_true_of_mem hmem
          rw [this] at h0
          exact absurd h0 (by decide)
      rw [if_pos h0]
      exact ⟨⟨fun _ => Or.inl hT, fun _ => rfl⟩, fun _ => rfl⟩
    · have hT : ¬ (q.type.missing ∨ q.type.value ∉ ["period", "category"]) := by
        simp only [Bool.or_eq_true, Bool.not_eq_true', truthy_eq_false_iff, not_or] at h0
        rintro (h | h)
        · exact h0.1 h
        · apply h
          have := h0.2
          simp only [Bool.not_eq_false] at this
          exact List.mem_of_elem_eq_true this
      rw [if_neg h0]
      by_cases hp : q.type.value = "period"
      · have hq : q.type = some "period" := (value_eq_iff _ _ (by decide)).1 hp
        have hqc : ¬ q.type = some "category" := by rw [hq]; decide
        have key := compareByPeriod_status_400 rt db q
        rw [if_pos hp]
        refine ⟨⟨fun h => Or.inr (Or.inl ⟨hq, key.1.1 h⟩), fun h => ?_⟩, key.2⟩
        rcases h with h | h | h
        · exact absurd h hT
        · exact key.1.2 h.2
        · exact absurd h.1 hqc
      · by_cases hc : q.type.value = "category"
        · have hq : q.type = some "category" := (value_eq_iff _ _ (by decide)).1 hc
          have hqp : ¬ q.type = some "period" := by rw [hq]; decide
          have key := compareByCategory_status_400 db q
          rw [if_neg hp, if_pos hc]
          refine ⟨⟨fun h => Or.inr (Or.inr ⟨hq, key.1.1 h⟩), fun h => ?_⟩, key.2⟩
          rcases h with h | h | h
          · exact absurd h hT
          · exact absurd h.1 hqp
          · exact key.1.2 h.2
        · exfalso
          apply hT
          right
          intro hmem
          simp only [List.mem_cons, List.mem_singleton, List.not_mem_nil, or_false] at hmem
          exact hmem.elim hp hc

/-- C20 on the code: the example database holds sales of the products `p1`, `p2` and `p3`
in 2024; a request for the revenue per year of 2024 with `productId` `p1` is answered
with the sum over all three products (3000, quantity 4), not over `p1` alone (1000,
quantity 1), and the `where` sent to the store holds no product or category filter. -/
theorem analyzeRevenue_ignores_productId :
    analyzeRevenue utcRuntime exampleDb.client
        { period := some "year", startDate := some "2024-01-01",
          endDate := some "2024-12-31", categoryId := none, productId := some "p1" }
      = ({ status := 200,
           body := Body.summaries
            [{ period_key := "2024", total_revenue := 3000, total_quantity_sold := 4 }] },
         [StoreCall.saleFindMany
            { saleDate := some { gte := some 1704067200000, lte := some 1735603200000 },
              productId := none, categoryId := none }]) := by
  decide!

/-- The response of `analyzeRevenue` does not depend on `categoryId` and `productId`. -/
theorem analyzeRevenue_filters_unused (rt : JsRuntime) (db : Prisma) (q : RevenueQuery)
    (categoryId productId : Param) :
    analyzeRevenue rt db { q with categoryId := categoryId, productId := productId }
      = analyzeRevenue rt db q := rfl

/-! ## Week keys -/

/-- The week key does not depend on the runtime. -/
theorem aggregate_week_runtime (rt rt' : JsRuntime) (start : Option Int)
    (sales : List SaleRecord) :
    aggregate rt Period.week start sales = aggregate rt' Period.week start sales := rfl

/-- C11: with the range starting at time 0, a sale 7 days later falls in week 2 and a
sale 63 days later in week 10, and the summaries of these two sales are emitted with
"Week 10" before "Week 2". -/
theorem week_ten_emitted_before_week_two (rt : JsRuntime) :
    weekNumber 0 (7 * msPerDay) = 2 ∧ weekNumber 0 (63 * msPerDay) = 10
    ∧ aggregate rt Period.week (some 0)
        [{ saleDate := 7 * msPerDay, totalPrice := 10, quantity := 1 },
         { saleDate := 63 * msPerDay, totalPrice := 20, quantity := 2 }]
      = [{ period_key := "Week 10", total_revenue := 20, total_quantity_sold := 2 },
         { period_key := "Week 2", total_revenue := 10, total_quantity_sold := 1 }] := by
  rw [aggregate_week_runtime rt utcRuntime]
  decide!

/-! ## The order of strings -/

theorem unitsLt_irrefl (a : List Nat) : unitsLt a a = false := by
  induction a with
  | nil => rfl
  | cons x xs ih => simp [unitsLt, ih]

theorem unitsLt_asymm : ∀ (a b : List Nat), unitsLt a b = true → unitsLt b a = false
  | _, [], h => by simp [unitsLt] at h
  | [], _ :: _, _ => by simp [unitsLt]
  | x :: xs, y :: ys, h => by
    simp only [unitsLt, Bool.or_eq_true, decide_eq_true_eq, Bool.and_eq_true] at h
    simp only [unitsLt, Bool.or_eq_false_iff, decide_eq_false_iff_not, Bool.and_eq_false_imp,
      decide_eq_true_eq]
    rcases h with h | ⟨h, h'⟩
    · exact ⟨by omega, fun e => by omega⟩
    · exact ⟨by omega, fun _ => unitsLt_asymm xs ys h'⟩

theorem unitsLt_trans : ∀ (a b c : List Nat), unitsLt a b = true → unitsLt b c = true →
    unitsLt a c = true
  | _, _, [], _, h => by simp [unitsLt] at h
  | _, [], _ :: _, h, _ => by simp [unitsLt] at h
  | [], _ :: _, _ :: _, _, _ => by simp [unitsLt]
  | x :: xs, y :: ys, z :: zs, h1, h2 => by
    simp only [unitsLt, Bool.or_eq_true, decide_eq_true_eq, Bool.and_eq_true] at h1 h2 ⊢
    rcases h1 with h1 | ⟨h1, h1'⟩ <;> rcases h2 with h2 | ⟨h2, h2'⟩
    · left; omega
    · left; omega
    · left; omega
    · right; exact ⟨by omega, unitsLt_trans xs ys zs h1' h2'⟩

theorem unitsLt_connected : ∀ (a b : List Nat), unitsLt a b = false → unitsLt b a = false →
    a = b
  | [], [], _, _ => rfl
  | [], _ :: _, h, _ => by simp [unitsLt] at h
  | _ :: _, [], _, h => by simp [unitsLt] at h
  | x :: xs, y :: ys, h1, h2 => by
    simp only [unitsLt, Bool.or_eq_false_iff, decide_eq_false_iff_not, Bool.and_eq_false_imp,
      decide_eq_true_eq] at h1 h2
    have e : x = y := by omega
    rw [e, unitsLt_connected xs ys (h1.2 e) (h2.2 e.symm)]

theorem utf16Units_ne_nil (c : Char) : utf16Units c ≠ [] := by
  unfold utf16Units; split_ifs <;> simp

theorem char_toNat_valid (c : Char) :
    c.toNat < 0xd800 ∨ (0xdfff < c.toNat ∧ c.toNat < 0x110000) := c.valid

theorem char_toNat_inj (c d : Char) (h : c.toNat = d.toNat) : c = d := by
  apply Char.ext
  apply UInt32.ext
  exact h

theorem unitsOfChars_inj : ∀ (cs ds : List Char), unitsOfChars cs = unitsOfChars ds → cs = ds
  | [], [], _ => rfl
  | [], d :: ds, h => by
    have := utf16Units_ne_nil d
    simp only [unitsOfChars] at h
    cases hd : utf16Units d with
    | nil => exact absurd hd this
    | cons x xs => rw [hd] at h; simp at h
  | c :: cs, [], h => by
    have := utf16Units_ne_nil c
    simp only [unitsOfChars] at h
    cases hc : utf16Units c with
    | nil => exact absurd hc this
    | cons x xs => rw [hc] at h; simp at h
  | c :: cs, d :: ds, h => by
    have vc := char_toNat_valid c
    have vd := char_toNat_valid d
    simp only [unitsOfChars, utf16Units] at h
    split_ifs at h with hc hd hd
    · simp only [List.singleton_append, List.cons.injEq] at h
      rw [char_toNat_inj c d h.1, unitsOfChars_inj cs ds h.2]
    · simp only [List.singleton_append, List.cons_append, List.nil_append,
        List.cons.injEq] at h
      omega
    · simp only [List.singleton_append, List.cons_append, List.nil_append,
        List.cons.injEq] at h
      omega
    · simp only [List.cons_append, List.nil_append, List.cons.injEq] at h
      have e : c.toNat = d.toNat := by omega
      rw [char_toNat_inj c d e, unitsOfChars_inj cs ds h.2.2]

theorem codeUnits_inj (a b : String) (h : codeUnits a = codeUnits b) : a = b := by
  have := unitsOfChars_inj a.toList b.toList h
  exact String.ext this

theorem jsStringLt_irrefl (a : String) : jsStringLt a a = false := unitsLt_irrefl _

theorem jsStringLt_asymm (a b : String) (h : jsStringLt a b = true) : jsStringLt b a = false :=
  unitsLt_asymm _ _ h

theorem jsStringLt_trans (a b c : String) (h1 : jsStringLt a b = true)
    (h2 : jsStringLt b c = true) : jsStringLt a c = true := unitsLt_trans _ _ _ h1 h2

theorem jsStringLt_connected (a b : String) (h1 : jsStringLt a b = false)
    (h2 : jsStringLt b a = false) : a = b := codeUnits_inj a b (unitsLt_connected _ _ h1 h2)

theorem jsStringLe_total (a b : String) : jsStringLe a b ∨ jsStringLe b a := by
  unfold jsStringLe
  cases h : jsStringLt b a with
  | false => exact Or.inl rfl
  | true => exact Or.inr (jsStringLt_asymm b a h)

theorem jsStringLe_trans (a b c : String) (h1 : jsStringLe a b) (h2 : jsStringLe b c) :
    jsStringLe a c := by
  unfold jsStringLe at *
  cases h : jsStringLt c a with
  | false => rfl
  | true =>
    cases hcb : jsStringLt b c with
    | true =>
      have := jsStringLt_trans b c a hcb h
      rw [h1] at this; exact absurd this (by decide)
    | false =>
      have e : b = c := jsStringLt_connected b c hcb h2
      subst e
      rw [h1] at h; exact absurd h (by decide)

instance jsStringLe_isTotal : IsTotal String jsStringLe := ⟨jsStringLe_total⟩

instance jsStringLe_isTrans : IsTrans String jsStringLe := ⟨jsStringLe_trans⟩

theorem jsSort_sorted (keys : List String) : (jsSort keys).Sorted jsStringLe :=
  List.sorted_insertionSort jsStringLe keys

theorem jsSort_perm (keys : List String) : (jsSort keys).Perm keys :=
  List.perm_insertionSort jsStringLe keys

/-! ## The accumulation -/

theorem bucketAt_nil (k : String) :
    bucketAt [] k = { total_revenue := 0, total_quantity_sold := 0 } := rfl

theorem bucketAt_cons (k a : String) (b : Bucket) (rest : AggregatedData) :
    bucketAt ((a, b) :: rest) k = if k = a then b else bucketAt rest k := by
  unfold bucketAt
  by_cases h : k = a
  · subst h; simp [List.lookup]
  · have : (k == a) = false := by simpa using h
    simp [List.lookup, this, h]

/-- Adding a sale under a key adds it to the bucket of that key and changes no other. -/
theorem bucketAt_addSale (data : AggregatedData) (key : String) (sale : SaleRecord)
    (k : String) :
    bucketAt (addSale data key sale) k
      = if k = key then
          { total_revenue := (bucketAt data k).total_revenue + sale.totalPrice,
            total_quantity_sold := (bucketAt data k).total_quantity_sold + sale.quantity }
        else bucketAt data k := by
  induction data with
  | nil =>
    simp only [addSale, bucketAt_cons, bucketAt_nil]
  | cons e rest ih =>
    obtain ⟨a, b⟩ := e
    unfold addSale
    by_cases hak : a = key
    · subst hak
      simp only [if_true, bucketAt_cons]
      by_cases hk : k = a
      · simp [hk]
      · simp [hk]
    · simp only [hak, if_false, bucketAt_cons, ih]
      by_cases hk : k = a
      · have : ¬ k = key := fun e => hak (hk ▸ e)
        simp [hk, hak]
      · simp [hk]

theorem keys_addSale (data : AggregatedData) (key : String) (sale : SaleRecord) :
    (addSale data key sale).map Prod.fst
      = if key ∈ data.map Prod.fst then data.map Prod.fst else data.map Prod.fst ++ [key] := by
  induction data with
  | nil => simp [addSale]
  | cons e rest ih =>
    obtain ⟨a, b⟩ := e
    unfold addSale
    by_cases hak : a = key
    · subst hak; simp
    · have hka : ¬ key = a := fun e => hak e.symm
      simp only [hak, if_false, List.map_cons, ih, List.mem_cons, hka, false_or]
      split_ifs <;> simp

theorem keys_addSale_nodup (data : AggregatedData) (key : String) (sale : SaleRecord)
    (h : (data.map Prod.fst).Nodup) : ((addSale data key sale).map Prod.fst).Nodup := by
  rw [keys_addSale]
  split_ifs with hm
  · exact h
  · exact List.Nodup.append h (List.nodup_singleton key) (by simpa using hm)

theorem mem_keys_addSale (data : AggregatedData) (key : String) (sale : SaleRecord)
    (k : String) :
    k ∈ (addSale data key sale).map Prod.fst ↔ k ∈ data.map Prod.fst ∨ k = key := by
  rw [keys_addSale]
  split_ifs with hm
  · constructor
    · exact Or.inl
    · rintro (h | h)
      · exact h
      · rw [h]; exact hm
  · simp

theorem aggregatedData_eq (rt : JsRuntime) (period : Period) (start : Option Int)
    (sales : List SaleRecord) :
    aggregatedData rt period start sales = accumulateFrom rt period start [] sales := rfl

theorem accumulateFrom_cons (rt : JsRuntime) (period : Period) (start : Option Int)
    (data : AggregatedData) (sale : SaleRecord) (sales : List SaleRecord) :
    accumulateFrom rt period start data (sale :: sales)
      = accumulateFrom rt period start (addSale data (keyOf rt period start sale) sale) sales :=
  rfl

theorem recordsOf_cons (rt : JsRuntime) (period : Period) (start : Option Int)
    (sale : SaleRecord) (sales : List SaleRecord) (k : String) :
    recordsOf rt period start (sale :: sales) k
      = if keyOf rt period start sale = k then sale :: recordsOf rt period start sales k
        else recordsOf rt period start sales k := by
  unfold recordsOf
  by_cases h : keyOf rt period start sale = k <;> simp [List.filter, h]

/-- The bucket of a key after the accumulation: what it held before plus the records
that map to the key. -/
theorem bucketAt_accumulateFrom (rt : JsRuntime) (period : Period) (start : Option Int)
    (sales : List SaleRecord) (data : AggregatedData) (k : String) :
    (bucketAt (accumulateFrom rt period start data sales) k).total_revenue
      = (bucketAt data k).total_revenue + sumTotalPrice (recordsOf rt period start sales k)
    ∧ (bucketAt (accumulateFrom rt period start data sales) k).total_quantity_sold
      = (bucketAt data k).total_quantity_sold
        + sumQuantity (recordsOf rt period start sales k) := by
  induction sales generalizing data with
  | nil => simp [accumulateFrom, recordsOf, sumTotalPrice, sumQuantity]
  | cons sale rest ih =>
    rw [accumulateFrom_cons, recordsOf_cons]
    obtain ⟨ih1, ih2⟩ := ih (addSale data (keyOf rt period start sale) sale)
    rw [ih1, ih2, bucketAt_addSale]
    by_cases h : keyOf rt period start sale = k
    · have hk : k = keyOf rt period start sale := h.symm
      simp only [h, if_true, sumTotalPrice, sumQuantity, List.map_cons, List.sum_cons]
      constructor <;> ring
    · have hk : ¬ k = keyOf rt period start sale := fun e => h e.symm
      simp only [h, hk, if_false, and_self]

theorem keys_accumulateFrom_nodup (rt : JsRuntime) (period : Period) (start : Option Int)
    (sales : List SaleRecord) (data : AggregatedData) (h : (data.map Prod.fst).Nodup) :
    ((accumulateFrom rt period start data sales).map Prod.fst).Nodup := by
  induction sales generalizing data with
  | nil => exact h
  | cons sale rest ih =>
    rw [accumulateFrom_cons]
    exact ih _ (keys_addSale_nodup data _ sale h)

theorem mem_keys_accumulateFrom (rt : JsRuntime) (period : Period) (start : Option Int)
    (sales : List SaleRecord) (data : AggregatedData) (k : String) :
    k ∈ (accumulateFrom rt period start data sales).map Prod.fst
      ↔ k ∈ data.map Prod.fst ∨ ∃ sale ∈ sales, keyOf rt period start sale = k := by
  induction sales generalizing data with
  | nil => simp [accumulateFrom]
  | cons sale rest ih =>
    rw [accumulateFrom_cons, ih, mem_keys_addSale]
    constructor
    · rintro ((h | h) | ⟨s, hs, hk⟩)
      · exact Or.inl h
      · exact Or.inr ⟨sale, List.mem_cons_self _ _, h.symm⟩
      · exact Or.inr ⟨s, List.mem_cons_of_mem _ hs, hk⟩
    · rintro (h | ⟨s, hs, hk⟩)
      · exact Or.inl (Or.inl h)
      · rcases List.mem_cons.1 hs with e | hs2
        · subst e; exact Or.inl (Or.inr hk.symm)
        · exact Or.inr ⟨s, hs2, hk⟩

/-- With distinct keys, the bucket read under the key of an entry is that entry's. -/
theorem bucketAt_of_mem (data : AggregatedData) (h : (data.map Prod.fst).Nodup)
    (e : String × Bucket) (he : e ∈ data) : bucketAt data e.1 = e.2 := by
  induction data with
  | nil => simp at he
  | cons x rest ih =>
    obtain ⟨a, b⟩ := x
    simp only [List.map_cons, List.nodup_cons] at h
    rw [bucketAt_cons]
    rcases List.mem_cons.1 he with e1 | he2
    · subst e1; simp
    · have : e.1 ≠ a := fun ea => h.1 (ea ▸ List.mem_map_of_mem Prod.fst he2)
      simp only [this, if_false]
      exact ih h.2 he2

/-- The keys of the response are the sorted keys of the object. -/
theorem summarize_keys (data : AggregatedData) :
    (summarize data).map PeriodSummary.period_key = jsSort (data.map Prod.fst) := by
  unfold summarize
  rw [List.map_map]
  conv_rhs => rw [← List.map_id (jsSort (data.map Prod.fst))]
  rfl

theorem mem_summarize (data : AggregatedData) (σ : PeriodSummary) :
    σ ∈ summarize data ↔
      σ.period_key ∈ data.map Prod.fst
      ∧ σ.total_revenue = toFixed2 (bucketAt data σ.period_key).total_revenue
      ∧ σ.total_quantity_sold = (bucketAt data σ.period_key).total_quantity_sold := by
  unfold summarize
  rw [List.mem_map]
  constructor
  · rintro ⟨k, hk, rfl⟩
    exact ⟨(jsSort_perm _).mem_iff.1 hk, rfl, rfl⟩
  · rintro ⟨hk, hr, hq⟩
    refine ⟨σ.period_key, (jsSort_perm _).mem_iff.2 hk, ?_⟩
    cases σ
    simp only at hr hq
    simp [hr, hq]

theorem sum_quantity_addSale (data : AggregatedData) (key : String) (sale : SaleRecord) :
    ((addSale data key sale).map fun e => e.2.total_quantity_sold).sum
      = (data.map fun e => e.2.total_quantity_sold).sum + sale.quantity := by
  induction data with
  | nil => simp [addSale]
  | cons e rest ih =>
    obtain ⟨a, b⟩ := e
    unfold addSale
    by_cases hak : a = key
    · simp only [hak, if_true, List.map_cons, List.sum_cons]; ring
    · simp only [hak, if_false, List.map_cons, List.sum_cons, ih]; ring

theorem sum_revenue_addSale (data : AggregatedData) (key : String) (sale : SaleRecord) :
    ((addSale data key sale).map fun e => e.2.total_revenue).sum
      = (data.map fun e => e.2.total_revenue).sum + sale.totalPrice := by
  induction data with
  | nil => simp [addSale]
  | cons e rest ih =>
    obtain ⟨a, b⟩ := e
    unfold addSale
    by_cases hak : a = key
    · simp only [hak, if_true, List.map_cons, List.sum_cons]; ring
    · simp only [hak, if_false, List.map_cons, List.sum_cons, ih]; ring

/-- The buckets of the object hold, together, the quantity and the revenue of all sales. -/
theorem sum_accumulateFrom (rt : JsRuntime) (period : Period) (start : Option Int)
    (sales : List SaleRecord) (data : AggregatedData) :
    ((accumulateFrom rt period start data sales).map fun e => e.2.total_quantity_sold).sum
      = (data.map fun e => e.2.total_quantity_sold).sum + sumQuantity sales
    ∧ ((accumulateFrom rt period start data sales).map fun e => e.2.total_revenue).sum
      = (data.map fun e => e.2.total_revenue).sum + sumTotalPrice sales := by
  induction sales generalizing data with
  | nil => simp [accumulateFrom, sumQuantity, sumTotalPrice]
  | cons sale rest ih =>
    rw [accumulateFrom_cons]
    obtain ⟨ih1, ih2⟩ := ih (addSale data (keyOf rt period start sale) sale)
    rw [ih1, ih2, sum_quantity_addSale, sum_revenue_addSale]
    simp only [sumQuantity, sumTotalPrice, List.map_cons, List.sum_cons]
    constructor <;> ring

/-- Reading every key of an object with distinct keys gives back its buckets. -/
theorem map_bucketAt_keys (data : AggregatedData) (h : (data.map Prod.fst).Nodup) :
    (data.map Prod.fst).map (bucketAt data) = data.map Prod.snd := by
  rw [List.map_map]
  apply List.map_congr_left
  intro e he
  exact bucketAt_of_mem data h e he

/-- The buckets the response reads are, up to order, the buckets of the object. -/
theorem summarize_buckets_perm (data : AggregatedData) (h : (data.map Prod.fst).Nodup) :
    ((jsSort (data.map Prod.fst)).map (bucketAt data)).Perm (data.map Prod.snd) := by
  rw [← map_bucketAt_keys data h]
  exact (jsSort_perm _).map _

theorem aggregatedData_nodup (rt : JsRuntime) (period : Period) (start : Option Int)
    (sales : List SaleRecord) :
    ((aggregatedData rt period start sales).map Prod.fst).Nodup :=
  keys_accumulateFrom_nodup rt period start sales [] List.nodup_nil

theorem aggregate_keys (rt : JsRuntime) (period : Period) (start : Option Int)
    (sales : List SaleRecord) :
    (aggregate rt period start sales).map PeriodSummary.period_key
      = jsSort ((aggregatedData rt period start sales).map Prod.fst) :=
  summarize_keys _

theorem mem_aggregate_keys (rt : JsRuntime) (period : Period) (start : Option Int)
    (sales : List SaleRecord) (k : String) :
    k ∈ (aggregate rt period start sales).map PeriodSummary.period_key
      ↔ ∃ sale ∈ sales, keyOf rt period start sale = k := by
  rw [aggregate_keys, (jsSort_perm _).mem_iff, aggregatedData_eq, mem_keys_accumulateFrom]
  simp

theorem aggregate_keys_nodup (rt : JsRuntime) (period : Period) (start : Option Int)
    (sales : List SaleRecord) :
    ((aggregate rt period start sales).map PeriodSummary.period_key).Nodup := by
  rw [aggregate_keys]
  exact (jsSort_perm _).nodup_iff.2 (aggregatedData_nodup rt period start sales)

/-! ## The aggregation -/

/-- C1: for every list of sales, granularity and range start, the summaries have
pairwise distinct keys, every record's key is the key of exactly one summary, every
summary's key is the key of some record, and a summary's quantity, and its revenue
before rounding, are the sums over exactly the records whose sale date maps to its key. -/
theorem aggregate_buckets (rt : JsRuntime) (period : Period) (start : Option Int)
    (sales : List SaleRecord) :
    ((aggregate rt period start sales).map PeriodSummary.period_key).Nodup
    ∧ (∀ sale ∈ sales,
        ((aggregate rt period start sales).map PeriodSummary.period_key).count
          (keyOf rt period start sale) = 1)
    ∧ (∀ σ ∈ aggregate rt period start sales,
        ∃ sale ∈ sales, keyOf rt period start sale = σ.period_key)
    ∧ (∀ σ ∈ aggregate rt period start sales,
        σ.total_quantity_sold = sumQuantity (recordsOf rt period start sales σ.period_key)
        ∧ (bucketAt (aggregatedData rt period start sales) σ.period_key).total_revenue
            = sumTotalPrice (recordsOf rt period start sales σ.period_key)
        ∧ σ.total_revenue
            = toFixed2 (sumTotalPrice (recordsOf rt period start sales σ.period_key))) := by
  have hnd := aggregate_keys_nodup rt period start sales
  refine ⟨hnd, ?_, ?_, ?_⟩
  · intro sale hs
    exact List.count_eq_one_of_mem hnd
      ((mem_aggregate_keys rt period start sales _).2 ⟨sale, hs, rfl⟩)
  · intro σ hσ
    exact (mem_aggregate_keys rt period start sales _).1 (List.mem_map_of_mem _ hσ)
  · intro σ hσ
    obtain ⟨_, hr, hq⟩ := (mem_summarize _ σ).1 hσ
    obtain ⟨b1, b2⟩ := bucketAt_accumulateFrom rt period start sales [] σ.period_key
    rw [← aggregatedData_eq] at b1 b2
    simp only [bucketAt_nil, zero_add] at b1 b2
    exact ⟨by rw [hq, b2], b1, by rw [hr, b1]⟩

/-- C2: the quantities of the summaries add up to the quantities of the records. -/
theorem aggregate_total_quantity (rt : JsRuntime) (period : Period) (start : Option Int)
    (sales : List SaleRecord) :
    ((aggregate rt period start sales).map PeriodSummary.total_quantity_sold).sum
      = sumQuantity sales := by
  have hp := summarize_buckets_perm _ (aggregatedData_nodup rt period start sales)
  have hs := (sum_accumulateFrom rt period start sales []).1
  rw [← aggregatedData_eq] at hs
  simp only [List.map_nil, List.sum_nil, zero_add] at hs
  rw [← hs]
  have := (hp.map Bucket.total_quantity_sold).sum_eq
  simp only [List.map_map] at this
  unfold aggregate summarize
  simp only [List.map_map]
  exact this

/-- Rounding to two decimals moves a number by at most half a cent. -/
theorem toFixed2_error (x : ℚ) : |toFixed2 x - x| ≤ 1 / 200 := by
  unfold toFixed2
  split_ifs with h1 h2
  · simp
  · have f1 := Int.floor_le ((-x) * 100 + 1 / 2)
    have f2 := Int.lt_floor_add_one ((-x) * 100 + 1 / 2)
    rw [abs_le]
    constructor <;> linarith
  · have f1 := Int.floor_le (x * 100 + 1 / 2)
    have f2 := Int.lt_floor_add_one (x * 100 + 1 / 2)
    rw [abs_le]
    constructor <;> linarith

theorem sum_toFixed2_error (l : List ℚ) :
    |(l.map toFixed2).sum - l.sum| ≤ (1 / 200) * l.length := by
  induction l with
  | nil => simp
  | cons x xs ih =>
    simp only [List.map_cons, List.sum_cons, List.length_cons, Nat.cast_succ]
    have e : toFixed2 x + (xs.map toFixed2).sum - (x + xs.sum)
        = (toFixed2 x - x) + ((xs.map toFixed2).sum - xs.sum) := by ring
    rw [e]
    have := abs_add (toFixed2 x - x) ((xs.map toFixed2).sum - xs.sum)
    have := toFixed2_error x
    linarith

/-- C3: the revenues of the summaries add up to the `totalPrice` of the records within
0.01 per summary (within 0.005 per summary, in fact). -/
theorem aggregate_total_revenue (rt : JsRuntime) (period : Period) (start : Option Int)
    (sales : List SaleRecord) :
    |((aggregate rt period start sales).map PeriodSummary.total_revenue).sum
        - sumTotalPrice sales|
      ≤ (1 / 100) * (aggregate rt period start sales).length
    ∧ |((aggregate rt period start sales).map PeriodSummary.total_revenue).sum
        - sumTotalPrice sales|
      ≤ (1 / 200) * (aggregate rt period start sales).length := by
  have hp := summarize_buckets_perm _ (aggregatedData_nodup rt period start sales)
  have hs := (sum_accumulateFrom rt period start sales []).2
  rw [← aggregatedData_eq] at hs
  simp only [List.map_nil, List.sum_nil, zero_add] at hs
  have hsum := (hp.map Bucket.total_revenue).sum_eq
  simp only [List.map_map] at hsum
  have hlen : (aggregate rt period start sales).length
      = (((jsSort ((aggregatedData rt period start sales).map Prod.fst)).map
          (bucketAt (aggregatedData rt period start sales))).map
            Bucket.total_revenue).length := by
    simp [aggregate, summarize]
  have hout : (aggregate rt period start sales).map PeriodSummary.total_revenue
      = (((jsSort ((aggregatedData rt period start sales).map Prod.fst)).map
          (bucketAt (aggregatedData rt period start sales))).map
            Bucket.total_revenue).map toFixed2 := by
    simp [aggregate, summarize, List.map_map, Function.comp_def]
  have key := sum_toFixed2_error
    (((jsSort ((aggregatedData rt period start sales).map Prod.fst)).map
      (bucketAt (aggregatedData rt period start sales))).map Bucket.total_revenue)
  rw [← hout, ← hlen] at key
  simp only [List.map_map] at key
  have hs2 : ((aggregatedData rt period start sales).map
      (Bucket.total_revenue ∘ Prod.snd)).sum = sumTotalPrice sales := hs
  rw [hsum, hs2] at key
  have hnn : (0 : ℚ) ≤ ((aggregate rt period start sales).length : ℚ) := Nat.cast_nonneg _
  constructor
  · linarith
  · exact key

theorem jsStringLe_antisymm (a b : String) (h1 : jsStringLe a b) (h2 : jsStringLe b a) :
    a = b := jsStringLt_connected a b h2 h1

instance jsStringLe_isAntisymm : IsAntisymm String jsStringLe := ⟨jsStringLe_antisymm⟩

/-- A sorted list of distinct strings is strictly ascending. -/
theorem strictly_ascending_of_sorted (l : List String) (hs : l.Sorted jsStringLe)
    (hn : l.Nodup) : l.Sorted fun a b => jsStringLt a b = true := by
  have := List.Pairwise.and hs hn
  refine List.Pairwise.imp ?_ this
  intro a b ⟨hle, hne⟩
  cases h : jsStringLt a b with
  | true => rfl
  | false => exact absurd (jsStringLt_connected a b h hle) hne

/-- The keys of the summaries are strictly ascending. -/
theorem aggregate_keys_strict (rt : JsRuntime) (period : Period) (start : Option Int)
    (sales : List SaleRecord) :
    ((aggregate rt period start sales).map PeriodSummary.period_key).Sorted
      (fun a b => jsStringLt a b = true) := by
  apply strictly_ascending_of_sorted _ _ (aggregate_keys_nodup rt period start sales)
  rw [aggregate_keys]
  exact jsSort_sorted _

/-- C5: the summaries are emitted in strictly ascending order of their keys as
JavaScript compares strings, and the sequence of keys is the same for every order in
which the records are supplied. -/
theorem aggregate_keys_ascending (rt : JsRuntime) (period : Period) (start : Option Int)
    (sales : List SaleRecord) :
    ((aggregate rt period start sales).map PeriodSummary.period_key).Sorted
      (fun a b => jsStringLt a b = true)
    ∧ (∀ reordered : List SaleRecord, reordered.Perm sales →
        (aggregate rt period start reordered).map PeriodSummary.period_key
          = (aggregate rt period start sales).map PeriodSummary.period_key) := by
  constructor
  · exact aggregate_keys_strict rt period start sales
  · intro reordered hperm
    have hp : ((aggregate rt period start reordered).map PeriodSummary.period_key).Perm
        ((aggregate rt period start sales).map PeriodSummary.period_key) := by
      rw [List.perm_ext_iff_of_nodup (aggregate_keys_nodup rt period start reordered)
        (aggregate_keys_nodup rt period start sales)]
      intro k
      rw [mem_aggregate_keys, mem_aggregate_keys]
      constructor
      · rintro ⟨s, hs, hk⟩; exact ⟨s, hperm.mem_iff.1 hs, hk⟩
      · rintro ⟨s, hs, hk⟩; exact ⟨s, hperm.mem_iff.2 hs, hk⟩
    have s1 : ((aggregate rt period start reordered).map PeriodSummary.period_key).Sorted
        jsStringLe := by rw [aggregate_keys]; exact jsSort_sorted _
    have s2 : ((aggregate rt period start sales).map PeriodSummary.period_key).Sorted
        jsStringLe := by rw [aggregate_keys]; exact jsSort_sorted _
    exact List.eq_of_perm_of_sorted hp s1 s2

/-! ## Week keys: the arithmetic -/

/-- The value of `diffDays` in integer arithmetic. -/
theorem diffDays_eq (s d : Int) : diffDays s d = -((-|d - s|) / 86400000) := by
  unfold diffDays diffTime msPerDay
  have h : (((1000 * 60 * 60 * 24 : Int)) : ℚ) = ((86400000 : ℕ) : ℚ) := by norm_num
  rw [h, ← neg_neg (((|d - s| : Int) : ℚ) / ((86400000 : ℕ) : ℚ)), Int.ceil_neg, ← neg_div,
    ← Int.cast_neg, Rat.floor_intCast_div_natCast]
  norm_num

/-- The value of `weekNumber` in integer arithmetic. -/
theorem weekNumber_eq (s d : Int) :
    weekNumber s d = (-((-|d - s|) / 86400000)) / 7 + 1 := by
  unfold weekNumber
  rw [diffDays_eq]
  have h : (7 : ℚ) = ((7 : ℕ) : ℚ) := by norm_num
  rw [h, Rat.floor_intCast_div_natCast]
  norm_num

/-- C6: for every sale date and range start, the week key is "Week N" with
N = floor(diffDays / 7) + 1 and diffDays = ceil(|saleDate - rangeStart| / 86400000);
diffDays is the least number of whole days that covers the distance, and N the
1-indexed group of seven such numbers it falls in. -/
theorem week_key_formula (rt : JsRuntime) (start saleDate : Int) :
    periodKey rt Period.week (some start) saleDate
      = "Week " ++ toString
          (⌊((⌈((|saleDate - start| : Int) : ℚ) / 86400000⌉ : Int) : ℚ) / 7⌋ + 1)
    ∧ weekNumber start saleDate
      = ⌊((⌈((|saleDate - start| : Int) : ℚ) / 86400000⌉ : Int) : ℚ) / 7⌋ + 1
    ∧ diffDays start saleDate = ⌈((|saleDate - start| : Int) : ℚ) / 86400000⌉
    ∧ 86400000 * (diffDays start saleDate - 1) < |saleDate - start|
    ∧ |saleDate - start| ≤ 86400000 * diffDays start saleDate
    ∧ 7 * (weekNumber start saleDate - 1) ≤ diffDays start saleDate
    ∧ diffDays start saleDate < 7 * weekNumber start saleDate := by
  have hd : diffDays start saleDate = ⌈((|saleDate - start| : Int) : ℚ) / 86400000⌉ := by
    unfold diffDays diffTime msPerDay
    norm_num
  have hw : weekNumber start saleDate
      = ⌊((⌈((|saleDate - start| : Int) : ℚ) / 86400000⌉ : Int) : ℚ) / 7⌋ + 1 := by
    unfold weekNumber
    rw [hd]
  refine ⟨?_, hw, hd, ?_, ?_, ?_, ?_⟩
  · show "Week " ++ toString (weekNumber start saleDate) = _
    rw [hw]
  · rw [diffDays_eq]; omega
  · rw [diffDays_eq]; omega
  · rw [weekNumber_eq, diffDays_eq]; omega
  · rw [weekNumber_eq, diffDays_eq]; omega

/-- C7, as the claim states it, fails: a sale 6 days and 12 hours after the range start
has an elapsed time between 0 and 7 days and is placed in "Week 2", not "Week 1". -/
theorem week_one_is_not_seven_days :
    (7 * (1 - 1) * msPerDay ≤ (6 * msPerDay + 12 * 3600000) - 0
      ∧ (6 * msPerDay + 12 * 3600000) - 0 < 7 * 1 * msPerDay)
    ∧ periodKey utcRuntime Period.week (some 0) (6 * msPerDay + 12 * 3600000) = "Week 2"
    ∧ periodKey utcRuntime Period.week (some 0) (6 * msPerDay + 12 * 3600000) ≠ "Week 1" := by
  refine ⟨by decide, ?_, ?_⟩
  · simp only [periodKey, weekNumber_eq]; decide
  · simp only [periodKey, weekNumber_eq]; decide

/-- C7, amended: for a record dated at or after the range start, with t the elapsed
time, the week number is N exactly when (7N - 8) days < t ≤ (7N - 1) days: week 1
covers 0 ≤ t ≤ 6 days and each later week the 7 days that end at 7N - 1 whole days. -/
theorem week_number_bounds (rt : JsRuntime) (start saleDate N : Int)
    (h : start ≤ saleDate) :
    (weekNumber start saleDate = N ↔
      (7 * N - 8) * msPerDay < saleDate - start ∧ saleDate - start ≤ (7 * N - 1) * msPerDay)
    ∧ periodKey rt Period.week (some start) saleDate
        = "Week " ++ toString (weekNumber start saleDate)
    ∧ (weekNumber start saleDate = 1 ↔ saleDate - start ≤ 6 * msPerDay) := by
  have ha : |saleDate - start| = saleDate - start := abs_of_nonneg (by omega)
  have hm : msPerDay = 86400000 := by unfold msPerDay; norm_num
  refine ⟨?_, rfl, ?_⟩
  · rw [weekNumber_eq, ha, hm]; omega
  · rw [weekNumber_eq, ha, hm]; omega

/-- C7 amended, at a concrete record: 6 days and 12 hours after the start is week 2. -/
theorem week_number_bounds_witness :
    weekNumber 0 (6 * msPerDay + 12 * 3600000) = 2 :=
  ((week_number_bounds utcRuntime 0 (6 * msPerDay + 12 * 3600000) 2 (by decide)).1).2
    ⟨by decide, by decide⟩

/-- C8: a record before the range start still gets a week number of at least 1, and
the records at the same distance before and after the range start get the same week
number and the same week key. -/
theorem week_key_symmetric (rt : JsRuntime) (start offset saleDate : Int) :
    1 ≤ weekNumber start saleDate
    ∧ weekNumber start (start - offset) = weekNumber start (start + offset)
    ∧ periodKey rt Period.week (some start) (start - offset)
        = periodKey rt Period.week (some start) (start + offset) := by
  have e : weekNumber start (start - offset) = weekNumber start (start + offset) := by
    rw [weekNumber_eq, weekNumber_eq]
    have : |start - offset - start| = |start + offset - start| := by
      rw [show start - offset - start = -offset by ring,
        show start + offset - start = offset by ring, abs_neg]
    rw [this]
  refine ⟨?_, e, ?_⟩
  · rw [weekNumber_eq]
    have := abs_nonneg (saleDate - start)
    omega
  · show "Week " ++ toString (weekNumber start (start - offset))
      = "Week " ++ toString (weekNumber start (start + offset))
    rw [e]

/-! ## The calendar -/

theorem dayOfEra_range (days : Int) : 0 ≤ dayOfEra days ∧ dayOfEra days ≤ 146096 := by
  unfold dayOfEra; omega

theorem yearOfEra_range (doe : Int) (h0 : 0 ≤ doe) (h1 : doe ≤ 146096) :
    0 ≤ yearOfEra doe ∧ yearOfEra doe ≤ 399 := by
  unfold yearOfEra; omega

set_option maxHeartbeats 8000000 in
/-- The year of the era starts on or before the day of the era and its 366 days reach it. -/
theorem yearOfEra_bounds_aux (doe yoe : Int) (h0 : 0 ≤ doe) (h1 : doe ≤ 146096)
    (hy : yoe = (doe - doe / 1460 + doe / 36524 - doe / 146096) / 365) :
    365 * yoe + yoe / 4 - yoe / 100 ≤ doe
    ∧ doe ≤ 365 * yoe + yoe / 4 - yoe / 100 + 365 := by
  have hlo : 0 ≤ yoe := by omega
  have hhi : yoe ≤ 399 := by omega
  interval_cases yoe <;> omega

theorem dayOfYear_range (doe : Int) (h0 : 0 ≤ doe) (h1 : doe ≤ 146096) :
    0 ≤ dayOfYear doe ∧ dayOfYear doe ≤ 365 := by
  have := yearOfEra_bounds_aux doe (yearOfEra doe) h0 h1 rfl
  unfold dayOfYear
  omega

theorem daysBeforeYear_mono (y1 y2 : Int) (h : y2 < y1) :
    365 * y2 + y2 / 4 - y2 / 100 + 365 ≤ 365 * y1 + y1 / 4 - y1 / 100 := by
  omega

theorem yearOfEra_mono (a b : Int) (h0 : 0 ≤ a) (h : a ≤ b) (h1 : b ≤ 146096) :
    yearOfEra a ≤ yearOfEra b := by
  by_contra hlt
  have hlt2 : yearOfEra b < yearOfEra a := not_le.1 hlt
  have ba := yearOfEra_bounds_aux a (yearOfEra a) h0 (le_trans h h1) rfl
  have bb := yearOfEra_bounds_aux b (yearOfEra b) (le_trans h0 h) h1 rfl
  have dm := daysBeforeYear_mono _ _ hlt2
  have e : a = b := by
    generalize yearOfEra a = ya at *
    generalize yearOfEra b = yb at *
    generalize 365 * ya + ya / 4 - ya / 100 = Da at *
    generalize 365 * yb + yb / 4 - yb / 100 = Db at *
    omega
  rw [e] at hlt2
  exact lt_irrefl _ hlt2

theorem monthIndex_range (doy : Int) (h0 : 0 ≤ doy) (h1 : doy ≤ 365) :
    0 ≤ monthIndex doy ∧ monthIndex doy ≤ 11
    ∧ 1 ≤ dayOfMonth doy ∧ dayOfMonth doy ≤ 31 := by
  unfold dayOfMonth monthIndex; omega

theorem monthIndex_mono (a b : Int) (h : a ≤ b) :
    monthIndex a < monthIndex b
    ∨ (monthIndex a = monthIndex b ∧ dayOfMonth a ≤ dayOfMonth b) := by
  unfold dayOfMonth monthIndex; omega

/-- The month is from 1 to 12 and the day from 1 to 31. -/
theorem civilFromDays_range (days : Int) :
    1 ≤ (civilFromDays days).month ∧ (civilFromDays days).month ≤ 12
    ∧ 1 ≤ (civilFromDays days).day ∧ (civilFromDays days).day ≤ 31 := by
  obtain ⟨d0, d1⟩ := dayOfEra_range days
  obtain ⟨y0, y1⟩ := dayOfYear_range _ d0 d1
  obtain ⟨m0, m1, dd0, dd1⟩ := monthIndex_range _ y0 y1
  unfold civilFromDays
  simp only []
  generalize monthIndex (dayOfYear (dayOfEra days)) = mp at *
  refine ⟨?_, ?_, dd0, dd1⟩ <;> split_ifs <;> omega

/-- A later day number has a later or equal calendar date. -/
theorem civilFromDays_mono (a b : Int) (h : a ≤ b) :
    civilLe (civilFromDays a) (civilFromDays b) := by
  obtain ⟨a0, a1⟩ := dayOfEra_range a
  obtain ⟨b0, b1⟩ := dayOfEra_range b
  obtain ⟨ya0, ya1⟩ := yearOfEra_range _ a0 a1
  obtain ⟨yb0, yb1⟩ := yearOfEra_range _ b0 b1
  obtain ⟨da0, da1⟩ := dayOfYear_range _ a0 a1
  obtain ⟨db0, db1⟩ := dayOfYear_range _ b0 b1
  obtain ⟨ma0, ma1, _, _⟩ := monthIndex_range _ da0 da1
  obtain ⟨mb0, mb1, _, _⟩ := monthIndex_range _ db0 db1
  have hera : eraOf a < eraOf b ∨ (eraOf a = eraOf b ∧ dayOfEra a ≤ dayOfEra b) := by
    unfold eraOf dayOfEra; omega
  have hyear : eraOf a = eraOf b → dayOfEra a ≤ dayOfEra b →
      yearOfEra (dayOfEra a) < yearOfEra (dayOfEra b)
      ∨ (yearOfEra (dayOfEra a) = yearOfEra (dayOfEra b)
        ∧ dayOfYear (dayOfEra a) ≤ dayOfYear (dayOfEra b)) := by
    intro _ hd
    have hm := yearOfEra_mono _ _ a0 hd b1
    rcases lt_or_eq_of_le hm with hlt | heq
    · exact Or.inl hlt
    · right
      refine ⟨heq, ?_⟩
      unfold dayOfYear
      rw [heq]
      omega
  have hmonth := monthIndex_mono (dayOfYear (dayOfEra a)) (dayOfYear (dayOfEra b))
  unfold civilLe civilFromDays
  simp only []
  generalize dayOfMonth (dayOfYear (dayOfEra a)) = dda at *
  generalize dayOfMonth (dayOfYear (dayOfEra b)) = ddb at *
  generalize monthIndex (dayOfYear (dayOfEra a)) = mpa at *
  generalize monthIndex (dayOfYear (dayOfEra b)) = mpb at *
  generalize dayOfYear (dayOfEra a) = doya at *
  generalize dayOfYear (dayOfEra b) = doyb at *
  generalize yearOfEra (dayOfEra a) = yoea at *
  generalize yearOfEra (dayOfEra b) = yoeb at *
  generalize dayOfEra a = doea at *
  generalize dayOfEra b = doeb at *
  generalize eraOf a = ea at *
  generalize eraOf b = eb at *
  split_ifs <;> omega

/-! ## Decimal digits and the code units of the keys -/

theorem toDigitsCore_step (fuel n : Nat) (ds : List Char) :
    Nat.toDigitsCore 10 (fuel + 1) n ds
      = if n / 10 = 0 then Nat.digitChar (n % 10) :: ds
        else Nat.toDigitsCore 10 fuel (n / 10) (Nat.digitChar (n % 10) :: ds) := by
  simp [Nat.toDigitsCore]

/-- The decimal digits of a number below 10000, without leading zeros. -/
theorem toDigits_lt_10000 (n : Nat) (h : n < 10000) :
    Nat.toDigits 10 n
      = if n < 10 then [Nat.digitChar n]
        else if n < 100 then [Nat.digitChar (n / 10), Nat.digitChar (n % 10)]
        else if n < 1000 then
          [Nat.digitChar (n / 100), Nat.digitChar (n / 10 % 10), Nat.digitChar (n % 10)]
        else [Nat.digitChar (n / 1000), Nat.digitChar (n / 100 % 10),
              Nat.digitChar (n / 10 % 10), Nat.digitChar (n % 10)] := by
  unfold Nat.toDigits
  split_ifs with h1 h2 h3
  · rw [toDigitsCore_step, if_pos (by omega), Nat.mod_eq_of_lt h1]
  · obtain ⟨k, rfl⟩ : ∃ k, n = k + 1 := ⟨n - 1, by omega⟩
    rw [toDigitsCore_step, if_neg (by omega), toDigitsCore_step, if_pos (by omega)]
    congr 2
    omega
  · obtain ⟨k, rfl⟩ : ∃ k, n = k + 2 := ⟨n - 2, by omega⟩
    rw [toDigitsCore_step, if_neg (by omega), toDigitsCore_step, if_neg (by omega),
      toDigitsCore_step, if_pos (by omega)]
    congr 2
    · have : (k + 2) / 10 / 10 % 10 = (k + 2) / 100 := by omega
      rw [this]
  · obtain ⟨k, rfl⟩ : ∃ k, n = k + 3 := ⟨n - 3, by omega⟩
    rw [toDigitsCore_step, if_neg (by omega), toDigitsCore_step, if_neg (by omega),
      toDigitsCore_step, if_neg (by omega), toDigitsCore_step, if_pos (by omega)]
    have e1 : (k + 3) / 10 / 10 / 10 % 10 = (k + 3) / 1000 := by omega
    have e2 : (k + 3) / 10 / 10 % 10 = (k + 3) / 100 % 10 := by omega
    rw [e1, e2]

theorem digitChar_toNat (k : Nat) (h : k < 10) : (Nat.digitChar k).toNat = 48 + k := by
  interval_cases k <;> rfl

theorem utf16Units_digitChar (k : Nat) (h : k < 10) :
    utf16Units (Nat.digitChar k) = [48 + k] := by
  unfold utf16Units
  rw [digitChar_toNat k h, if_pos (by omega)]

theorem unitsOfChars_append (a b : List Char) :
    unitsOfChars (a ++ b) = unitsOfChars a ++ unitsOfChars b := by
  induction a with
  | nil => rfl
  | cons c cs ih => simp [unitsOfChars, ih]

theorem codeUnits_append (a b : String) : codeUnits (a ++ b) = codeUnits a ++ codeUnits b := by
  unfold codeUnits
  rw [String.toList, String.data_append, unitsOfChars_append]
  rfl

theorem toString_nat_toList (n : Nat) : (toString n).toList = Nat.toDigits 10 n := rfl

/-- The four code units of a number below 10000 padded to four digits. -/
theorem codeUnits_pad4 (n : Nat) (h : n < 10000) :
    codeUnits (padStart0 4 (toString n)) = digits4 n := by
  unfold padStart0 digits4
  rw [codeUnits_append]
  have hl : (toString n).length = (Nat.toDigits 10 n).length := rfl
  have hd : codeUnits (toString n) = unitsOfChars (Nat.toDigits 10 n) := rfl
  rw [hl, hd, toDigits_lt_10000 n h]
  have h0 : utf16Units '0' = [48] := by decide
  split_ifs with h1 h2 h3
  · simp only [List.length_singleton, unitsOfChars, codeUnits, List.replicate, h0,
      utf16Units_digitChar n (by omega), List.append_nil, List.singleton_append,
      List.cons.injEq, and_true, List.cons_append, List.nil_append]
    omega
  · simp only [List.length_cons, List.length_nil, unitsOfChars, codeUnits, List.replicate, h0,
      utf16Units_digitChar (n / 10) (by omega), utf16Units_digitChar (n % 10) (by omega),
      List.append_nil, List.singleton_append, List.cons.injEq, and_true, List.cons_append,
      List.nil_append]
    omega
  · simp only [List.length_cons, List.length_nil, unitsOfChars, codeUnits, List.replicate, h0,
      utf16Units_digitChar (n / 100) (by omega), utf16Units_digitChar (n / 10 % 10) (by omega),
      utf16Units_digitChar (n % 10) (by omega),
      List.append_nil, List.singleton_append, List.cons.injEq, and_true, List.cons_append,
      List.nil_append]
    omega
  · simp only [List.length_cons, List.length_nil, unitsOfChars, codeUnits, List.replicate,
      utf16Units_digitChar (n / 1000) (by omega),
      utf16Units_digitChar (n / 100 % 10) (by omega),
      utf16Units_digitChar (n / 10 % 10) (by omega),
      utf16Units_digitChar (n % 10) (by omega),
      List.append_nil, List.singleton_append, List.cons_append, List.nil_append]

theorem unitsLt_digits4 (a b : Nat) :
    unitsLt (digits4 a) (digits4 b) = decide (a < b) := by
  unfold digits4
  simp only [unitsLt]
  by_cases h : a < b
  · simp only [h, decide_True, Bool.or_eq_true, decide_eq_true_eq, Bool.and_eq_true,
      Bool.or_false, Bool.and_false]
    omega
  · simp only [h, decide_False, Bool.or_eq_false_iff, decide_eq_false_iff_not,
      Bool.and_eq_false_imp, decide_eq_true_eq, Bool.or_false, Bool.and_false]
    omega

theorem digits4_inj (a b : Nat) (h : digits4 a = digits4 b) : a = b := by
  unfold digits4 at h
  simp only [List.cons.injEq, and_true] at h
  omega

theorem unitsLt_digits2 (a b : Nat) :
    unitsLt (digits2 a) (digits2 b) = decide (a < b) := by
  unfold digits2
  simp only [unitsLt]
  by_cases h : a < b
  · simp only [h, decide_True, Bool.or_eq_true, decide_eq_true_eq, Bool.and_eq_true,
      Bool.or_false, Bool.and_false]
    omega
  · simp only [h, decide_False, Bool.or_eq_false_iff, decide_eq_false_iff_not,
      Bool.and_eq_false_imp, decide_eq_true_eq, Bool.or_false, Bool.and_false]
    omega

theorem digits2_inj (a b : Nat) (h : digits2 a = digits2 b) : a = b := by
  unfold digits2 at h
  simp only [List.cons.injEq, and_true] at h
  omega

/-- Comparing two concatenations whose first parts have the same length. -/
theorem unitsLt_append : ∀ (a a' b b' : List Nat), a.length = a'.length →
    unitsLt (a ++ b) (a' ++ b') = (unitsLt a a' || (decide (a = a') && unitsLt b b'))
  | [], [], b, b', _ => by
    cases b' <;> simp [unitsLt]
  | [], _ :: _, _, _, h => by simp at h
  | _ :: _, [], _, _, h => by simp at h
  | x :: xs, y :: ys, b, b', h => by
    have ih := unitsLt_append xs ys b b' (by simpa using h)
    simp only [List.cons_append, unitsLt, ih, List.cons.injEq]
    by_cases hxy : x = y
    · subst hxy
      simp [Bool.decide_and]
      exact ih
    · have hd : decide (x = y) = false := by simpa using hxy
      simp [hd, hxy]

/-- The two code units of a number below 100 padded to two digits. -/
theorem codeUnits_pad2 (n : Nat) (h : n < 100) :
    codeUnits (padStart0 2 (toString n)) = digits2 n := by
  unfold padStart0 digits2
  rw [codeUnits_append]
  have hl : (toString n).length = (Nat.toDigits 10 n).length := rfl
  have hd : codeUnits (toString n) = unitsOfChars (Nat.toDigits 10 n) := rfl
  rw [hl, hd, toDigits_lt_10000 n (by omega)]
  have h0 : utf16Units '0' = [48] := by decide
  split_ifs with h1
  · simp only [List.length_singleton, unitsOfChars, codeUnits, List.replicate, h0,
      utf16Units_digitChar n (by omega), List.append_nil, List.singleton_append,
      List.cons.injEq, and_true, List.cons_append, List.nil_append]
    omega
  · simp only [List.length_cons, List.length_nil, unitsOfChars, codeUnits, List.replicate,
      utf16Units_digitChar (n / 10) (by omega), utf16Units_digitChar (n % 10) (by omega),
      List.append_nil, List.singleton_append, List.cons_append, List.nil_append]

/-- The four code units of a number from 1000 to 9999. -/
theorem codeUnits_toString_four (n : Nat) (h0 : 1000 ≤ n) (h : n < 10000) :
    codeUnits (toString n) = digits4 n := by
  have hd : codeUnits (toString n) = unitsOfChars (Nat.toDigits 10 n) := rfl
  rw [hd, toDigits_lt_10000 n h, if_neg (by omega), if_neg (by omega), if_neg (by omega)]
  unfold digits4
  simp only [unitsOfChars, utf16Units_digitChar (n / 1000) (by omega),
    utf16Units_digitChar (n / 100 % 10) (by omega),
    utf16Units_digitChar (n / 10 % 10) (by omega),
    utf16Units_digitChar (n % 10) (by omega),
    List.append_nil, List.singleton_append, List.cons_append, List.nil_append]

theorem toString_int_of_nonneg (i : Int) (h : 0 ≤ i) : toString i = toString i.toNat := by
  obtain ⟨n, rfl⟩ := Int.eq_ofNat_of_zero_le h
  rfl

/-! ## The keys of days, months and years -/

theorem civilOfTime_mono (a b : Int) (h : a ≤ b) : civilLe (civilOfTime a) (civilOfTime b) := by
  unfold civilOfTime
  apply civilFromDays_mono
  unfold msPerDay
  omega

theorem codeUnits_dash : codeUnits "-" = [45] := by decide

/-- The code units of a day key with a year from 0 to 9999. -/
theorem codeUnits_isoDate (t : Int) (h0 : 0 ≤ (civilOfTime t).year)
    (h1 : (civilOfTime t).year ≤ 9999) :
    codeUnits (isoDate t)
      = digits4 (civilOfTime t).year.toNat
        ++ ([45] ++ (digits2 (civilOfTime t).month.toNat
          ++ ([45] ++ digits2 (civilOfTime t).day.toNat))) := by
  obtain ⟨m0, m1, d0, d1⟩ := civilFromDays_range (t / msPerDay)
  unfold isoDate isoYear
  simp only []
  rw [if_pos ⟨h0, h1⟩]
  simp only [codeUnits_append, codeUnits_dash]
  rw [codeUnits_pad4 _ (by omega), codeUnits_pad2 _ (by unfold civilOfTime; omega),
    codeUnits_pad2 _ (by unfold civilOfTime; omega)]
  simp

/-- The code units of a month key with a local year from 1000 to 9999. -/
theorem codeUnits_monthKey (rt : JsRuntime) (start : Option Int) (t : Int)
    (h0 : 1000 ≤ getFullYear rt t) (h1 : getFullYear rt t ≤ 9999) :
    codeUnits (periodKey rt Period.month start t)
      = digits4 (getFullYear rt t).toNat
        ++ ([45] ++ digits2 (civilOfTime (t + rt.localOffset t)).month.toNat) := by
  obtain ⟨m0, m1, d0, d1⟩ := civilFromDays_range ((t + rt.localOffset t) / msPerDay)
  have hm : getMonth rt t + 1 = (civilOfTime (t + rt.localOffset t)).month := by
    unfold getMonth; ring
  show codeUnits (toString (getFullYear rt t) ++ "-"
    ++ padStart0 2 (toString (getMonth rt t + 1))) = _
  rw [hm, toString_int_of_nonneg _ (by omega),
    toString_int_of_nonneg (civilOfTime (t + rt.localOffset t)).month
      (by unfold civilOfTime; omega)]
  simp only [codeUnits_append, codeUnits_dash]
  rw [codeUnits_toString_four _ (by omega) (by omega),
    codeUnits_pad2 _ (by unfold civilOfTime; omega)]
  simp

/-- The code units of a year key with a local year from 1000 to 9999. -/
theorem codeUnits_yearKey (rt : JsRuntime) (start : Option Int) (t : Int)
    (h0 : 1000 ≤ getFullYear rt t) (h1 : getFullYear rt t ≤ 9999) :
    codeUnits (periodKey rt Period.year start t) = digits4 (getFullYear rt t).toNat := by
  show codeUnits (toString (getFullYear rt t)) = _
  rw [toString_int_of_nonneg _ (by omega), codeUnits_toString_four _ (by omega) (by omega)]

theorem decide_digits4_eq (a b : Nat) : decide (digits4 a = digits4 b) = decide (a = b) := by
  by_cases h : a = b
  · subst h; simp
  · have : digits4 a ≠ digits4 b := fun e => h (digits4_inj a b e)
    simp [h, this]

theorem decide_digits2_eq (a b : Nat) : decide (digits2 a = digits2 b) = decide (a = b) := by
  by_cases h : a = b
  · subst h; simp
  · have : digits2 a ≠ digits2 b := fun e => h (digits2_inj a b e)
    simp [h, this]

/-- The written form of a date is compared as the date is. -/
theorem unitsLt_date (y1 m1 d1 y2 m2 d2 : Nat) :
    unitsLt (digits4 y1 ++ ([45] ++ (digits2 m1 ++ ([45] ++ digits2 d1))))
        (digits4 y2 ++ ([45] ++ (digits2 m2 ++ ([45] ++ digits2 d2))))
      = decide (y1 < y2 ∨ (y1 = y2 ∧ (m1 < m2 ∨ (m1 = m2 ∧ d1 < d2)))) := by
  rw [unitsLt_append (digits4 y1) (digits4 y2) _ _ rfl, unitsLt_append [45] [45] _ _ rfl,
    unitsLt_append (digits2 m1) (digits2 m2) _ _ rfl, unitsLt_append [45] [45] _ _ rfl,
    unitsLt_digits4, unitsLt_digits2, unitsLt_digits2, decide_digits4_eq, decide_digits2_eq]
  simp [unitsLt, Bool.decide_or, Bool.decide_and]

theorem unitsLt_month (y1 m1 y2 m2 : Nat) :
    unitsLt (digits4 y1 ++ ([45] ++ digits2 m1)) (digits4 y2 ++ ([45] ++ digits2 m2))
      = decide (y1 < y2 ∨ (y1 = y2 ∧ m1 < m2)) := by
  rw [unitsLt_append (digits4 y1) (digits4 y2) _ _ rfl, unitsLt_append [45] [45] _ _ rfl,
    unitsLt_digits4, unitsLt_digits2, decide_digits4_eq]
  simp [unitsLt, Bool.decide_or, Bool.decide_and]

/-- With fixed-width keys, a later sale date has a later or equal key. -/
theorem periodKey_mono (rt : JsRuntime) (period : Period) (hp : period ≠ Period.week)
    (hmono : localTimeMonotone rt) (start : Option Int) (a b : Int)
    (ha : fixedWidthYear rt period a) (hb : fixedWidthYear rt period b) (h : a ≤ b) :
    jsStringLe (periodKey rt period start a) (periodKey rt period start b) := by
  unfold jsStringLe jsStringLt
  cases period with
  | week => exact absurd rfl hp
  | day =>
    obtain ⟨a0, a1⟩ := ha
    obtain ⟨b0, b1⟩ := hb
    have hc := civilOfTime_mono a b h
    obtain ⟨ma0, ma1, da0, da1⟩ := civilFromDays_range (a / msPerDay)
    obtain ⟨mb0, mb1, db0, db1⟩ := civilFromDays_range (b / msPerDay)
    show unitsLt (codeUnits (isoDate b)) (codeUnits (isoDate a)) = false
    rw [codeUnits_isoDate a a0 a1, codeUnits_isoDate b b0 b1, unitsLt_date,
      decide_eq_false_iff_not]
    unfold civilLe at hc
    unfold civilOfTime at *
    omega
  | month =>
    obtain ⟨a0, a1⟩ := ha
    obtain ⟨b0, b1⟩ := hb
    have hc := civilOfTime_mono _ _ (hmono a b h)
    obtain ⟨ma0, ma1, da0, da1⟩ := civilFromDays_range ((a + rt.localOffset a) / msPerDay)
    obtain ⟨mb0, mb1, db0, db1⟩ := civilFromDays_range ((b + rt.localOffset b) / msPerDay)
    rw [codeUnits_monthKey rt start a a0 a1, codeUnits_monthKey rt start b b0 b1,
      unitsLt_month, decide_eq_false_iff_not]
    unfold civilLe at hc
    unfold getFullYear at *
    unfold civilOfTime at *
    omega
  | year =>
    obtain ⟨a0, a1⟩ := ha
    obtain ⟨b0, b1⟩ := hb
    have hc := civilOfTime_mono _ _ (hmono a b h)
    rw [codeUnits_yearKey rt start a a0 a1, codeUnits_yearKey rt start b b0 b1,
      unitsLt_digits4, decide_eq_false_iff_not]
    unfold civilLe at hc
    unfold getFullYear at *
    omega

/-- The keys of a granularity all have its width. -/
theorem periodKey_width (rt : JsRuntime) (period : Period) (hp : period ≠ Period.week)
    (start : Option Int) (a : Int) (ha : fixedWidthYear rt period a) :
    (codeUnits (periodKey rt period start a)).length = keyWidth period := by
  cases period with
  | week => exact absurd rfl hp
  | day =>
    show (codeUnits (isoDate a)).length = 10
    rw [codeUnits_isoDate a ha.1 ha.2]; rfl
  | month => rw [codeUnits_monthKey rt start a ha.1 ha.2]; rfl
  | year => rw [codeUnits_yearKey rt start a ha.1 ha.2]; rfl

/-- C10 on the code: in UTC a sale at 0999-12-31T00:00Z precedes a sale at
1000-01-01T00:00Z.  The day key of the first is zero-padded, "0999-12-31"; its month key
is "999-12", not the "0999-12" of the form `YYYY-MM` that the comment of line 129
announces, so the keys are not of one width, "999-12" is the greater string, and the
summary of "1000-01" is emitted first; likewise its year key is "999", which is
greater than "1000". -/
theorem month_keys_not_chronological :
    (-30610310400000 : Int) < -30610224000000
    ∧ periodKey utcRuntime Period.day none (-30610310400000) = "0999-12-31"
    ∧ periodKey utcRuntime Period.month none (-30610310400000) = "999-12"
    ∧ periodKey utcRuntime Period.month none (-30610224000000) = "1000-01"
    ∧ jsStringLt "1000-01" "999-12" = true
    ∧ periodKey utcRuntime Period.year none (-30610310400000) = "999"
    ∧ periodKey utcRuntime Period.year none (-30610224000000) = "1000"
    ∧ jsStringLt "1000" "999" = true
    ∧ aggregate utcRuntime Period.month none
        [{ saleDate := -30610310400000, totalPrice := 10, quantity := 1 },
         { saleDate := -30610224000000, totalPrice := 20, quantity := 2 }]
      = [{ period_key := "1000-01", total_revenue := 20, total_quantity_sold := 2 },
         { period_key := "999-12", total_revenue := 10, total_quantity_sold := 1 }] := by
  refine ⟨by decide, by decide!, by decide!, by decide!, by decide!, by decide!,
    by decide!, by decide!, by decide!⟩

/-- For day, month and year granularity, when local time never runs backwards and the
sale dates have fixed-width keys (UTC year 0 to 9999 for day keys, local year 1000 to
9999 for month and year keys), every key has the width of its granularity, a later sale
date never has a lesser key, a lesser key means an earlier sale date, and in the emitted
summaries every record of an earlier summary is dated before every record of a later
one. -/
theorem keys_chronological (rt : JsRuntime) (period : Period) (hp : period ≠ Period.week)
    (hmono : localTimeMonotone rt) (start : Option Int) (sales : List SaleRecord)
    (hr : ∀ sale ∈ sales, fixedWidthYear rt period sale.saleDate) :
    (∀ a ∈ sales, (codeUnits (keyOf rt period start a)).length = keyWidth period)
    ∧ (∀ a ∈ sales, ∀ b ∈ sales, a.saleDate ≤ b.saleDate →
        jsStringLe (keyOf rt period start a) (keyOf rt period start b))
    ∧ (∀ a ∈ sales, ∀ b ∈ sales,
        jsStringLt (keyOf rt period start a) (keyOf rt period start b) = true →
        a.saleDate < b.saleDate)
    ∧ (aggregate rt period start sales).Pairwise (fun σ τ =>
        ∀ a ∈ sales, ∀ b ∈ sales, keyOf rt period start a = σ.period_key →
          keyOf rt period start b = τ.period_key → a.saleDate < b.saleDate) := by
  have hlt : ∀ a ∈ sales, ∀ b ∈ sales,
      jsStringLt (keyOf rt period start a) (keyOf rt period start b) = true →
      a.saleDate < b.saleDate := by
    intro a ha b hb hk
    by_contra hnot
    have hle : b.saleDate ≤ a.saleDate := not_lt.1 hnot
    have := periodKey_mono rt period hp hmono start _ _ (hr b hb) (hr a ha) hle
    unfold jsStringLe at this
    unfold keyOf at hk
    rw [hk] at this
    exact absurd this (by decide)
  refine ⟨fun a ha => periodKey_width rt period hp start _ (hr a ha),
    fun a ha b hb h => periodKey_mono rt period hp hmono start _ _ (hr a ha) (hr b hb) h,
    hlt, ?_⟩
  have hs := (aggregate_keys_strict rt period start sales)
  rw [List.Sorted, List.pairwise_map] at hs
  refine List.Pairwise.imp ?_ hs
  intro σ τ hστ a ha b hb hka hkb
  apply hlt a ha b hb
  rw [hka, hkb]
  exact hστ

/-- The keys of the example of the specification are in chronological order: the three
sales of January, February and March 2024, by month, in UTC. -/
theorem keys_chronological_example :
    aggregate utcRuntime Period.month none exampleSales
      = [{ period_key := "2024-01", total_revenue := 1200, total_quantity_sold := 1 },
         { period_key := "2024-02", total_revenue := 1200, total_quantity_sold := 1 },
         { period_key := "2024-03", total_revenue := 3600, total_quantity_sold := 3 }]
    ∧ (aggregate utcRuntime Period.month none exampleSales).Pairwise (fun σ τ =>
        ∀ a ∈ exampleSales, ∀ b ∈ exampleSales,
          keyOf utcRuntime Period.month none a = σ.period_key →
          keyOf utcRuntime Period.month none b = τ.period_key → a.saleDate < b.saleDate) :=
  ⟨by decide!,
   (keys_chronological utcRuntime Period.month (by decide)
      (fun a b h => by show a + 0 ≤ b + 0; omega) none exampleSales (by decide!)).2.2.2⟩

/-- C9 on the code: on a server five hours ahead of UTC, a sale at 2024-01-31T20:00Z
has the day key of its UTC date, "2024-01-31", and the month key of its local date,
"2024-02"; a sale at 2023-12-31T19:00Z has the day key "2023-12-31" and the year key
"2024".  In UTC a sale of the year 999 has the month key "999-12", which is not the
first seven characters of its day key "0999-12-31". -/
theorem month_and_year_keys_use_local_time :
    periodKey plusFiveRuntime Period.day none 1706731200000 = "2024-01-31"
    ∧ periodKey plusFiveRuntime Period.month none 1706731200000 = "2024-02"
    ∧ periodKey plusFiveRuntime Period.day none 1704049200000 = "2023-12-31"
    ∧ periodKey plusFiveRuntime Period.year none 1704049200000 = "2024"
    ∧ periodKey utcRuntime Period.day none (-30610310400000) = "0999-12-31"
    ∧ periodKey utcRuntime Period.month none (-30610310400000) = "999-12" := by
  refine ⟨by decide!, by decide!, by decide!, by decide!, by decide!, by decide!⟩

/-! ## The date parser of the instances -/

theorem isDigit_toNat (c : Char) (h : c.isDigit = true) : 48 ≤ c.toNat ∧ c.toNat ≤ 57 := by
  unfold Char.isDigit at h
  simp only [Bool.and_eq_true, decide_eq_true_eq] at h
  obtain ⟨a, b⟩ := h
  exact ⟨a, b⟩

theorem utf16Units_digit (c : Char) (h : c.isDigit = true) :
    utf16Units c = [48 + (c.toNat - 48)] := by
  obtain ⟨a, b⟩ := isDigit_toNat c h
  unfold utf16Units
  rw [if_pos (by omega)]
  congr 1
  omega

theorem digits4_digitsValue (a b c d : Char) (ha : a.isDigit = true) (hb : b.isDigit = true)
    (hc : c.isDigit = true) (hd : d.isDigit = true) :
    digits4 (digitsValue [a, b, c, d]).toNat
      = [48 + (a.toNat - 48), 48 + (b.toNat - 48), 48 + (c.toNat - 48), 48 + (d.toNat - 48)] := by
  obtain ⟨a0, a1⟩ := isDigit_toNat a ha
  obtain ⟨b0, b1⟩ := isDigit_toNat b hb
  obtain ⟨c0, c1⟩ := isDigit_toNat c hc
  obtain ⟨d0, d1⟩ := isDigit_toNat d hd
  unfold digitsValue digits4
  simp only [List.foldl_cons, List.foldl_nil, Int.toNat_ofNat]
  generalize a.toNat = x at *
  generalize b.toNat = y at *
  generalize c.toNat = z at *
  generalize d.toNat = w at *
  congr 1
  · omega
  · congr 1
    · omega
    · congr 1
      · omega
      · congr 1
        omega

theorem digits2_digitsValue (a b : Char) (ha : a.isDigit = true) (hb : b.isDigit = true) :
    digits2 (digitsValue [a, b]).toNat = [48 + (a.toNat - 48), 48 + (b.toNat - 48)] := by
  obtain ⟨a0, a1⟩ := isDigit_toNat a ha
  obtain ⟨b0, b1⟩ := isDigit_toNat b hb
  unfold digitsValue digits2
  simp only [List.foldl_cons, List.foldl_nil, Int.toNat_ofNat]
  generalize a.toNat = x at *
  generalize b.toNat = y at *
  congr 1
  · omega
  · congr 1
    omega

theorem digitsValue4_range (a b c d : Char) (ha : a.isDigit = true) (hb : b.isDigit = true)
    (hc : c.isDigit = true) (hd : d.isDigit = true) :
    0 ≤ digitsValue [a, b, c, d] ∧ digitsValue [a, b, c, d] ≤ 9999 := by
  obtain ⟨a0, a1⟩ := isDigit_toNat a ha
  obtain ⟨b0, b1⟩ := isDigit_toNat b hb
  obtain ⟨c0, c1⟩ := isDigit_toNat c hc
  obtain ⟨d0, d1⟩ := isDigit_toNat d hd
  unfold digitsValue
  simp only [List.foldl_cons, List.foldl_nil]
  omega

/-- A string the date parser reads is the date part of `toISOString()` of the time value
it gives, which is a midnight UTC. -/
theorem parseDateOnly_isoDate (s : String) (t : Int) (h : parseDateOnly s = some t) :
    isoDate t = s ∧ t % msPerDay = 0 := by
  unfold parseDateOnly at h
  split at h
  · rename_i y1 y2 y3 y4 m1 m2 d1 d2 hs
    split_ifs at h with hd
    simp only [] at h
    split_ifs at h with hc
    injection h with ht
    subst ht
    simp only [List.all_cons, List.all_nil, Bool.and_true, Bool.and_eq_true] at hd
    obtain ⟨hy1, hy2, hy3, hy4, hm1, hm2, hd1, hd2⟩ := hd
    have hday : daysFromCivil (digitsValue [y1, y2, y3, y4]) (digitsValue [m1, m2])
          (digitsValue [d1, d2]) * msPerDay / msPerDay
        = daysFromCivil (digitsValue [y1, y2, y3, y4]) (digitsValue [m1, m2])
          (digitsValue [d1, d2]) :=
      Int.mul_ediv_cancel _ (by decide)
    have hciv : civilOfTime (daysFromCivil (digitsValue [y1, y2, y3, y4])
          (digitsValue [m1, m2]) (digitsValue [d1, d2]) * msPerDay)
        = { year := digitsValue [y1, y2, y3, y4], month := digitsValue [m1, m2],
            day := digitsValue [d1, d2] } := by
      unfold civilOfTime
      rw [hday]
      exact hc
    obtain ⟨r0, r1⟩ := digitsValue4_range y1 y2 y3 y4 hy1 hy2 hy3 hy4
    constructor
    · apply codeUnits_inj
      rw [codeUnits_isoDate _ (by rw [hciv]; exact r0) (by rw [hciv]; exact r1), hciv]
      simp only []
      rw [digits4_digitsValue _ _ _ _ hy1 hy2 hy3 hy4, digits2_digitsValue _ _ hm1 hm2,
        digits2_digitsValue _ _ hd1 hd2]
      unfold codeUnits
      rw [hs]
      simp only [unitsOfChars, utf16Units_digit _ hy1, utf16Units_digit _ hy2,
        utf16Units_digit _ hy3, utf16Units_digit _ hy4, utf16Units_digit _ hm1,
        utf16Units_digit _ hm2, utf16Units_digit _ hd1, utf16Units_digit _ hd2]
      rfl
    · exact Int.mul_emod_left _ _
  · exact absurd h (by simp)

/-! ## Independence of the order of the records -/

/-- The sorted keys of the response do not depend on the order of the records. -/
theorem aggregate_keys_perm (rt : JsRuntime) (period : Period) (start : Option Int)
    (sales reordered : List SaleRecord) (h : reordered.Perm sales) :
    (aggregate rt period start reordered).map PeriodSummary.period_key
      = (aggregate rt period start sales).map PeriodSummary.period_key := by
  have hp : ((aggregate rt period start reordered).map PeriodSummary.period_key).Perm
      ((aggregate rt period start sales).map PeriodSummary.period_key) := by
    rw [List.perm_ext_iff_of_nodup (aggregate_keys_nodup rt period start reordered)
      (aggregate_keys_nodup rt period start sales)]
    intro k
    rw [mem_aggregate_keys, mem_aggregate_keys]
    constructor
    · rintro ⟨s, hs, hk⟩; exact ⟨s, h.mem_iff.1 hs, hk⟩
    · rintro ⟨s, hs, hk⟩; exact ⟨s, h.mem_iff.2 hs, hk⟩
  have s1 : ((aggregate rt period start reordered).map PeriodSummary.period_key).Sorted
      jsStringLe := by rw [aggregate_keys]; exact jsSort_sorted _
  have s2 : ((aggregate rt period start sales).map PeriodSummary.period_key).Sorted
      jsStringLe := by rw [aggregate_keys]; exact jsSort_sorted _
  exact List.eq_of_perm_of_sorted hp s1 s2

/-- The bucket of a key does not depend on the order of the records. -/
theorem bucketAt_aggregatedData_perm (rt : JsRuntime) (period : Period) (start : Option Int)
    (sales reordered : List SaleRecord) (h : reordered.Perm sales) (k : String) :
    bucketAt (aggregatedData rt period start reordered) k
      = bucketAt (aggregatedData rt period start sales) k := by
  obtain ⟨r1, q1⟩ := bucketAt_accumulateFrom rt period start reordered [] k
  obtain ⟨r2, q2⟩ := bucketAt_accumulateFrom rt period start sales [] k
  rw [← aggregatedData_eq] at r1 q1 r2 q2
  have hf : (recordsOf rt period start reordered k).Perm (recordsOf rt period start sales k) :=
    h.filter _
  have hr : sumTotalPrice (recordsOf rt period start reordered k)
      = sumTotalPrice (recordsOf rt period start sales k) :=
    (hf.map SaleRecord.totalPrice).sum_eq
  have hq : sumQuantity (recordsOf rt period start reordered k)
      = sumQuantity (recordsOf rt period start sales k) :=
    (hf.map SaleRecord.quantity).sum_eq
  rw [hr] at r1
  rw [hq] at q1
  cases hb1 : bucketAt (aggregatedData rt period start reordered) k
  cases hb2 : bucketAt (aggregatedData rt period start sales) k
  rw [hb1] at r1 q1
  rw [hb2] at r2 q2
  simp only at r1 q1 r2 q2
  rw [r1, q1, r2, q2]

/-- In exact arithmetic the summaries do not depend on the order of the records. -/
theorem aggregate_perm (rt : JsRuntime) (period : Period) (start : Option Int)
    (sales reordered : List SaleRecord) (h : reordered.Perm sales) :
    aggregate rt period start reordered = aggregate rt period start sales := by
  have hk := aggregate_keys_perm rt period start sales reordered h
  rw [aggregate_keys, aggregate_keys] at hk
  unfold aggregate summarize
  rw [hk]
  apply List.map_congr_left
  intro k _
  rw [bucketAt_aggregatedData_perm rt period start sales reordered h k]

/-! ## Double precision -/

theorem log2Fuel_spec (fuel n : Nat) (h1 : 1 ≤ n) (hf : n ≤ fuel) :
    2 ^ log2Fuel fuel n ≤ n ∧ n < 2 ^ (log2Fuel fuel n + 1) := by
  induction fuel generalizing n with
  | zero => omega
  | succ fuel ih =>
    unfold log2Fuel
    by_cases h2 : n < 2
    · rw [if_pos h2]
      have : n = 1 := by omega
      subst this
      decide
    · rw [if_neg h2]
      obtain ⟨a, b⟩ := ih (n / 2) (by omega) (by omega)
      rw [pow_succ] at b ⊢
      rw [pow_succ]
      constructor <;> omega

theorem natLog2_spec (n : Nat) (h1 : 1 ≤ n) :
    2 ^ natLog2 n ≤ n ∧ n < 2 ^ (natLog2 n + 1) :=
  log2Fuel_spec n n h1 (le_refl n)

theorem pow2_eq_zpow (k : Int) : pow2 k = (2 : ℚ) ^ k := by
  unfold pow2
  by_cases h : 0 ≤ k
  · rw [if_pos h]
    obtain ⟨n, rfl⟩ := Int.eq_ofNat_of_zero_le h
    simp
  · rw [if_neg h]
    obtain ⟨n, hn⟩ := Int.eq_ofNat_of_zero_le (show 0 ≤ -k by omega)
    have : k = -(n : Int) := by omega
    subst this
    simp

theorem pow2_pos (k : Int) : 0 < pow2 k := by
  rw [pow2_eq_zpow]; positivity

theorem pow2_lt_pow2 (a b : Int) (h : pow2 a < pow2 b) : a < b := by
  rw [pow2_eq_zpow, pow2_eq_zpow] at h
  exact (zpow_lt_zpow_iff_right₀ (by norm_num : (1 : ℚ) < 2)).1 h

/-- The binary exponent brackets the magnitude. -/
theorem floorLog2_spec (a : ℚ) (h : a ≠ 0) :
    pow2 (floorLog2 a) ≤ |a| ∧ |a| < pow2 (floorLog2 a + 1) := by
  have hp : 1 ≤ a.num.natAbs := by
    have : a.num ≠ 0 := Rat.num_ne_zero.2 h
    omega
  have hq : 1 ≤ a.den := a.den_pos
  obtain ⟨p0, p1⟩ := natLog2_spec _ hp
  obtain ⟨q0, q1⟩ := natLog2_spec _ hq
  have habs : |a| = (a.num.natAbs : ℚ) / (a.den : ℚ) := by
    conv_lhs => rw [← Rat.num_div_den a]
    rw [abs_div, Nat.abs_cast, Nat.cast_natAbs, Int.cast_abs]
  have hd : (0 : ℚ) < a.den := by exact_mod_cast hq
  have p0' : (2 : ℚ) ^ natLog2 a.num.natAbs ≤ a.num.natAbs := by exact_mod_cast p0
  have p1' : (a.num.natAbs : ℚ) < 2 ^ (natLog2 a.num.natAbs + 1) := by exact_mod_cast p1
  have q0' : (2 : ℚ) ^ natLog2 a.den ≤ a.den := by exact_mod_cast q0
  have q1' : (a.den : ℚ) < 2 ^ (natLog2 a.den + 1) := by exact_mod_cast q1
  unfold floorLog2
  simp only
  split_ifs with hc
  · refine ⟨hc, ?_⟩
    rw [habs, pow2_eq_zpow, div_lt_iff₀ hd]
    have e : (2 : ℚ) ^ ((natLog2 a.num.natAbs : Int) - (natLog2 a.den : Int) + 1)
        = 2 ^ (natLog2 a.num.natAbs + 1) / 2 ^ natLog2 a.den := by
      rw [show ((natLog2 a.num.natAbs : Int) - (natLog2 a.den : Int) + 1)
          = ((natLog2 a.num.natAbs + 1 : Nat) : Int) - (natLog2 a.den : Int) by push_cast; ring,
        zpow_sub₀ (by norm_num), zpow_natCast, zpow_natCast]
    rw [e, div_mul_eq_mul_div, lt_div_iff₀ (by positivity)]
    calc (a.num.natAbs : ℚ) * 2 ^ natLog2 a.den
        < 2 ^ (natLog2 a.num.natAbs + 1) * 2 ^ natLog2 a.den := by
          apply mul_lt_mul_of_pos_right p1'; positivity
      _ ≤ 2 ^ (natLog2 a.num.natAbs + 1) * a.den := by
          apply mul_le_mul_of_nonneg_left q0'; positivity
  · refine ⟨?_, ?_⟩
    · rw [habs, pow2_eq_zpow, le_div_iff₀ hd]
      have e : (2 : ℚ) ^ ((natLog2 a.num.natAbs : Int) - (natLog2 a.den : Int) - 1)
          = 2 ^ natLog2 a.num.natAbs / 2 ^ (natLog2 a.den + 1) := by
        rw [show ((natLog2 a.num.natAbs : Int) - (natLog2 a.den : Int) - 1)
            = (natLog2 a.num.natAbs : Int) - ((natLog2 a.den + 1 : Nat) : Int) by
              push_cast; ring,
          zpow_sub₀ (by norm_num), zpow_natCast, zpow_natCast]
      rw [e, div_mul_eq_mul_div, div_le_iff₀ (by positivity)]
      calc (2 : ℚ) ^ natLog2 a.num.natAbs * a.den
          ≤ a.num.natAbs * a.den := by
            apply mul_le_mul_of_nonneg_right p0' (le_of_lt hd)
        _ ≤ a.num.natAbs * 2 ^ (natLog2 a.den + 1) := by
            apply mul_le_mul_of_nonneg_left (le_of_lt q1'); positivity
    · rw [sub_add_cancel]
      exact not_le.1 hc

theorem roundHalfEven_error (y : ℚ) : |((roundHalfEven y : Int) : ℚ) - y| ≤ 1 / 2 := by
  have h0 := Int.floor_le y
  have h1 := Int.lt_floor_add_one y
  unfold roundHalfEven
  split_ifs with a b c
  · rw [abs_le]; constructor <;> linarith
  · rw [abs_le]; push_cast; constructor <;> linarith
  · rw [abs_le]; constructor <;> linarith
  · rw [abs_le]; push_cast; constructor <;> linarith

theorem roundHalfEven_intCast (m : Int) : roundHalfEven (m : ℚ) = m := by
  unfold roundHalfEven
  rw [Int.floor_intCast, sub_self, if_pos (by norm_num)]

/-- The rounding moves a number by at most half the spacing of the doubles around it. -/
theorem toDouble_error (x : ℚ) : |toDouble x - x| ≤ ulpOf x / 2 := by
  have hu : 0 < ulpOf x := pow2_pos _
  unfold toDouble
  split_ifs with h0
  · subst h0
    rw [sub_self, abs_zero]
    exact le_of_lt (half_pos hu)
  · have e : ((roundHalfEven (x / ulpOf x) : Int) : ℚ) * ulpOf x - x
        = (((roundHalfEven (x / ulpOf x) : Int) : ℚ) - x / ulpOf x) * ulpOf x := by
      field_simp
    rw [e, abs_mul, abs_of_pos hu]
    have := roundHalfEven_error (x / ulpOf x)
    calc |((roundHalfEven (x / ulpOf x) : Int) : ℚ) - x / ulpOf x| * ulpOf x
        ≤ 1 / 2 * ulpOf x := mul_le_mul_of_nonneg_right this (le_of_lt hu)
      _ = ulpOf x / 2 := by ring

theorem pow2_add (a b : Int) : pow2 (a + b) = pow2 a * pow2 b := by
  rw [pow2_eq_zpow, pow2_eq_zpow, pow2_eq_zpow, zpow_add₀ (by norm_num)]

theorem pow2_mono (a b : Int) (h : a ≤ b) : pow2 a ≤ pow2 b := by
  rw [pow2_eq_zpow, pow2_eq_zpow]
  exact zpow_le_zpow_right₀ (by norm_num) h

theorem pow2_natCast (n : Nat) : pow2 (n : Int) = 2 ^ n := by
  rw [pow2_eq_zpow, zpow_natCast]

/-- The value of the rounding is a double: a significand of at most 53 bits times a
power of two not below the least one, `2 ^ (-1074)`. -/
theorem toDouble_is_double (x : ℚ) :
    ∃ m k : Int, |m| ≤ 2 ^ 53 ∧ -1074 ≤ k ∧ toDouble x = (m : ℚ) * pow2 k := by
  by_cases h0 : x = 0
  · exact ⟨0, 0, by norm_num, by norm_num, by simp [toDouble, h0]⟩
  · refine ⟨roundHalfEven (x / ulpOf x), max (floorLog2 x) (-1022) - 52, ?_, ?_, ?_⟩
    · have hu : 0 < ulpOf x := pow2_pos _
      have hx := (floorLog2_spec x h0).2
      have hle : pow2 (floorLog2 x + 1) ≤ ulpOf x * 2 ^ 53 := by
        have : pow2 (floorLog2 x + 1) ≤ pow2 ((max (floorLog2 x) (-1022) - 52) + (53 : Nat)) :=
          pow2_mono _ _ (by have := le_max_left (floorLog2 x) (-1022); push_cast; omega)
        have e : pow2 ((max (floorLog2 x) (-1022) - 52) + (53 : Nat)) = ulpOf x * 2 ^ 53 := by
          rw [pow2_add, pow2_natCast]; rfl
        rw [e] at this
        exact this
      have hy : |x / ulpOf x| < 2 ^ 53 := by
        rw [abs_div, abs_of_pos hu, div_lt_iff₀ hu]
        calc |x| < pow2 (floorLog2 x + 1) := hx
          _ ≤ ulpOf x * 2 ^ 53 := hle
          _ = 2 ^ 53 * ulpOf x := by ring
      have he := roundHalfEven_error (x / ulpOf x)
      have hm : |((roundHalfEven (x / ulpOf x) : Int) : ℚ)| < 2 ^ 53 + 1 := by
        rw [abs_lt] at hy ⊢
        rw [abs_le] at he
        constructor <;> linarith
      have hm2 : |roundHalfEven (x / ulpOf x)| < 2 ^ 53 + 1 := by
        have h3 : ((|roundHalfEven (x / ulpOf x)| : Int) : ℚ) < ((2 ^ 53 + 1 : Int) : ℚ) := by
          rw [Int.cast_abs]
          calc |((roundHalfEven (x / ulpOf x) : Int) : ℚ)| < 2 ^ 53 + 1 := hm
            _ = ((2 ^ 53 + 1 : Int) : ℚ) := by norm_num
        exact Int.cast_lt.1 h3
      omega
    · have := le_max_right (floorLog2 x) (-1022)
      omega
    · simp only [toDouble, if_neg h0, ulpOf]

/-- An integer below `2 ^ 53` in magnitude is a double. -/
theorem toDouble_intCast (n : Int) (h : |n| < 2 ^ 53) : toDouble (n : ℚ) = n := by
  by_cases h0 : n = 0
  · subst h0; simp [toDouble]
  · have hx : (n : ℚ) ≠ 0 := by exact_mod_cast h0
    have hlo := (floorLog2_spec (n : ℚ) hx).1
    have hlt : pow2 (floorLog2 (n : ℚ)) < pow2 ((53 : Nat) : Int) := by
      rw [pow2_natCast]
      have : |(n : ℚ)| < 2 ^ 53 := by
        have : ((|n| : Int) : ℚ) < ((2 ^ 53 : Int) : ℚ) := by exact_mod_cast h
        push_cast at this
        exact this
      linarith
    have he := pow2_lt_pow2 _ _ hlt
    obtain ⟨j, hj⟩ := Int.eq_ofNat_of_zero_le
      (show 0 ≤ -(max (floorLog2 (n : ℚ)) (-1022) - 52) by
        have := max_le (show floorLog2 (n : ℚ) ≤ 52 by push_cast at he; omega)
          (show (-1022 : Int) ≤ 52 by norm_num)
        omega)
    have hk : max (floorLog2 (n : ℚ)) (-1022) - 52 = -(j : Int) := by omega
    have hu : ulpOf (n : ℚ) = ((2 : ℚ) ^ j)⁻¹ := by
      unfold ulpOf
      rw [hk, pow2_eq_zpow, zpow_neg, zpow_natCast]
    unfold toDouble
    rw [if_neg hx, hu, div_inv_eq_mul]
    have : (n : ℚ) * 2 ^ j = ((n * 2 ^ j : Int) : ℚ) := by push_cast; rfl
    rw [this, roundHalfEven_intCast]
    push_cast
    have h2 : (2 : ℚ) ^ j ≠ 0 := by positivity
    field_simp

theorem floor_half : ⌊(1 / 2 : ℚ)⌋ = 0 :=
  Int.floor_eq_iff.2 ⟨by norm_num, by norm_num⟩

/-- The method `toFixed(2)` leaves an integer below 1e21 in magnitude as it is. -/
theorem toFixed2_intCast (n : Int) (h : |n| < 10 ^ 21) : toFixed2 (n : ℚ) = n := by
  have hq : ¬ |(n : ℚ)| ≥ 10 ^ 21 := by
    have : ((|n| : Int) : ℚ) < ((10 ^ 21 : Int) : ℚ) := by exact_mod_cast h
    push_cast at this
    exact not_le.2 this
  unfold toFixed2
  rw [if_neg hq]
  have e1 : (n : ℚ) * 100 + 1 / 2 = ((n * 100 : Int) : ℚ) + 1 / 2 := by push_cast; rfl
  have e2 : -(n : ℚ) * 100 + 1 / 2 = ((-n * 100 : Int) : ℚ) + 1 / 2 := by push_cast; rfl
  split_ifs with hneg
  · rw [e2, Int.floor_int_add, floor_half]
    push_cast
    ring
  · rw [e1, Int.floor_int_add, floor_half]
    push_cast
    ring

theorem toDouble_of_whole (x : ℚ) (z : Int) (hx : x = z) (hb : |x| < 2 ^ 53) :
    toDouble x = x := by
  subst hx
  apply toDouble_intCast
  have : ((|z| : Int) : ℚ) < ((2 ^ 53 : Int) : ℚ) := by
    rw [Int.cast_abs]
    calc |(z : ℚ)| < 2 ^ 53 := hb
      _ = ((2 ^ 53 : Int) : ℚ) := by norm_num
  exact Int.cast_lt.1 this

theorem toFixed2_of_whole (x : ℚ) (z : Int) (hx : x = z) (hb : |x| < 2 ^ 53) :
    toFixed2 x = x := by
  subst hx
  apply toFixed2_intCast
  have : ((|z| : Int) : ℚ) < ((10 ^ 21 : Int) : ℚ) := by
    rw [Int.cast_abs]
    calc |(z : ℚ)| < 2 ^ 53 := hb
      _ ≤ ((10 ^ 21 : Int) : ℚ) := by norm_num
  exact Int.cast_lt.1 this

/-! ## The aggregation in double precision -/

theorem bucketAt_addSaleDouble (data : AggregatedData) (key : String) (sale : SaleRecord)
    (k : String) :
    bucketAt (addSaleDouble data key sale) k
      = if k = key then
          { total_revenue :=
              toDouble ((bucketAt data k).total_revenue + toDouble sale.totalPrice),
            total_quantity_sold := (bucketAt data k).total_quantity_sold + sale.quantity }
        else bucketAt data k := by
  induction data with
  | nil =>
    simp only [addSaleDouble, bucketAt_cons, bucketAt_nil]
  | cons e rest ih =>
    obtain ⟨a, b⟩ := e
    unfold addSaleDouble
    by_cases hak : a = key
    · subst hak
      simp only [if_true, bucketAt_cons]
      by_cases hk : k = a
      · simp [hk]
      · simp [hk]
    · simp only [hak, if_false, bucketAt_cons, ih]
      by_cases hk : k = a
      · have : ¬ k = key := fun e => hak (hk ▸ e)
        simp [hk, hak]
      · simp [hk]

/-- The keys of the object are the same in double precision as in exact arithmetic. -/
theorem keys_addSaleDouble (data : AggregatedData) (key : String) (sale : SaleRecord) :
    (addSaleDouble data key sale).map Prod.fst
      = if key ∈ data.map Prod.fst then data.map Prod.fst else data.map Prod.fst ++ [key] := by
  induction data with
  | nil => simp [addSaleDouble]
  | cons e rest ih =>
    obtain ⟨a, b⟩ := e
    unfold addSaleDouble
    by_cases hak : a = key
    · subst hak; simp
    · have hka : ¬ key = a := fun e => hak e.symm
      simp only [hak, if_false, List.map_cons, ih, List.mem_cons, hka, false_or]
      split_ifs <;> simp

theorem accumulateFromDouble_cons (rt : JsRuntime) (period : Period) (start : Option Int)
    (data : AggregatedData) (sale : SaleRecord) (sales : List SaleRecord) :
    accumulateFromDouble rt period start data (sale :: sales)
      = accumulateFromDouble rt period start
          (addSaleDouble data (keyOf rt period start sale) sale) sales :=
  rfl

theorem keys_accumulateFromDouble (rt : JsRuntime) (period : Period) (start : Option Int)
    (sales : List SaleRecord) (data exact : AggregatedData)
    (h : data.map Prod.fst = exact.map Prod.fst) :
    (accumulateFromDouble rt period start data sales).map Prod.fst
      = (accumulateFrom rt period start exact sales).map Prod.fst := by
  induction sales generalizing data exact with
  | nil => exact h
  | cons sale rest ih =>
    rw [accumulateFromDouble_cons, accumulateFrom_cons]
    apply ih
    rw [keys_addSaleDouble, keys_addSale, h]

/-- The bucket of a key after the accumulation in double precision: the records that
map to the key, added in their order to what the bucket held before. -/
theorem bucketAt_accumulateFromDouble (rt : JsRuntime) (period : Period)
    (start : Option Int) (sales : List SaleRecord) (data : AggregatedData) (k : String) :
    (bucketAt (accumulateFromDouble rt period start data sales) k).total_revenue
      = sumTotalPriceDoubleFrom (bucketAt data k).total_revenue
          (recordsOf rt period start sales k)
    ∧ (bucketAt (accumulateFromDouble rt period start data sales) k).total_quantity_sold
      = (bucketAt data k).total_quantity_sold
        + sumQuantity (recordsOf rt period start sales k) := by
  induction sales generalizing data with
  | nil => simp [accumulateFromDouble, recordsOf, sumTotalPriceDoubleFrom, sumQuantity]
  | cons sale rest ih =>
    rw [accumulateFromDouble_cons, recordsOf_cons]
    obtain ⟨ih1, ih2⟩ := ih (addSaleDouble data (keyOf rt period start sale) sale)
    rw [ih1, ih2, bucketAt_addSaleDouble]
    by_cases h : keyOf rt period start sale = k
    · have hk : k = keyOf rt period start sale := h.symm
      simp only [h, if_true, sumTotalPriceDoubleFrom, sumQuantity, List.map_cons,
        List.sum_cons, List.foldl_cons]
      constructor
      · trivial
      · ring
    · have hk : ¬ k = keyOf rt period start sale := fun e => h e.symm
      simp only [h, hk, if_false, and_self]

theorem summarizeDouble_keys (data : AggregatedData) :
    (summarizeDouble data).map PeriodSummary.period_key = jsSort (data.map Prod.fst) := by
  unfold summarizeDouble
  rw [List.map_map]
  conv_rhs => rw [← List.map_id (jsSort (data.map Prod.fst))]
  rfl

theorem mem_summarizeDouble (data : AggregatedData) (σ : PeriodSummary) :
    σ ∈ summarizeDouble data ↔
      σ.period_key ∈ data.map Prod.fst
      ∧ σ.total_revenue = toDouble (toFixed2 (bucketAt data σ.period_key).total_revenue)
      ∧ σ.total_quantity_sold = (bucketAt data σ.period_key).total_quantity_sold := by
  unfold summarizeDouble
  rw [List.mem_map]
  constructor
  · rintro ⟨k, hk, rfl⟩
    exact ⟨(jsSort_perm _).mem_iff.1 hk, rfl, rfl⟩
  · rintro ⟨hk, hr, hq⟩
    refine ⟨σ.period_key, (jsSort_perm _).mem_iff.2 hk, ?_⟩
    cases σ
    simp only at hr hq
    simp [hr, hq]

theorem aggregatedDataDouble_keys (rt : JsRuntime) (period : Period) (start : Option Int)
    (sales : List SaleRecord) :
    (aggregatedDataDouble rt period start sales).map Prod.fst
      = (aggregatedData rt period start sales).map Prod.fst :=
  keys_accumulateFromDouble rt period start sales [] [] rfl

/-- The keys of the response, and their order, are the same in double precision as in
exact arithmetic. -/
theorem aggregateDouble_keys (rt : JsRuntime) (period : Period) (start : Option Int)
    (sales : List SaleRecord) :
    (aggregateDouble rt period start sales).map PeriodSummary.period_key
      = (aggregate rt period start sales).map PeriodSummary.period_key := by
  unfold aggregateDouble
  rw [summarizeDouble_keys, aggregatedDataDouble_keys, aggregate_keys]

/-- The bucket of a key in double precision: the double-precision sum of the prices of
the records of the key, in their order, and the sum of their quantities. -/
theorem bucketAt_aggregatedDataDouble (rt : JsRuntime) (period : Period)
    (start : Option Int) (sales : List SaleRecord) (k : String) :
    bucketAt (aggregatedDataDouble rt period start sales) k
      = { total_revenue := sumTotalPriceDouble (recordsOf rt period start sales k),
          total_quantity_sold := sumQuantity (recordsOf rt period start sales k) } := by
  obtain ⟨r, q⟩ := bucketAt_accumulateFromDouble rt period start sales [] k
  have e : aggregatedDataDouble rt period start sales
      = accumulateFromDouble rt period start [] sales := rfl
  rw [← e] at r q
  cases hb : bucketAt (aggregatedDataDouble rt period start sales) k
  rw [hb] at r q
  simp only [bucketAt_nil, zero_add] at r q
  rw [r, q]
  rfl

/-- The bucket of a key in exact arithmetic: the sums over the records of the key. -/
theorem bucketAt_aggregatedData (rt : JsRuntime) (period : Period) (start : Option Int)
    (sales : List SaleRecord) (k : String) :
    bucketAt (aggregatedData rt period start sales) k
      = { total_revenue := sumTotalPrice (recordsOf rt period start sales k),
          total_quantity_sold := sumQuantity (recordsOf rt period start sales k) } := by
  obtain ⟨r, q⟩ := bucketAt_accumulateFrom rt period start sales [] k
  rw [← aggregatedData_eq] at r q
  cases hb : bucketAt (aggregatedData rt period start sales) k
  rw [hb] at r q
  simp only [bucketAt_nil, zero_add] at r q
  rw [r, q]

/-- The keys and the quantities of the response, in their order, are the same in
double precision as in exact arithmetic. -/
theorem aggregateDouble_keyAndQuantity (rt : JsRuntime) (period : Period)
    (start : Option Int) (sales : List SaleRecord) :
    (aggregateDouble rt period start sales).map PeriodSummary.keyAndQuantity
      = (aggregate rt period start sales).map PeriodSummary.keyAndQuantity := by
  unfold aggregateDouble aggregate summarizeDouble summarize
  rw [aggregatedDataDouble_keys, List.map_map, List.map_map]
  apply List.map_congr_left
  intro k _
  show (k, (bucketAt (aggregatedDataDouble rt period start sales) k).total_quantity_sold)
    = (k, (bucketAt (aggregatedData rt period start sales) k).total_quantity_sold)
  rw [bucketAt_aggregatedDataDouble, bucketAt_aggregatedData]

theorem sumAbsTotalPrice_nonneg (sales : List SaleRecord) : 0 ≤ sumAbsTotalPrice sales := by
  unfold sumAbsTotalPrice
  induction sales with
  | nil => simp
  | cons s rest ih =>
    rw [List.map_cons, List.sum_cons]
    exact add_nonneg (abs_nonneg _) ih

theorem sumAbsTotalPrice_recordsOf (rt : JsRuntime) (period : Period) (start : Option Int)
    (sales : List SaleRecord) (k : String) :
    sumAbsTotalPrice (recordsOf rt period start sales k) ≤ sumAbsTotalPrice sales := by
  induction sales with
  | nil => exact le_refl _
  | cons s rest ih =>
    rw [recordsOf_cons]
    have e : sumAbsTotalPrice (s :: rest) = |s.totalPrice| + sumAbsTotalPrice rest := by
      simp [sumAbsTotalPrice]
    split_ifs
    · have e2 : sumAbsTotalPrice (s :: recordsOf rt period start rest k)
          = |s.totalPrice| + sumAbsTotalPrice (recordsOf rt period start rest k) := by
        simp [sumAbsTotalPrice]
      rw [e, e2]
      linarith
    · rw [e]
      have := abs_nonneg s.totalPrice
      linarith

/-- Whole prices whose magnitudes sum to less than `2 ^ 53` are added without rounding. -/
theorem sumTotalPriceDoubleFrom_whole (sales : List SaleRecord) (z0 : Int)
    (hw : ∀ sale ∈ sales, ∃ z : Int, sale.totalPrice = z)
    (hb : |(z0 : ℚ)| + sumAbsTotalPrice sales < 2 ^ 53) :
    sumTotalPriceDoubleFrom z0 sales = z0 + sumTotalPrice sales
    ∧ (∃ z : Int, (z0 : ℚ) + sumTotalPrice sales = z)
    ∧ |(z0 : ℚ) + sumTotalPrice sales| ≤ |(z0 : ℚ)| + sumAbsTotalPrice sales := by
  induction sales generalizing z0 with
  | nil =>
    simp [sumTotalPriceDoubleFrom, sumTotalPrice, sumAbsTotalPrice]
  | cons s rest ih =>
    obtain ⟨p, hp⟩ := hw s (List.mem_cons_self _ _)
    have e : sumAbsTotalPrice (s :: rest) = |s.totalPrice| + sumAbsTotalPrice rest := by
      simp [sumAbsTotalPrice]
    have e2 : sumTotalPrice (s :: rest) = s.totalPrice + sumTotalPrice rest := by
      simp [sumTotalPrice]
    rw [e] at hb
    have hn := sumAbsTotalPrice_nonneg rest
    have h0 := abs_nonneg (z0 : ℚ)
    have hs := abs_nonneg s.totalPrice
    have tri := abs_add (z0 : ℚ) s.totalPrice
    have d1 : toDouble s.totalPrice = s.totalPrice :=
      toDouble_of_whole _ p hp (by linarith)
    have hz : (z0 : ℚ) + s.totalPrice = ((z0 + p : Int) : ℚ) := by rw [hp]; push_cast; rfl
    have d2 : toDouble ((z0 : ℚ) + s.totalPrice) = ((z0 + p : Int) : ℚ) := by
      rw [toDouble_of_whole _ (z0 + p) hz (by linarith), hz]
    obtain ⟨i1, i2, i3⟩ := ih (z0 + p) (fun sale h => hw sale (List.mem_cons_of_mem _ h))
      (by rw [← hz]; linarith)
    have step : sumTotalPriceDoubleFrom z0 (s :: rest)
        = sumTotalPriceDoubleFrom ((z0 + p : Int) : ℚ) rest := by
      unfold sumTotalPriceDoubleFrom
      rw [List.foldl_cons, d1, d2]
    rw [step, i1, e, e2, ← hz]
    rw [← hz] at i2 i3
    refine ⟨by ring, ?_, ?_⟩
    · obtain ⟨z, hz2⟩ := i2
      exact ⟨z, by rw [← hz2]; ring⟩
    · have : (z0 : ℚ) + (s.totalPrice + sumTotalPrice rest)
          = (z0 : ℚ) + s.totalPrice + sumTotalPrice rest := by ring
      rw [this]
      linarith

/-- When every price is a whole number and the magnitudes of the prices sum to less
than `2 ^ 53`, no operation of the aggregation rounds: the summaries in double precision
are those of exact arithmetic. -/
theorem aggregateDouble_eq_aggregate (rt : JsRuntime) (period : Period) (start : Option Int)
    (sales : List SaleRecord) (hw : ∀ sale ∈ sales, ∃ z : Int, sale.totalPrice = z)
    (hb : sumAbsTotalPrice sales < 2 ^ 53) :
    aggregateDouble rt period start sales = aggregate rt period start sales := by
  unfold aggregateDouble aggregate summarizeDouble summarize
  rw [aggregatedDataDouble_keys]
  apply List.map_congr_left
  intro k _
  rw [bucketAt_aggregatedDataDouble, bucketAt_aggregatedData]
  have hwk : ∀ sale ∈ recordsOf rt period start sales k, ∃ z : Int, sale.totalPrice = z :=
    fun sale h => hw sale (List.mem_of_mem_filter h)
  have hbk := sumAbsTotalPrice_recordsOf rt period start sales k
  obtain ⟨s1, ⟨z, s2⟩, s3⟩ := sumTotalPriceDoubleFrom_whole
    (recordsOf rt period start sales k) 0 hwk (by simp only [Int.cast_zero, abs_zero]; linarith)
  simp only [Int.cast_zero, abs_zero, zero_add] at s1 s2 s3
  have s1' : sumTotalPriceDouble (recordsOf rt period start sales k)
      = sumTotalPrice (recordsOf rt period start sales k) := s1
  have hlt : |sumTotalPrice (recordsOf rt period start sales k)| < 2 ^ 53 := by linarith
  simp only [s1']
  rw [toFixed2_of_whole _ z s2 hlt, toDouble_of_whole _ z s2 hlt]

/-- The example of the specification in double precision: the summaries are those of
exact arithmetic. -/
theorem aggregateDouble_exampleSales :
    aggregateDouble utcRuntime Period.month none exampleSales
      = [{ period_key := "2024-01", total_revenue := 1200, total_quantity_sold := 1 },
         { period_key := "2024-02", total_revenue := 1200, total_quantity_sold := 1 },
         { period_key := "2024-03", total_revenue := 3600, total_quantity_sold := 3 }] := by
  decide!

/-- C4, as the claim states it, fails: for one sale of 1.005 on 2024-01-05, `parseFloat`
reads the double just below 1.005, `toFixed(2)` writes "1.00" and the summary holds
`total_revenue` 1, whereas the exact decimal sum 1.005 rounded half-up to two fractional
digits is 1.01, which no conversion to a double turns into 1. -/
theorem total_revenue_is_not_the_exact_decimal_sum :
    aggregateDouble utcRuntime Period.day none
        [{ saleDate := 1704448800000, totalPrice := 1005 / 1000, quantity := 1 }]
      = [{ period_key := "2024-01-05", total_revenue := 1, total_quantity_sold := 1 }]
    ∧ roundHalfUp2 (sumTotalPrice (recordsOf utcRuntime Period.day none
        [{ saleDate := 1704448800000, totalPrice := 1005 / 1000, quantity := 1 }]
        "2024-01-05")) = 101 / 100
    ∧ toDouble (1005 / 1000) = 1131529406376837 / 1125899906842624
    ∧ toDouble (1005 / 1000) < 1005 / 1000
    ∧ toDouble (101 / 100) ≠ 1 := by
  refine ⟨by decide!, by decide!, by decide!, by decide!, by decide!⟩

/-- C4, amended: for every bucket emitted by the aggregation, `total_revenue` is the sum
of the `totalPrice` values of the bucket's records accumulated in double precision (in
the order of the records, each price converted to the nearest double and each addition
rounded to the nearest double), rounded by `toFixed(2)` to two fractional digits and
read back as the nearest double; the rounding to two digits is half-up for a sum from 0
up to 1e21. -/
theorem aggregateDouble_total_revenue (rt : JsRuntime) (period : Period)
    (start : Option Int) (sales : List SaleRecord) (σ : PeriodSummary)
    (hσ : σ ∈ aggregateDouble rt period start sales) :
    σ.total_revenue
      = toDouble (toFixed2
          (sumTotalPriceDouble (recordsOf rt period start sales σ.period_key)))
    ∧ (0 ≤ sumTotalPriceDouble (recordsOf rt period start sales σ.period_key) →
        sumTotalPriceDouble (recordsOf rt period start sales σ.period_key) < 10 ^ 21 →
        σ.total_revenue
          = toDouble (roundHalfUp2
              (sumTotalPriceDouble (recordsOf rt period start sales σ.period_key)))) := by
  have h := ((mem_summarizeDouble _ σ).1 hσ).2.1
  rw [bucketAt_aggregatedDataDouble] at h
  refine ⟨h, fun h0 h1 => ?_⟩
  rw [h]
  unfold toFixed2 roundHalfUp2
  rw [if_neg (by rw [abs_of_nonneg h0]; exact not_le.2 h1), if_neg (not_lt.2 h0)]

/-- C4 amended, at two sales of 0.1 and 0.2 on 2024-01-05: the double-precision sum is
0.30000000000000004, `toFixed(2)` writes "0.30" and `total_revenue` is the double nearest
to 0.3. -/
theorem aggregateDouble_total_revenue_witness :
    ({ period_key := "2024-01-05", total_revenue := toDouble (3 / 10),
       total_quantity_sold := 3 } : PeriodSummary)
      ∈ aggregateDouble utcRuntime Period.day none
          [{ saleDate := 1704448800000, totalPrice := 1 / 10, quantity := 1 },
           { saleDate := 1704452400000, totalPrice := 2 / 10, quantity := 2 }]
    ∧ sumTotalPriceDouble
        [{ saleDate := 1704448800000, totalPrice := 1 / 10, quantity := 1 },
         { saleDate := 1704452400000, totalPrice := 2 / 10, quantity := 2 }]
      = 1351079888211149 / 4503599627370496
    ∧ toDouble (3 / 10)
      = toDouble (toFixed2 (sumTotalPriceDouble (recordsOf utcRuntime Period.day none
          [{ saleDate := 1704448800000, totalPrice := 1 / 10, quantity := 1 },
           { saleDate := 1704452400000, totalPrice := 2 / 10, quantity := 2 }]
          "2024-01-05"))) :=
  ⟨by decide!, by decide!,
   (aggregateDouble_total_revenue utcRuntime Period.day none
      [{ saleDate := 1704448800000, totalPrice := 1 / 10, quantity := 1 },
       { saleDate := 1704452400000, totalPrice := 2 / 10, quantity := 2 }]
      { period_key := "2024-01-05", total_revenue := toDouble (3 / 10),
        total_quantity_sold := 3 }
      (by decide!)).1⟩

/-- C21, as the claim states it, fails: three sales of 1.387, 0.449 and 1.559 with one
sale date give `total_revenue` 3.4 when they come in this order and 3.39 when they come
in the order 1.387, 1.559, 0.449 (the double-precision sums are 3.3950000000000000178
and 3.3949999999999995737). -/
theorem total_revenue_depends_on_the_order :
    List.Perm
      [({ saleDate := 1704448800000, totalPrice := 1387 / 1000, quantity := 1 } : SaleRecord),
       { saleDate := 1704448800000, totalPrice := 1559 / 1000, quantity := 1 },
       { saleDate := 1704448800000, totalPrice := 449 / 1000, quantity := 1 }]
      [{ saleDate := 1704448800000, totalPrice := 1387 / 1000, quantity := 1 },
       { saleDate := 1704448800000, totalPrice := 449 / 1000, quantity := 1 },
       { saleDate := 1704448800000, totalPrice := 1559 / 1000, quantity := 1 }]
    ∧ aggregateDouble utcRuntime Period.day none
        [{ saleDate := 1704448800000, totalPrice := 1387 / 1000, quantity := 1 },
         { saleDate := 1704448800000, totalPrice := 449 / 1000, quantity := 1 },
         { saleDate := 1704448800000, totalPrice := 1559 / 1000, quantity := 1 }]
      = [{ period_key := "2024-01-05", total_revenue := toDouble (340 / 100),
           total_quantity_sold := 3 }]
    ∧ aggregateDouble utcRuntime Period.day none
        [{ saleDate := 1704448800000, totalPrice := 1387 / 1000, quantity := 1 },
         { saleDate := 1704448800000, totalPrice := 1559 / 1000, quantity := 1 },
         { saleDate := 1704448800000, totalPrice := 449 / 1000, quantity := 1 }]
      = [{ period_key := "2024-01-05", total_revenue := toDouble (339 / 100),
           total_quantity_sold := 3 }]
    ∧ toDouble (339 / 100) ≠ toDouble (340 / 100) := by
  refine ⟨(List.Perm.swap _ _ _).cons _, by decide!, by decide!, by decide!⟩

/-- C21, amended: for every list of sale records and every permutation of it, the
aggregation yields the same sequence of period keys with the same `total_quantity_sold`;
a summary also has the same `total_revenue` when the records of its key come in the
same order in both lists; the whole sequence of summaries is the same when this holds
for every key, and also when every price is a whole number and the magnitudes of the
prices sum to less than `2 ^ 53`. -/
theorem aggregateDouble_order (rt : JsRuntime) (period : Period) (start : Option Int)
    (sales reordered : List SaleRecord) (h : reordered.Perm sales) :
    (aggregateDouble rt period start reordered).map PeriodSummary.keyAndQuantity
      = (aggregateDouble rt period start sales).map PeriodSummary.keyAndQuantity
    ∧ (∀ σ ∈ aggregateDouble rt period start reordered,
        ∀ τ ∈ aggregateDouble rt period start sales, σ.period_key = τ.period_key →
          recordsOf rt period start reordered σ.period_key
            = recordsOf rt period start sales σ.period_key →
          σ.total_revenue = τ.total_revenue)
    ∧ ((∀ k, recordsOf rt period start reordered k = recordsOf rt period start sales k) →
        aggregateDouble rt period start reordered
          = aggregateDouble rt period start sales)
    ∧ ((∀ sale ∈ sales, ∃ z : Int, sale.totalPrice = z) →
        sumAbsTotalPrice sales < 2 ^ 53 →
        aggregateDouble rt period start reordered
          = aggregateDouble rt period start sales) := by
  have hk : jsSort ((aggregatedDataDouble rt period start reordered).map Prod.fst)
      = jsSort ((aggregatedDataDouble rt period start sales).map Prod.fst) := by
    rw [← summarizeDouble_keys, ← summarizeDouble_keys]
    exact (aggregateDouble_keys rt period start reordered).trans
      ((aggregate_keys_perm rt period start sales reordered h).trans
        (aggregateDouble_keys rt period start sales).symm)
  refine ⟨?_, ?_, ?_, ?_⟩
  · unfold aggregateDouble summarizeDouble
    rw [hk, List.map_map, List.map_map]
    apply List.map_congr_left
    intro k _
    show (k, (bucketAt (aggregatedDataDouble rt period start reordered) k).total_quantity_sold)
      = (k, (bucketAt (aggregatedDataDouble rt period start sales) k).total_quantity_sold)
    rw [bucketAt_aggregatedDataDouble, bucketAt_aggregatedDataDouble]
    have hf : (recordsOf rt period start reordered k).Perm
        (recordsOf rt period start sales k) := h.filter _
    have hq : sumQuantity (recordsOf rt period start reordered k)
        = sumQuantity (recordsOf rt period start sales k) :=
      (hf.map SaleRecord.quantity).sum_eq
    rw [hq]
  · intro σ hσ τ hτ hkey hrec
    have h1 := ((mem_summarizeDouble _ σ).1 hσ).2.1
    have h2 := ((mem_summarizeDouble _ τ).1 hτ).2.1
    rw [bucketAt_aggregatedDataDouble] at h1 h2
    rw [h1, h2, hrec, hkey]
  · intro hrec
    unfold aggregateDouble summarizeDouble
    rw [hk]
    apply List.map_congr_left
    intro k _
    rw [bucketAt_aggregatedDataDouble, bucketAt_aggregatedDataDouble, hrec k]
  · intro hw hb
    have hb2 : sumAbsTotalPrice reordered < 2 ^ 53 := by
      have e : sumAbsTotalPrice reordered = sumAbsTotalPrice sales := by
        unfold sumAbsTotalPrice
        exact List.Perm.sum_eq (List.Perm.map _ h)
      rw [e]
      exact hb
    rw [aggregateDouble_eq_aggregate rt period start sales hw hb,
      aggregateDouble_eq_aggregate rt period start reordered
        (fun sale hs => hw sale (h.mem_iff.1 hs)) hb2]
    exact aggregate_perm rt period start sales reordered h

/-- C21 amended, at a concrete list: a sale of 19.99 in February 2024 and sales of 0.1
and 0.2 on one day of January, and the same records with the sale of February first. -/
theorem aggregateDouble_order_witness :
    (aggregateDouble utcRuntime Period.month none
        [{ saleDate := 1707573600000, totalPrice := 1999 / 100, quantity := 1 },
         { saleDate := 1704448800000, totalPrice := 1 / 10, quantity := 1 },
         { saleDate := 1704448800000, totalPrice := 2 / 10, quantity := 2 }]).map
        PeriodSummary.keyAndQuantity
      = (aggregateDouble utcRuntime Period.month none
        [{ saleDate := 1704448800000, totalPrice := 1 / 10, quantity := 1 },
         { saleDate := 1704448800000, totalPrice := 2 / 10, quantity := 2 },
         { saleDate := 1707573600000, totalPrice := 1999 / 100, quantity := 1 }]).map
        PeriodSummary.keyAndQuantity
    ∧ aggregateDouble utcRuntime Period.month none
        [{ saleDate := 1707573600000, totalPrice := 1999 / 100, quantity := 1 },
         { saleDate := 1704448800000, totalPrice := 1 / 10, quantity := 1 },
         { saleDate := 1704448800000, totalPrice := 2 / 10, quantity := 2 }]
      = [{ period_key := "2024-01", total_revenue := toDouble (3 / 10),
           total_quantity_sold := 3 },
         { period_key := "2024-02", total_revenue := toDouble (1999 / 100),
           total_quantity_sold := 1 }] :=
  ⟨(aggregateDouble_order utcRuntime Period.month none
      [{ saleDate := 1704448800000, totalPrice := 1 / 10, quantity := 1 },
       { saleDate := 1704448800000, totalPrice := 2 / 10, quantity := 2 },
       { saleDate := 1707573600000, totalPrice := 1999 / 100, quantity := 1 }]
      [{ saleDate := 1707573600000, totalPrice := 1999 / 100, quantity := 1 },
       { saleDate := 1704448800000, totalPrice := 1 / 10, quantity := 1 },
       { saleDate := 1704448800000, totalPrice := 2 / 10, quantity := 2 }]
      (by decide!)).1,
   by decide!⟩

/-! ## The inventory update -/

/-- C22 on the code: with an inventory of quantity 5 and the change 1e21, the sum
q + c is not negative, yet the update, answered 200, stores 6 and records the change 1
instead of q + c and c: `parseInt` reads the 1 of "1e+21".  (Evaluated with 32-bit
columns, which take the values written.) -/
theorem updateInventory_huge_change :
    updateInventory int32 exampleInventoryDb "p1" (ChangeQuantity.integer (10 ^ 21))
      = ({ status := 200,
           body := InventoryBody.updated "Inventory updated successfully"
            { productId := "p1", quantity := 6, lowStockThreshold := 10 } },
         { inventory := [{ productId := "p1", quantity := 6, lowStockThreshold := 10 }],
           inventoryHistory := [{ productId := "p1", changeQuantity := 1, newQuantity := 6 }] })
    ∧ (0 : Int) ≤ 5 + 10 ^ 21
    ∧ (6 : Int) ≠ 5 + 10 ^ 21
    ∧ (1 : Int) ≠ 10 ^ 21 := by
  refine ⟨by decide!, by decide, by decide, by decide⟩

/-- With 32-bit columns a quantity above 2147483647 is refused by the store: the answer
is 500 and the database is left as it was. -/
theorem updateInventory_out_of_range :
    updateInventory int32 exampleInventoryDb "p1" (ChangeQuantity.integer 2147483647)
      = ({ status := 500, body := InventoryBody.serverError valueOutOfRange },
         exampleInventoryDb) := by
  decide!

/-- Below 1e21 in magnitude `parseInt` gives the number back. -/
theorem parseIntOfNumber_small (c : Int) (hc : c.natAbs < 10 ^ 21) : parseIntOfNumber c = c := by
  unfold parseIntOfNumber
  rw [if_pos hc]

/-- The row found after an update is the row found before with the new quantity. -/
theorem findUnique_update (db : InventoryDb) (productId : String) (quantity : Int)
    (current : Inventory) (h : db.findUnique productId = some current) :
    (db.update productId quantity).findUnique productId
      = some { current with quantity := quantity } := by
  have key : ∀ rows : List Inventory,
      rows.find? (fun row => decide (row.productId = productId)) = some current →
      (rows.map fun row =>
          if row.productId = productId then { row with quantity := quantity } else row).find?
        (fun row => decide (row.productId = productId))
        = some { current with quantity := quantity } := by
    intro rows
    induction rows with
    | nil => intro h0; simp at h0
    | cons row rest ih =>
      intro h0
      by_cases hr : row.productId = productId
      · rw [List.find?_cons_of_pos _ (by simpa using hr)] at h0
        rw [List.map_cons, if_pos hr, List.find?_cons_of_pos _ (by simpa using hr)]
        rw [Option.some.inj h0]
      · rw [List.find?_cons_of_neg _ (by simpa using hr)] at h0
        rw [List.map_cons, if_neg hr, List.find?_cons_of_neg _ (by simpa using hr)]
        exact ih h0
  exact key db.inventory h

/-- The three ways the update ends for a change below 1e21 in magnitude: with an
inventory of quantity q and q + c not negative, and values the columns take, the answer
is 200, the quantity stored is q + c and one history row (c, q + c) is appended; with
q + c negative the answer is 400, and without an inventory it is 404, the database
being left as it was. -/
theorem updateInventory_small_change (accepts : Int → Bool) (db : InventoryDb)
    (productId : String) (c : Int) (hc : c.natAbs < 10 ^ 21) :
    (∀ current, db.findUnique productId = some current → 0 ≤ current.quantity + c →
      accepts (current.quantity + c) = true → accepts c = true →
      updateInventory accepts db productId (ChangeQuantity.integer c)
        = ({ status := 200,
             body := InventoryBody.updated "Inventory updated successfully"
              { current with quantity := current.quantity + c } },
           (db.update productId (current.quantity + c)).createHistory
             { productId := productId, changeQuantity := c,
               newQuantity := current.quantity + c }))
    ∧ (∀ current, db.findUnique productId = some current → current.quantity + c < 0 →
      updateInventory accepts db productId (ChangeQuantity.integer c)
        = ({ status := 400,
             body := InventoryBody.message "Cannot set inventory quantity below zero." }, db))
    ∧ (db.findUnique productId = none →
      updateInventory accepts db productId (ChangeQuantity.integer c)
        = ({ status := 404,
             body := InventoryBody.message "Inventory for product not found." }, db)) := by
  refine ⟨?_, ?_, ?_⟩
  · intro current hf hq ha1 ha2
    unfold updateInventory updateInventoryTransaction
    simp only [hf, parseIntOfNumber_small c hc, not_lt.2 hq, if_false, ha1, ha2,
      Bool.not_true, Bool.false_eq_true]
  · intro current hf hq
    unfold updateInventory updateInventoryTransaction
    simp only [hf, parseIntOfNumber_small c hc, hq, if_true]
    simp
  · intro hf
    unfold updateInventory updateInventoryTransaction
    simp only [hf]
    simp

/-- Whatever the request, an update leaves no negative quantity in the inventory table
when there was none. -/
theorem updateInventory_nonneg (accepts : Int → Bool) (db : InventoryDb) (productId : String)
    (change_quantity : ChangeQuantity) (h : ∀ row ∈ db.inventory, 0 ≤ row.quantity) :
    ∀ row ∈ (updateInventory accepts db productId change_quantity).2.inventory,
      0 ≤ row.quantity := by
  cases change_quantity with
  | absent => exact h
  | notNumeric => exact h
  | integer c =>
    unfold updateInventory updateInventoryTransaction
    cases hf : db.findUnique productId with
    | none => simpa using h
    | some current =>
      simp only
      by_cases hq : current.quantity + parseIntOfNumber c < 0
      · simp only [hq, if_true]
        simpa using h
      · simp only [hq, if_false]
        by_cases ha1 : accepts (current.quantity + parseIntOfNumber c) = true
        · by_cases ha2 : accepts (parseIntOfNumber c) = true
          · simp only [ha1, ha2, Bool.not_true, Bool.false_eq_true, if_false]
            intro row hrow
            simp only [InventoryDb.createHistory, InventoryDb.update, List.mem_map] at hrow
            obtain ⟨old, hold, rfl⟩ := hrow
            split_ifs
            · exact not_lt.1 hq
            · exact h old hold
          · have ha2f : accepts (parseIntOfNumber c) = false := by simpa using ha2
            simp only [ha1, ha2f, Bool.not_true, Bool.not_false, Bool.false_eq_true, if_false,
              if_true, valueOutOfRange]
            simpa using h
        · have ha1f : accepts (current.quantity + parseIntOfNumber c) = false := by
            simpa using ha1
          simp only [ha1f, Bool.not_false, if_true, valueOutOfRange]
          simpa using h

/-- The update for the changes `parseInt` reads in full: for every integer change c
below 1e21 in magnitude that the integer columns take, and every inventory of quantity q found for the product, with q + c taken
by the columns when it is not negative: the update is answered 200 exactly when
q + c ≥ 0; it then stores q + c, appends the one history row (c, q + c) and leaves a
non-negative quantity; when q + c < 0 it is answered 400 and when the product has no
inventory 404, the inventory and its history being left as they were.  Whatever the
request, no negative quantity enters an inventory table that had none. -/
theorem updateInventory_spec (accepts : Int → Bool) (db : InventoryDb) (productId : String)
    (c : Int) (hc : c.natAbs < 10 ^ 21) (ha : accepts c = true) :
    (∀ current, db.findUnique productId = some current →
      (0 ≤ current.quantity + c → accepts (current.quantity + c) = true) →
      ((updateInventory accepts db productId (ChangeQuantity.integer c)).1.status = 200
          ↔ 0 ≤ current.quantity + c)
      ∧ (0 ≤ current.quantity + c →
          (updateInventory accepts db productId (ChangeQuantity.integer c)).1
            = { status := 200,
                body := InventoryBody.updated "Inventory updated successfully"
                  { current with quantity := current.quantity + c } }
          ∧ (updateInventory accepts db productId (ChangeQuantity.integer c)).2.findUnique
              productId = some { current with quantity := current.quantity + c }
          ∧ (updateInventory accepts db productId (ChangeQuantity.integer c)).2.inventoryHistory
            = db.inventoryHistory
              ++ [{ productId := productId, changeQuantity := c,
                    newQuantity := current.quantity + c }])
      ∧ (current.quantity + c < 0 →
          updateInventory accepts db productId (ChangeQuantity.integer c)
            = ({ status := 400,
                 body := InventoryBody.message "Cannot set inventory quantity below zero." },
               db)))
    ∧ (db.findUnique productId = none →
        updateInventory accepts db productId (ChangeQuantity.integer c)
          = ({ status := 404,
               body := InventoryBody.message "Inventory for product not found." }, db))
    ∧ (∀ change_quantity : ChangeQuantity, (∀ row ∈ db.inventory, 0 ≤ row.quantity) →
        ∀ row ∈ (updateInventory accepts db productId change_quantity).2.inventory,
          0 ≤ row.quantity) := by
  obtain ⟨h200, h400, h404⟩ := updateInventory_small_change accepts db productId c hc
  refine ⟨?_, h404, fun cq h => updateInventory_nonneg accepts db productId cq h⟩
  intro current hf hacc
  refine ⟨?_, ?_, h400 current hf⟩
  · constructor
    · intro hs
      by_contra hneg
      rw [h400 current hf (not_le.1 hneg)] at hs
      have h4 : (400 : Nat) = 200 := hs
      exact absurd h4 (by decide)
    · intro hq
      rw [h200 current hf hq (hacc hq) ha]
  · intro hq
    rw [h200 current hf hq (hacc hq) ha]
    refine ⟨rfl, ?_, rfl⟩
    show ((db.update productId (current.quantity + c)).createHistory _).findUnique productId = _
    exact findUnique_update db productId (current.quantity + c) current hf

/-- The update at a concrete request: removing 3 from the inventory of quantity 5
stores 2 and records the row (-3, 2). -/
theorem updateInventory_spec_witness :
    (updateInventory int32 exampleInventoryDb "p1" (ChangeQuantity.integer (-3))).1
      = { status := 200,
          body := InventoryBody.updated "Inventory updated successfully"
            { productId := "p1", quantity := 5 + -3, lowStockThreshold := 10 } }
    ∧ (updateInventory int32 exampleInventoryDb "p1" (ChangeQuantity.integer (-3))).2.findUnique
        "p1" = some { productId := "p1", quantity := 5 + -3, lowStockThreshold := 10 }
    ∧ (updateInventory int32 exampleInventoryDb "p1"
        (ChangeQuantity.integer (-3))).2.inventoryHistory
      = [] ++ [{ productId := "p1", changeQuantity := -3, newQuantity := 5 + -3 }] :=
  ((updateInventory_spec int32 exampleInventoryDb "p1" (-3) (by decide) (by decide)).1
    { productId := "p1", quantity := 5, lowStockThreshold := 10 } (by decide)
    (fun _ => by decide)).2.1 (by decide)

end Ecommerce
